import Mathlib

/-!
# WattForge: the hyper-train response normaliser of `backend/server.js`

A shallow embedding of the guard-rail code of `src/backend/server.js`
(the `/api/hyper-train` handler, lines 882-1066, the helpers at lines 96-105
and the analysis sanitiser at lines 1266-1314) together with theorems about it.

Modelling conventions

* JavaScript values are the type `JVal`; a property that is absent reads as
  `JVal.undefined`.  Objects are own-property lists kept in JavaScript enumeration
  order (array-index keys ascending, then the other keys in insertion order);
  members inherited from `Object.prototype` are outside the model.
* Numbers are exact rationals extended with `NaN`, `Infinity`, `-Infinity`
  (`JNum`); the rounding of IEEE doubles is idealised away.
* A thrown `TypeError` is the `Except.error` result of a definition.
* Everything the handler takes from the JavaScript library and that has no
  exact rational or string model is a field of `Env`: the clock, the sine and
  cosine samples, `Date` parsing and the number/string coercions.
* A `Date` is its time value, an integer count of milliseconds since the
  epoch; the clock reading is a natural number.  The range limit of `Date`
  (8.64e15 ms either side of the epoch) is not modelled.
-/

namespace WattForge

/-! ## JavaScript values -/

/-- A JavaScript number: an exact rational or one of the three special values. -/
inductive JNum where
  | nan
  | ninf
  | fin (q : ℚ)
  | pinf
  deriving DecidableEq

/-- A JavaScript value as it can occur in the handler: `undefined`, or a value
built by `JSON.parse` or by one of the object literals of the handler. -/
inductive JVal where
  | undefined
  | null
  | bool (b : Bool)
  | num (n : JNum)
  | str (s : String)
  | arr (xs : List JVal)
  | obj (kvs : List (String × JVal))

/-- The exception a definition can raise. -/
inductive JsError where
  | typeError
  deriving DecidableEq

/-- The library functions and ambient readings the handler depends on. -/
structure Env where
  /-- The reading of `Date.now()`, in milliseconds since the epoch. -/
  now : Nat
  /-- The value of `Math.sin((h/24)*Math.PI*2)` for the hour `h`. -/
  sin24 : Nat → ℚ
  /-- The value of `Math.cos((m/12)*Math.PI*2)` for the month index `m`. -/
  cos12 : Nat → ℚ
  /-- The time value of `new Date(s)`; `none` when it is `NaN`. -/
  dateParse : String → Option Int
  /-- The value of `Number(s)` for a string `s`. -/
  strToNum : String → JNum
  /-- The value of `String(q)` for a finite number `q`. -/
  numToStr : ℚ → String

/-- The JavaScript truthiness of a value (`ToBoolean`). -/
def truthy : JVal → Bool
  | .undefined => false
  | .null => false
  | .bool b => b
  | .num .nan => false
  | .num (.fin q) => decide (q ≠ 0)
  | .num _ => true
  | .str s => decide (s ≠ "")
  | .arr _ => true
  | .obj _ => true

/-- The value of `a || b`. -/
def jsOr (a b : JVal) : JVal := if truthy a then a else b

/-- The value of `a₁ || a₂ || ... || aₙ || last`. -/
def orChain : List JVal → JVal → JVal
  | [], last => last
  | a :: rest, last => if truthy a then a else orChain rest last

/-- The test `Array.isArray(v)`. -/
def isArray : JVal → Bool
  | .arr _ => true
  | _ => false

/-- The test `typeof v === 'object'` (true of `null`, arrays and objects). -/
def typeofObject : JVal → Bool
  | .null => true
  | .arr _ => true
  | .obj _ => true
  | _ => false

/-- The test `typeof v === 'string'`. -/
def typeofString : JVal → Bool
  | .str _ => true
  | _ => false

/-- The test `typeof v === 'number'`. -/
def typeofNumber : JVal → Bool
  | .num _ => true
  | _ => false

/-- The test `v == null` (true of `null` and `undefined` only). -/
def looseNull : JVal → Bool
  | .undefined => true
  | .null => true
  | _ => false

/-- Own-property lookup in a property list; `undefined` when the key is absent. -/
def objGet : List (String × JVal) → String → JVal
  | [], _ => .undefined
  | (k, v) :: rest, key => if k = key then v else objGet rest key

/-- Own-property test in a property list. -/
def objHas {α : Type} : List (String × α) → String → Bool
  | [], _ => false
  | (k, _) :: rest, key => if k = key then true else objHas rest key

/-- The member access `v.key` (equivalently `v[key]`) for the property names
the handler reads.  Reading a member of `null` or `undefined` throws; a
primitive or an array has none of those names. -/
def getProp (v : JVal) (key : String) : Except JsError JVal :=
  match v with
  | .undefined => .error .typeError
  | .null => .error .typeError
  | .obj kvs => .ok (objGet kvs key)
  | _ => .ok .undefined

/-- The test `key in v`.  It throws when `v` is not an object; an array has
none of the names the handler tests. -/
def hasProp (key : String) (v : JVal) : Except JsError Bool :=
  match v with
  | .obj kvs => .ok (objHas kvs key)
  | .arr _ => .ok false
  | _ => .error .typeError

/-- The number denoted by a canonical array-index key (`"0"`, `"7"`, `"42"`; no
leading zero, below `2^32 - 1`), which JavaScript enumerates before other keys. -/
def arrayIndex (k : String) : Option Nat :=
  match k.data with
  | [] => none
  | c :: cs =>
    if (c :: cs).all Char.isDigit && (c != '0' || cs.isEmpty) then
      let n := (c :: cs).foldl (fun acc d => 10 * acc + (d.toNat - 48)) 0
      if n < 4294967295 then some n else none
    else none

/-- Insertion of a new key at its place in enumeration order. -/
def objInsert {α : Type} (k : String) (v : α) : List (String × α) → List (String × α)
  | [] => [(k, v)]
  | (k1, v1) :: rest =>
    match arrayIndex k, arrayIndex k1 with
    | some n, some n1 => if n < n1 then (k, v) :: (k1, v1) :: rest else (k1, v1) :: objInsert k v rest
    | some _, none => (k, v) :: (k1, v1) :: rest
    | none, _ => (k1, v1) :: objInsert k v rest

/-- Replacement of the value of a key that is present. -/
def objReplace {α : Type} (k : String) (v : α) : List (String × α) → List (String × α)
  | [] => []
  | (k1, v1) :: rest => if k1 = k then (k1, v) :: rest else (k1, v1) :: objReplace k v rest

/-- The assignment `o[k] = v` on a property list. -/
def objSet {α : Type} (o : List (String × α)) (k : String) (v : α) : List (String × α) :=
  if objHas o k then objReplace k v o else objInsert k v o

/-- The list `Object.values(v)` for an array or an object. -/
def objectValues : JVal → List JVal
  | .arr xs => xs
  | .obj kvs => kvs.map Prod.snd
  | _ => []

/-! ## Dates -/

/-- The number of milliseconds in an hour. -/
def msPerHour : Int := 3600000

/-- The number of milliseconds in a day. -/
def msPerDay : Int := 86400000

/-- The day number (days since 1970-01-01) of a civil date of the proleptic
Gregorian calendar; `m` is the month number 1..12. -/
def daysFromCivil (y m d : Int) : Int :=
  let y1 := if m ≤ 2 then y - 1 else y
  let era := y1 / 400
  let yoe := y1 - era * 400
  let mp := if m > 2 then m - 3 else m + 9
  let doy := (153 * mp + 2) / 5 + d - 1
  let doe := yoe * 365 + yoe / 4 - yoe / 100 + doy
  era * 146097 + doe - 719468

/-- A civil date: year, month number 1..12, day of the month. -/
structure Civil where
  year : Int
  month : Int
  day : Int
  deriving DecidableEq

/-- The civil date of a day number. -/
def civilFromDays (z : Int) : Civil :=
  let z1 := z + 719468
  let era := z1 / 146097
  let doe := z1 - era * 146097
  let yoe := (doe - doe / 1460 + doe / 36524 - doe / 146096) / 365
  let doy := doe - (365 * yoe + yoe / 4 - yoe / 100)
  let mp := (5 * doy + 2) / 153
  let d := doy - (153 * mp + 2) / 5 + 1
  let m := if mp < 10 then mp + 3 else mp - 9
  let y := yoe + era * 400
  ⟨if m ≤ 2 then y + 1 else y, m, d⟩

/-- The day number `MakeDay(year, month, date)` of the library: the month index
may lie outside 0..11 and the date outside the month; both carry over. -/
def makeDay (year month date : Int) : Int :=
  daysFromCivil (year + month / 12) (month % 12 + 1) 1 + (date - 1)

/-- The value of `Date.UTC(year, month, day, 0, 0, 0)`; a year 0..99 is read
as 1900 + year. -/
def dateUTC (year month day : Int) : Int :=
  makeDay (if 0 ≤ year ∧ year ≤ 99 then 1900 + year else year) month day * msPerDay

/-- The value of `d.getUTCFullYear()` for the date with time value `t`. -/
def getUTCFullYear (t : Int) : Int := (civilFromDays (t / msPerDay)).year

/-- The value of `d.getUTCMonth()`, a month index 0..11. -/
def getUTCMonth (t : Int) : Int := (civilFromDays (t / msPerDay)).month - 1

/-- The value of `d.getUTCDate()`. -/
def getUTCDate (t : Int) : Int := (civilFromDays (t / msPerDay)).day

/-- The value of `d.getUTCHours()`. -/
def getUTCHours (t : Int) : Int := (t / msPerHour) % 24

/-- The time value after `d.setUTCMinutes(0,0,0)`. -/
def setUTCMinutesZero (t : Int) : Int := t - t % msPerHour

/-- The time value after `d.setUTCDate(1)`: same month, same time of day. -/
def setUTCDateOne (t : Int) : Int :=
  makeDay (getUTCFullYear t) (getUTCMonth t) 1 * msPerDay + t % msPerDay

/-- The time value after `d.setUTCHours(0)`: same day, same minutes and below. -/
def setUTCHoursZero (t : Int) : Int := (t / msPerDay) * msPerDay + t % msPerHour

/-- The decimal digits of `n`, padded on the left with zeros to width `w`. -/
def padDigits (w n : Nat) : List Char :=
  List.replicate (w - (Nat.toDigits 10 n).length) '0' ++ Nat.toDigits 10 n

/-- The year field of `toISOString`: four digits for 0..9999, otherwise a sign
and six digits. -/
def isoYear (y : Int) : List Char :=
  if 0 ≤ y ∧ y ≤ 9999 then padDigits 4 y.toNat
  else if y < 0 then '-' :: padDigits 6 (-y).toNat
  else '+' :: padDigits 6 y.toNat

/-- The characters of `d.toISOString()`: `YYYY-MM-DDTHH:mm:ss.sssZ`. -/
def toISOChars (t : Int) : List Char :=
  let c := civilFromDays (t / msPerDay)
  isoYear c.year ++ '-' :: padDigits 2 c.month.toNat ++ '-' :: padDigits 2 c.day.toNat
    ++ 'T' :: padDigits 2 ((t / msPerHour) % 24).toNat
    ++ ':' :: padDigits 2 ((t / 60000) % 60).toNat
    ++ ':' :: padDigits 2 ((t / 1000) % 60).toNat
    ++ '.' :: padDigits 3 (t % 1000).toNat ++ ['Z']

/-- The string `d.toISOString()`. -/
def toISOString (t : Int) : String := String.mk (toISOChars t)

/-- The result of `s.replace(/:\d{2}\.\d{3}Z$/, repl)`: the seconds and
milliseconds at the end of `s`, when present, give way to `repl`. -/
def replaceSecondsTail (s repl : List Char) : List Char :=
  match s.reverse with
  | z :: m3 :: m2 :: m1 :: dot :: s2 :: s1 :: col :: pre =>
    if z = 'Z' ∧ m3.isDigit ∧ m2.isDigit ∧ m1.isDigit ∧ dot = '.' ∧ s2.isDigit ∧ s1.isDigit
        ∧ col = ':' then pre.reverse ++ repl else s
  | _ => s

/-- The result of `s.replace(/T\d{2}:\d{2}:\d{2}\.\d{3}Z$/, repl)`: the whole
time of day at the end of `s`, when present, gives way to `repl`. -/
def replaceTimeTail (s repl : List Char) : List Char :=
  match s.reverse with
  | z :: m3 :: m2 :: m1 :: dot :: s2 :: s1 :: c2 :: n2 :: n1 :: c1 :: h2 :: h1 :: tee :: pre =>
    if z = 'Z' ∧ m3.isDigit ∧ m2.isDigit ∧ m1.isDigit ∧ dot = '.' ∧ s2.isDigit ∧ s1.isDigit
        ∧ c2 = ':' ∧ n2.isDigit ∧ n1.isDigit ∧ c1 = ':' ∧ h2.isDigit ∧ h1.isDigit ∧ tee = 'T'
    then pre.reverse ++ repl else s
  | _ => s

/-- The string `new Date(t).toISOString().replace(/:\d{2}\.\d{3}Z$/, ':00:00Z')`. -/
def hourStamp (t : Int) : String :=
  String.mk (replaceSecondsTail (toISOChars t) ":00:00Z".data)

/-- The string `new Date(t).toISOString().replace(/:\d{2}\.\d{3}Z$/, ':00:00:00Z')`. -/
def hourStampLong (t : Int) : String :=
  String.mk (replaceSecondsTail (toISOChars t) ":00:00:00Z".data)

/-- The string
`new Date(t).toISOString().replace(/T\d{2}:\d{2}:\d{2}\.\d{3}Z$/, 'T00:00:00Z')`. -/
def monthStamp (t : Int) : String :=
  String.mk (replaceTimeTail (toISOChars t) "T00:00:00Z".data)

/-- The function `firstOfMonthUtcFrom(ms)`. -/
def firstOfMonthUtcFrom (ms : Int) : Int :=
  dateUTC (getUTCFullYear ms) (getUTCMonth ms) 1

/-- The function `hoursInMonthUtc(year, monthIndex)`: 24 times the day of the
month of day 0 of the following month. -/
def hoursInMonthUtc (year monthIndex : Int) : Int :=
  getUTCDate (dateUTC year (monthIndex + 1) 0) * 24

/-- The function `hoursInMonthTs(d)`. -/
def hoursInMonthTs (t : Int) : Int := hoursInMonthUtc (getUTCFullYear t) (getUTCMonth t)

/-! ## Coercions -/

mutual
/-- The string `String(v)` (`ToString`); an array is its elements joined by
commas, `null` and `undefined` elements contributing nothing. -/
def toStr (env : Env) : JVal → String
  | .undefined => "undefined"
  | .null => "null"
  | .bool b => if b then "true" else "false"
  | .num .nan => "NaN"
  | .num .pinf => "Infinity"
  | .num .ninf => "-Infinity"
  | .num (.fin q) => env.numToStr q
  | .str s => s
  | .arr xs => joinStr env xs
  | .obj _ => "[object Object]"
/-- The string `xs.join(',')`. -/
def joinStr (env : Env) : List JVal → String
  | [] => ""
  | .undefined :: [] => ""
  | .null :: [] => ""
  | x :: [] => toStr env x
  | .undefined :: y :: ys => "," ++ joinStr env (y :: ys)
  | .null :: y :: ys => "," ++ joinStr env (y :: ys)
  | x :: y :: ys => toStr env x ++ "," ++ joinStr env (y :: ys)
end

/-- The number `Number(v)` (`ToNumber`). -/
def toNumber (env : Env) : JVal → JNum
  | .undefined => .nan
  | .null => .fin 0
  | .bool b => .fin (if b then 1 else 0)
  | .num n => n
  | .str s => env.strToNum s
  | .arr xs => env.strToNum (joinStr env xs)
  | .obj _ => .nan

/-- The integer `Math.round(x)`: the nearest integer, ties towards +∞. -/
def mathRound (x : ℚ) : ℤ := ⌊x + 1 / 2⌋

/-! ## Guard-rail helpers of `/api/hyper-train` -/

/-- The function `clampNumber(v, {min, max})`:
`const n=Number(v); return Number.isNaN(n)?min:Math.min(max,Math.max(min,n))`. -/
def clampNumber (env : Env) (v : JVal) (lo hi : ℚ) : ℚ :=
  match toNumber env v with
  | .nan => lo
  | .ninf => min hi lo
  | .fin n => min hi (max lo n)
  | .pinf => hi

/-- The member `item.key` of a value that is neither `null` nor `undefined`,
for the property names the handler reads. -/
def memberOf (item : JVal) (key : String) : JVal :=
  match item with
  | .obj kvs => objGet kvs key
  | _ => .undefined

/-- The value of `item && item.key`. -/
def andProp (item : JVal) (key : String) : JVal :=
  if truthy item then memberOf item key else item

/-- An entry `{ time, value }` of an hourly series. -/
structure HPoint where
  time : String
  value : ℚ
  deriving DecidableEq

/-- An entry `{ month, value }` of a monthly series. -/
structure MPoint where
  month : String
  value : ℚ
  deriving DecidableEq

/-- The entry the first loop of `normalizeHourlyGroup` pushes for `arr[i]`. -/
def hourlyTaken (env : Env) (i : Nat) (item : JVal) : HPoint :=
  { time :=
      if truthy item then
        match memberOf item "time" with
        | .str s => s
        | _ => hourStamp ((env.now : Int) + (i : Int) * 3600000)
      else hourStamp ((env.now : Int) + (i : Int) * 3600000)
    value := clampNumber env (andProp item "value") 0 50 }

/-- The entry the padding loop of `normalizeHourlyGroup` pushes at index `i`. -/
def hourlyPad (env : Env) (i : Nat) : HPoint :=
  let d := setUTCMinutesZero ((env.now : Int) + (i : Int) * 3600000)
  let diurnal := env.sin24 (getUTCHours d).toNat
  let val := clampNumber env (.num (.fin (2 + diurnal))) 0 50
  { time := hourStamp d, value := (mathRound (val * 1000) : ℚ) / 1000 }

/-- The function `normalizeHourlyGroup(arr)`. -/
def normalizeHourlyGroup (env : Env) (arr : JVal) : List HPoint :=
  match arr with
  | .arr xs =>
    let out := (xs.take 48).enum.map (fun p => hourlyTaken env p.1 p.2)
    out ++ (List.range' out.length (48 - out.length)).map (hourlyPad env)
  | _ => []

/-- The element `arr[i]` of an array; `undefined` past the end. -/
def arrGet (xs : List JVal) (i : Nat) : JVal := xs.getD i .undefined

/-- The entry `normalizeMonthlyGroup` pushes at index `i`. -/
def monthlyEntry (env : Env) (arr : JVal) (startMonthDate : Int) (i : Nat) : MPoint :=
  let target := dateUTC (getUTCFullYear startMonthDate) (getUTCMonth startMonthDate + i) 1
  let item : JVal :=
    match arr with
    | .arr xs => arrGet xs i
    | _ => .null
  let val : JVal :=
    if truthy item then memberOf item "value" else .null
  let val : JVal :=
    if looseNull val then
      let hoursMonth := hoursInMonthTs target
      let season : ℚ := 1 + (1 / 10) * env.cos12 (getUTCMonth target).toNat
      .num (.fin (hoursMonth * ((22 / 10) * season)))
    else val
  { month := monthStamp target, value := clampNumber env val 0 (24 * hoursInMonthTs target) }

/-- The function `normalizeMonthlyGroup(arr, startMonthDate)`. -/
def normalizeMonthlyGroup (env : Env) (arr : JVal) (startMonthDate : Int) : List MPoint :=
  (List.range 12).map (monthlyEntry env arr startMonthDate)

/-! ## Schema parsing of `/api/hyper-train` -/

/-- The wrapper keys of the unwrapping loop. -/
def unwrapKeys : List String := ["data", "result", "output", "response"]

/-- The test "`p` occurs in `s`". -/
def hasSub (p : List Char) : List Char → Bool
  | [] => p.isEmpty
  | c :: cs => p.isPrefixOf (c :: cs) || hasSub p cs

/-- The test `/hourly|monthly|analysis|generated/i.test(x)`. -/
def forecastKey (x : String) : Bool :=
  let l := x.data.map Char.toLower
  hasSub "hourly".data l || hasSub "monthly".data l || hasSub "analysis".data l
    || hasSub "generated".data l

/-- One round of the unwrapping loop, for the wrapper key `k`. -/
def unwrapStep (parsed : JVal) (k : String) : JVal :=
  if truthy parsed && typeofObject parsed then
    match memberOf parsed k with
    | .obj inner =>
      if (inner.map Prod.fst).any forecastKey then
        .obj (objSet inner "analysis" (jsOr (memberOf parsed "analysis") (objGet inner "analysis")))
      else parsed
    | _ => parsed
  else parsed

/-- The function `arrayToMap(raw)`. -/
def arrayToMap (env : Env) (raw : JVal) : JVal :=
  match raw with
  | .arr xs =>
    .obj (xs.foldl (fun map entry =>
      if truthy entry then
        let gk := orChain [memberOf entry "group", memberOf entry "key"] (memberOf entry "id")
        if looseNull gk then map
        else objSet map (toStr env gk)
          (orChain [memberOf entry "data", memberOf entry "values", memberOf entry "hourly",
            memberOf entry "monthly", memberOf entry "forecast"] (.arr []))
      else map) [])
  | _ => raw

/-- The function `canonTime(ts, isMonth)`; its result is a string or `null`. -/
def canonTime (env : Env) (ts : JVal) (isMonth : Bool) : JVal :=
  match ts with
  | .str s =>
    if s = "" then .null
    else
      match env.dateParse s with
      | none => .null
      | some t =>
        let d := setUTCMinutesZero t
        if isMonth then .str (monthStamp (setUTCHoursZero (setUTCDateOne d)))
        else .str (hourStampLong d)
  | _ => .null

/-- The call `arr.map(f)`: a `TypeError` unless `arr` is an array. -/
def jsMap (arr : JVal) (f : Nat → JVal → Except JsError JVal) : Except JsError JVal :=
  match arr with
  | .arr xs => (xs.enum.mapM (fun p => f p.1 p.2)).map JVal.arr
  | _ => .error .typeError

/-- The array handed to `normalizeHourlyGroup` for the group key `g`
(lines 999-1006). -/
def hourlyArr (env : Env) (hourlySource : JVal) (g : String) : Except JsError JVal :=
  let arr := orChain [memberOf hourlySource g, memberOf hourlySource g] (.arr [])
  let arr :=
    match arr with
    | .obj kvs => if isArray (objGet kvs "values") then objGet kvs "values" else arr
    | _ => arr
  let arr :=
    match arr with
    | .arr (x :: xs) =>
      if typeofNumber x then
        .arr ((x :: xs).enum.map (fun p => .obj
          [("time", .str (hourStampLong ((env.now : Int) + (p.1 : Int) * 3600000))), ("value", p.2)]))
      else arr
    | _ => arr
  jsMap arr (fun _ r => do
    let t ← getProp r "time"
    let v ← getProp r "value"
    pure (.obj [("time", orChain [canonTime env t false, t] (.str (hourStampLong env.now))),
      ("value", v)]))

/-- The date `startNext`: the first day of the month after the current one. -/
def startNext (env : Env) : Int :=
  dateUTC (getUTCFullYear env.now) (getUTCMonth env.now + 1) 1

/-- The array handed to `normalizeMonthlyGroup` for the group key `g`
(lines 1015-1021). -/
def monthlyArr (env : Env) (monthlySource : JVal) (g : String) : Except JsError JVal :=
  let arr := orChain [memberOf monthlySource g, memberOf monthlySource g] (.arr [])
  let arr :=
    match arr with
    | .obj kvs => if isArray (objGet kvs "values") then objGet kvs "values" else arr
    | _ => arr
  let arr :=
    match arr with
    | .arr (x :: xs) =>
      if typeofNumber x then
        .arr ((x :: xs).enum.map (fun p => .obj
          [("month", .str (monthStamp (dateUTC (getUTCFullYear (startNext env))
              (getUTCMonth (startNext env) + (p.1 : Int)) 1))), ("value", p.2)]))
      else arr
    | _ => arr
  jsMap arr (fun _ r => do
    let m ← getProp r "month"
    let v ← getProp r "value"
    pure (.obj [("month", orChain [canonTime env m true, m]
        (.str (monthStamp (dateUTC (getUTCFullYear (startNext env)) (getUTCMonth (startNext env)) 1)))),
      ("value", v)]))

/-- The loop `for (const g of groupKeys) groups[g] = f(g)` started from `{}`. -/
def buildGroups {α : Type} (groupKeys : List String) (f : String → Except JsError α) :
    Except JsError (List (String × α)) :=
  groupKeys.foldlM (fun m g => do
    let v ← f g
    pure (objSet m g v)) []

mutual
/-- The function `findTimeSeries(obj)` of the salvage path; `none` is its
`null` result. -/
def findTimeSeries : JVal → Except JsError (Option (List JVal))
  | .arr xs =>
    match xs with
    | [] => findInList xs
    | x :: _ =>
      if typeofObject x then
        match hasProp "time" x, hasProp "timestamp" x, hasProp "value" x, hasProp "val" x with
        | .ok t, .ok ts, .ok v, .ok vl =>
          if (t || ts) && (v || vl) then .ok (some xs) else findInList xs
        | _, _, _, _ => .error .typeError
      else findInList xs
  | .obj kvs => findInObj kvs
  | _ => .ok none
/-- The loop of `findTimeSeries` over the elements of an array. -/
def findInList : List JVal → Except JsError (Option (List JVal))
  | [] => .ok none
  | v :: vs =>
    match findTimeSeries v with
    | .ok (some found) => .ok (some found)
    | .ok none => findInList vs
    | .error e => .error e
/-- The loop of `findTimeSeries` over the values of an object. -/
def findInObj : List (String × JVal) → Except JsError (Option (List JVal))
  | [] => .ok none
  | (_, v) :: kvs =>
    match findTimeSeries v with
    | .ok (some found) => .ok (some found)
    | .ok none => findInObj kvs
    | .error e => .error e
end

/-- The hourly and monthly maps and the analysis the handler puts in
`responsePayload`; `none` is `null`. -/
structure ResponsePayload where
  hourly_forecast_groups : Option (List (String × List HPoint))
  monthly_forecast_groups : Option (List (String × List MPoint))
  analysis : JVal
  parsed_original : JVal

/-- The entry `{ time: r.time || r.timestamp, value: r.value || r.val }` the
salvage path builds from an element `r` of the series it found. -/
def salvageEntry (r : JVal) : Except JsError JVal := do
  let t ← getProp r "time"
  let ts ← getProp r "timestamp"
  let v ← getProp r "value"
  let vl ← getProp r "val"
  pure (.obj [("time", jsOr t ts), ("value", jsOr v vl)])

/-- The hourly map after the alias-container block (lines 996-1009). -/
def hourlyFromSource (env : Env) (hourlySource : JVal) (groupKeys : List String) :
    Except JsError (Option (List (String × List HPoint))) :=
  if truthy hourlySource && typeofObject hourlySource then
    (buildGroups groupKeys (fun g =>
      (hourlyArr env hourlySource g).map (normalizeHourlyGroup env))).map some
  else .ok none

/-- The monthly map after the alias-container block (lines 1010-1024). -/
def monthlyFromSource (env : Env) (monthlySource : JVal) (groupKeys : List String) :
    Except JsError (Option (List (String × List MPoint))) :=
  if truthy monthlySource && typeofObject monthlySource then
    (buildGroups groupKeys (fun g =>
      (monthlyArr env monthlySource g).map (fun a => normalizeMonthlyGroup env a (startNext env)))).map some
  else .ok none

/-- The hourly map after the `generated` backward-compatibility block
(lines 1027-1030). -/
def hourlyFromGenerated (env : Env) (parsed : JVal) (groupKeys : List String)
    (hourlyGroups : Option (List (String × List HPoint))) :
    Except JsError (Option (List (String × List HPoint))) :=
  match hourlyGroups with
  | some h => .ok (some h)
  | none =>
    if truthy (memberOf parsed "generated") && isArray (memberOf parsed "generated") then
      (buildGroups groupKeys (fun _ =>
        .ok (normalizeHourlyGroup env (memberOf parsed "generated")))).map some
    else .ok none

/-- The monthly map after the fallback block (lines 1031-1036). -/
def monthlyFallback (env : Env) (groupKeys : List String)
    (hourlyGroups : Option (List (String × List HPoint)))
    (monthlyGroups : Option (List (String × List MPoint))) :
    Except JsError (Option (List (String × List MPoint))) :=
  match monthlyGroups, hourlyGroups with
  | none, some _ =>
    (buildGroups groupKeys (fun _ =>
      .ok (normalizeMonthlyGroup env (.arr []) (startNext env)))).map some
  | m, _ => .ok m

/-- The hourly map after the salvage block (lines 1038-1055). -/
def hourlySalvage (env : Env) (parsed : JVal) (groupKeys : List String)
    (hourlyGroups : Option (List (String × List HPoint))) :
    Except JsError (Option (List (String × List HPoint))) :=
  match hourlyGroups with
  | some h => .ok (some h)
  | none => do
    match ← findTimeSeries parsed with
    | some series =>
      (buildGroups groupKeys (fun _ =>
        (jsMap (.arr series) (fun _ r => salvageEntry r)).map (normalizeHourlyGroup env))).map some
    | none => pure none

/-- The value `hourlyRaw` (line 968): the first truthy member among the
accepted names of the hourly container. -/
def hourlyRawOf (parsed : JVal) : JVal :=
  orChain [memberOf parsed "hourly_forecast_groups",
    memberOf parsed "hourlyForecastGroups", memberOf parsed "hourly_forecast",
    memberOf parsed "hourlyGroups", memberOf parsed "hourly", memberOf parsed "forecast_hourly"]
    (memberOf parsed "hourlyForecast")

/-- The value `monthlyRaw` (line 970): the first truthy member among the
accepted names of the monthly container. -/
def monthlyRawOf (parsed : JVal) : JVal :=
  orChain [memberOf parsed "monthly_forecast_groups",
    memberOf parsed "monthlyForecastGroups", memberOf parsed "monthly_forecast",
    memberOf parsed "monthlyGroups", memberOf parsed "monthly", memberOf parsed "forecast_monthly"]
    (memberOf parsed "monthlyForecast")

/-- The schema parsing of the handler (lines 955-1066): from the value of
`parsed` after JSON extraction to the maps of the response payload. -/
def schemaParse (env : Env) (parsed0 : JVal) (groupKeys : List String) :
    Except JsError ResponsePayload :=
  if truthy parsed0 then do
    let parsed := unwrapKeys.foldl unwrapStep parsed0
    let hourlyRaw := hourlyRawOf parsed
    let monthlyRaw := monthlyRawOf parsed
    let hourlySource := arrayToMap env hourlyRaw
    let monthlySource := arrayToMap env monthlyRaw
    let h1 ← hourlyFromSource env hourlySource groupKeys
    let m1 ← monthlyFromSource env monthlySource groupKeys
    let analysis := orChain [memberOf parsed "analysis", memberOf parsed "analysis_result",
      memberOf parsed "summary"] .null
    let h2 ← hourlyFromGenerated env parsed groupKeys h1
    let m2 ← monthlyFallback env groupKeys h2 m1
    let h3 ← hourlySalvage env parsed groupKeys h2
    pure { hourly_forecast_groups := h3, monthly_forecast_groups := m2, analysis := analysis,
           parsed_original := parsed }
  else
    .ok { hourly_forecast_groups := none, monthly_forecast_groups := none, analysis := .null,
          parsed_original := .null }

/-! ## `JSON.parse` -/

/-- The white space of the JSON grammar. -/
def isJsonWs (c : Char) : Bool := c = ' ' || c = '\t' || c = '\n' || c = '\r'

/-- The rest of the input after leading JSON white space. -/
def skipWs (cs : List Char) : List Char := cs.dropWhile isJsonWs

/-- The value of a hexadecimal digit. -/
def hexVal (c : Char) : Option Nat :=
  if c.isDigit then some (c.toNat - 48)
  else if 'a' ≤ c ∧ c ≤ 'f' then some (c.toNat - 87)
  else if 'A' ≤ c ∧ c ≤ 'F' then some (c.toNat - 55)
  else none

/-- The code unit written by the four hexadecimal digits of a `\u` escape. -/
def hex4 (a b c d : Char) : Option Nat := do
  let x ← hexVal a
  let y ← hexVal b
  let z ← hexVal c
  let w ← hexVal d
  pure (((x * 16 + y) * 16 + z) * 16 + w)

/-- The character of a code unit outside the surrogate range; a lone surrogate,
which a `String` cannot hold, reads as U+FFFD. -/
def unitChar (u : Nat) : Char :=
  if 0xD800 ≤ u ∧ u ≤ 0xDFFF then Char.ofNat 0xFFFD else Char.ofNat u

/-- The body of a JSON string literal after its opening quote: the string and
the rest of the input after the closing quote. -/
def parseStringBody : List Char → List Char → Option (String × List Char)
  | [], _ => none
  | '\\' :: 'u' :: a :: b :: c :: d :: '\\' :: 'u' :: e :: f :: g :: h :: rest, acc =>
    match hex4 a b c d, hex4 e f g h with
    | some hi, some lo =>
      if 0xD800 ≤ hi ∧ hi ≤ 0xDBFF ∧ 0xDC00 ≤ lo ∧ lo ≤ 0xDFFF then
        parseStringBody rest (Char.ofNat (0x10000 + (hi - 0xD800) * 1024 + (lo - 0xDC00)) :: acc)
      else parseStringBody rest (unitChar lo :: unitChar hi :: acc)
    | _, _ => none
  | '\\' :: 'u' :: a :: b :: c :: d :: rest, acc =>
    match hex4 a b c d with
    | some u => parseStringBody rest (unitChar u :: acc)
    | none => none
  | '\\' :: e :: rest, acc =>
    if e = '"' ∨ e = '\\' ∨ e = '/' then parseStringBody rest (e :: acc)
    else if e = 'b' then parseStringBody rest (Char.ofNat 8 :: acc)
    else if e = 'f' then parseStringBody rest (Char.ofNat 12 :: acc)
    else if e = 'n' then parseStringBody rest ('\n' :: acc)
    else if e = 'r' then parseStringBody rest ('\r' :: acc)
    else if e = 't' then parseStringBody rest ('\t' :: acc)
    else none
  | c :: rest, acc =>
    if c = '"' then some (String.mk acc.reverse, rest)
    else if c = '\\' then none
    else if c.toNat < 32 then none
    else parseStringBody rest (c :: acc)

/-- The natural number written by a list of decimal digits. -/
def digitsVal (ds : List Char) : Nat := ds.foldl (fun acc d => 10 * acc + (d.toNat - 48)) 0

/-- The number a finite decimal reads as: a magnitude at or above
`2^1024 - 2^970` overflows to an infinity. -/
def overflow (q : ℚ) : JNum :=
  if (2 : ℚ) ^ 1024 - 2 ^ 970 ≤ q then .pinf
  else if q ≤ -((2 : ℚ) ^ 1024 - 2 ^ 970) then .ninf
  else .fin q

/-- The exponent part of a JSON number, when present: the scale factor and the
rest of the input. -/
def parseExponent (cs : List Char) : Option (ℚ × List Char) :=
  match cs with
  | e :: rest =>
    if e = 'e' ∨ e = 'E' then
      let (neg, rest1) :=
        match rest with
        | s :: r => if s = '-' then (true, r) else if s = '+' then (false, r) else (false, rest)
        | [] => (false, rest)
      let ds := rest1.takeWhile Char.isDigit
      if ds.isEmpty then none
      else some (if neg then 1 / (10 : ℚ) ^ digitsVal ds else (10 : ℚ) ^ digitsVal ds,
        rest1.dropWhile Char.isDigit)
    else some (1, cs)
  | [] => some (1, cs)

/-- The fraction part of a JSON number, when present. -/
def parseFraction (cs : List Char) : Option (ℚ × List Char) :=
  match cs with
  | dot :: rest =>
    if dot = '.' then
      let ds := rest.takeWhile Char.isDigit
      if ds.isEmpty then none
      else some ((digitsVal ds : ℚ) / (10 : ℚ) ^ ds.length, rest.dropWhile Char.isDigit)
    else some (0, cs)
  | [] => some (0, cs)

/-- The unsigned part of a JSON number. -/
def parseUnsigned (cs : List Char) : Option (ℚ × List Char) :=
  let ds := cs.takeWhile Char.isDigit
  let rest := cs.dropWhile Char.isDigit
  match ds with
  | [] => none
  | d :: more =>
    if d = '0' ∧ ¬ more.isEmpty then none
    else do
      let (fr, rest1) ← parseFraction rest
      let (sc, rest2) ← parseExponent rest1
      pure (((digitsVal ds : ℚ) + fr) * sc, rest2)

/-- A JSON number at the head of the input. -/
def parseNumber (cs : List Char) : Option (JNum × List Char) :=
  match cs with
  | '-' :: rest => (parseUnsigned rest).map (fun p => (overflow (-p.1), p.2))
  | _ => (parseUnsigned cs).map (fun p => (overflow p.1, p.2))

mutual
/-- A JSON value at the head of the input, after white space; the first
argument bounds the nesting depth. -/
def parseValue : Nat → List Char → Option (JVal × List Char)
  | 0, _ => none
  | fuel + 1, cs =>
    match skipWs cs with
    | [] => none
    | c :: rest =>
      if c = '\x7b' then
        match skipWs rest with
        | '\x7d' :: rest1 => some (.obj [], rest1)
        | _ => parseMembers fuel fuel rest []
      else if c = '[' then
        match skipWs rest with
        | ']' :: rest1 => some (.arr [], rest1)
        | _ => parseElements fuel fuel rest []
      else if c = '"' then
        (parseStringBody rest []).map (fun p => (.str p.1, p.2))
      else if "true".data.isPrefixOf (c :: rest) then some (.bool true, (c :: rest).drop 4)
      else if "false".data.isPrefixOf (c :: rest) then some (.bool false, (c :: rest).drop 5)
      else if "null".data.isPrefixOf (c :: rest) then some (.null, (c :: rest).drop 4)
      else (parseNumber (c :: rest)).map (fun p => (.num p.1, p.2))
/-- The elements of a JSON array after `[` or `,`, up to the closing `]`; the
second argument bounds the number of elements. -/
def parseElements : Nat → Nat → List Char → List JVal → Option (JVal × List Char)
  | _, 0, _, _ => none
  | fuel, n + 1, cs, acc =>
    match parseValue fuel cs with
    | none => none
    | some (v, rest) =>
      match skipWs rest with
      | ',' :: rest1 => parseElements fuel n rest1 (v :: acc)
      | ']' :: rest1 => some (.arr (v :: acc).reverse, rest1)
      | _ => none
/-- The members of a JSON object after the opening brace or `,`, up to the
closing brace; a repeated key keeps its place and takes the later value. -/
def parseMembers : Nat → Nat → List Char → List (String × JVal) → Option (JVal × List Char)
  | _, 0, _, _ => none
  | fuel, n + 1, cs, acc =>
    match skipWs cs with
    | '"' :: rest =>
      match parseStringBody rest [] with
      | none => none
      | some (k, rest1) =>
        match skipWs rest1 with
        | ':' :: rest2 =>
          match parseValue fuel rest2 with
          | none => none
          | some (v, rest3) =>
            match skipWs rest3 with
            | ',' :: rest4 => parseMembers fuel n rest4 (objSet acc k v)
            | '\x7d' :: rest4 => some (.obj (objSet acc k v), rest4)
            | _ => none
        | _ => none
    | _ => none
end

/-- The call `JSON.parse(text)`; `none` when it throws a `SyntaxError`.  The
nesting depth and the number of elements of a value are both below the
length of the text. -/
def jsonParse (text : List Char) : Option JVal :=
  match parseValue (text.length + 1) text with
  | some (v, rest) => if (skipWs rest).isEmpty then some v else none
  | none => none

/-! ## JSON extraction of `/api/hyper-train` (lines 882-915) -/

/-- The longest prefix of the input that ends in the character `c`. -/
def uptoLast (c : Char) : List Char → Option (List Char)
  | [] => none
  | x :: xs =>
    match uptoLast c xs with
    | some p => some (x :: p)
    | none => if x = c then some [x] else none

/-- The match of `/o[\s\S]*c/` in the input, for distinct characters `o` and
`c`: from the first `o` to the last `c` after it. -/
def firstToLast (o c : Char) (s : List Char) : Option (List Char) :=
  match s.dropWhile (fun x => x != o) with
  | [] => none
  | _ :: rest => (uptoLast c rest).map (fun p => o :: p)

/-- The rest of the input after the first occurrence of `lit` that no opening
brace precedes. -/
def afterLiteral (lit : List Char) : List Char → Option (List Char)
  | [] => none
  | c :: cs =>
    if lit.isPrefixOf (c :: cs) then some ((c :: cs).drop lit.length)
    else if c = '\x7b' then none
    else afterLiteral lit cs

/-- The match of `/\{[^{]*"generated"[\s\S]*\}/` in the input: from the first
opening brace that is followed, with no other opening brace between, by the
quoted word `generated` and later a closing brace, to the last closing brace. -/
def matchGeneratedObject : List Char → Option (List Char)
  | [] => none
  | c :: cs =>
    if c = '\x7b' then
      match afterLiteral "\"generated\"".data cs with
      | some after =>
        if (uptoLast '\x7d' after).isSome then (uptoLast '\x7d' cs).map (fun p => c :: p)
        else matchGeneratedObject cs
      | none => matchGeneratedObject cs
    else matchGeneratedObject cs

/-- The removal of every occurrence of the non-empty pattern `p`, scanning from
the left, upper and lower case letters alike when `ci` is set; the first
argument counts the characters of a match still to be dropped. -/
def removeAll (p : List Char) (ci : Bool) : Nat → List Char → List Char
  | _, [] => []
  | skip + 1, _ :: cs => removeAll p ci skip cs
  | 0, c :: cs =>
    if p.isPrefixOf (if ci then (c :: cs).map Char.toLower else c :: cs) then
      removeAll p ci (p.length - 1) cs
    else c :: removeAll p ci 0 cs

/-- The white space and line terminators that `trim()` strips. -/
def isTrimWs (c : Char) : Bool :=
  let n := c.toNat
  (9 ≤ n && n ≤ 13) || n = 32 || n = 160 || n = 5760 || (8192 ≤ n && n ≤ 8202)
    || n = 8232 || n = 8233 || n = 8239 || n = 8287 || n = 12288 || n = 65279

/-- The string `s.trim()`. -/
def jsTrim (s : List Char) : List Char :=
  ((s.dropWhile isTrimWs).reverse.dropWhile isTrimWs).reverse

/-- The string `cleaned` of the second pass (lines 898-902). -/
def cleanedText (text : List Char) : List Char :=
  jsTrim (((removeAll "```".data false 0 (removeAll "```json".data true 0 text))).map
    (fun c => if c = '\n' then ' ' else c))

/-- The value of `parsed` after the first pass (lines 882-895); `null` when
nothing parsed. -/
def firstPass (text : List Char) : JVal :=
  if text.isEmpty then .null
  else
    match firstToLast '\x7b' '\x7d' text with
    | some m =>
      match jsonParse m with
      | some v => v
      | none => .null
    | none =>
      match firstToLast '[' ']' text with
      | some m =>
        match jsonParse m with
        | some v => .obj [("generated", v)]
        | none => .null
      | none => .null

/-- The test `!parsed || !parsed.generated`. -/
def lacksGenerated (parsed : JVal) : Bool :=
  !truthy parsed || !truthy (memberOf parsed "generated")

/-- The default analysis the second pass attaches to a bare array. -/
def defaultAnalysis : JVal :=
  .obj [("drivers", .arr []), ("recommendations", .arr []),
    ("summary", .obj [("avg", .num (.fin 0)), ("min", .num (.fin 0)), ("max", .num (.fin 0)),
      ("peakHour", .num (.fin 0))])]

/-- The value of `parsed` after the second pass (lines 896-915). -/
def secondPass (text : List Char) (parsed : JVal) : JVal :=
  if lacksGenerated parsed && !text.isEmpty then
    let cleaned := cleanedText text
    let parsed1 :=
      match matchGeneratedObject cleaned with
      | some m =>
        match jsonParse m with
        | some v => v
        | none => parsed
      | none => parsed
    if lacksGenerated parsed1 then
      match firstToLast '[' ']' cleaned with
      | some m =>
        match jsonParse m with
        | some v => .obj [("generated", v), ("analysis", defaultAnalysis)]
        | none => parsed1
      | none => parsed1
    else parsed1
  else parsed

/-- The value of `parsed` the schema parsing starts from, for the response
text `jsonPayloadText`. -/
def extractParsed (text : String) : JVal :=
  secondPass text.data (firstPass text.data)

/-- The normalisation pipeline of the handler from the response text
`jsonPayloadText` to the maps of the response payload (lines 882-1066). -/
def hyperTrain (env : Env) (text : String) (groupKeys : List String) :
    Except JsError ResponsePayload :=
  schemaParse env (extractParsed text) groupKeys

/-! ## The synthetic monthly values of `/api/predict-csv` (lines 279-293) -/

/-- The date `d` of the monthly row `m` for the start time `startMs`. -/
def csvMonthDate (startMs : Int) (m : Nat) : Int :=
  dateUTC (getUTCFullYear (firstOfMonthUtcFrom startMs))
    (getUTCMonth (firstOfMonthUtcFrom startMs) + m) 1

/-- The number `perHour * hInMonth` that the monthly row `m` holds for the
group of index `i`, before `fmtFWh` writes it with three decimals. -/
def csvMonthlyValue (env : Env) (startMs : Int) (m i : Nat) : ℚ :=
  let d := csvMonthDate startMs m
  let hInMonth := hoursInMonthUtc (getUTCFullYear d) (getUTCMonth d)
  let perHour : ℚ := max 0 (2 + (3 / 10) * env.cos12 (getUTCMonth d).toNat + (2 / 100) * i)
  perHour * hInMonth

/-! ## Guard-rail helpers of `/api/analyze-training` (lines 1266-1314) -/

/-- The function `sanitizeNumber(n, fallback, {min, max})`. -/
def sanitizeNumber (env : Env) (n : JVal) (fallback lo hi : ℚ) : ℚ :=
  match toNumber env n with
  | .nan => fallback
  | .ninf => min hi lo
  | .fin v => min hi (max lo v)
  | .pinf => hi

/-- The object `summary` of a sanitised analysis. -/
structure Summary where
  avg : ℚ
  min : ℚ
  max : ℚ
  peakHour : ℤ
  deriving DecidableEq

/-- The object `sanitizedSummary` as first built (lines 1301-1306). -/
def summaryFields (env : Env) (summary : JVal) : Summary :=
  { avg := sanitizeNumber env (memberOf summary "avg") 0 0 100000
    min := sanitizeNumber env (memberOf summary "min") 0 0 100000
    max := sanitizeNumber env (memberOf summary "max") 0 0 100000
    peakHour := mathRound (sanitizeNumber env (memberOf summary "peakHour") 0 0 23) }

/-- The repair `if (s.min > s.avg) s.min = s.avg`. -/
def repairMin (s : Summary) : Summary := if s.min > s.avg then { s with min := s.avg } else s

/-- The repair `if (s.avg > s.max) s.max = s.avg`. -/
def repairMax (s : Summary) : Summary := if s.avg > s.max then { s with max := s.avg } else s

/-- The test `/\d{4}-\d{2}-\d{2}T/.test(t)`. -/
def hasIsoDate : List Char → Bool
  | [] => false
  | c :: cs =>
    (match c :: cs with
      | y1 :: y2 :: y3 :: y4 :: d1 :: m1 :: m2 :: d2 :: a1 :: a2 :: tee :: _ =>
        y1.isDigit && y2.isDigit && y3.isDigit && y4.isDigit && d1 = '-' && m1.isDigit
          && m2.isDigit && d2 = '-' && a1.isDigit && a2.isDigit && tee = 'T'
      | _ => false) || hasIsoDate cs

/-- The function `isIso(t)`. -/
def isIso (env : Env) (t : JVal) : Bool :=
  match t with
  | .str s => hasIsoDate s.data && (env.dateParse s).isSome
  | _ => false

/-- The entry `buildSyntheticForecast` pushes at index `i`. -/
def syntheticEntry (env : Env) (i : Nat) : HPoint :=
  let d : Int := (env.now : Int) + (i : Int) * 3600000
  let val : ℚ := max 0 (2 + env.sin24 (getUTCHours d).toNat)
  { time := toISOString d, value := (mathRound (val * 1000) : ℚ) / 1000 }

/-- The function `buildSyntheticForecast(len)`. -/
def buildSyntheticForecast (env : Env) (len : Nat) : List HPoint :=
  (List.range len).map (syntheticEntry env)

/-- The entry the first loop of `sanitizeForecast` pushes for `f[i]`. -/
def forecastTaken (env : Env) (i : Nat) (item : JVal) : HPoint :=
  { time :=
      if truthy item then
        match memberOf item "time" with
        | .str s => if isIso env (.str s) then s else toISOString ((env.now : Int) + (i : Int) * 3600000)
        | _ => toISOString ((env.now : Int) + (i : Int) * 3600000)
      else toISOString ((env.now : Int) + (i : Int) * 3600000)
    value := sanitizeNumber env (andProp item "value") 0 0 50 }

/-- The padding loop of `sanitizeForecast`, with `n` rounds to go: each round
pushes `buildSyntheticForecast(48 - cleaned.length)[0]`. -/
def padForecast (env : Env) : Nat → List HPoint → List HPoint
  | 0, cleaned => cleaned
  | n + 1, cleaned =>
    padForecast env n (cleaned ++ (buildSyntheticForecast env (48 - cleaned.length)).take 1)

/-- The function `sanitizeForecast(f)`. -/
def sanitizeForecast (env : Env) (f : JVal) : List HPoint :=
  match f with
  | .arr xs =>
    let cleaned := (xs.take 48).enum.map (fun p => forecastTaken env p.1 p.2)
    padForecast env (48 - cleaned.length) cleaned
  | _ => buildSyntheticForecast env 48

/-- The UTF-16 code units of a character: one unit below U+10000, a surrogate
pair from there on. -/
def charUnits (c : Char) : List Nat :=
  if c.toNat < 65536 then [c.toNat]
  else [55296 + (c.toNat - 65536) / 1024, 56320 + (c.toNat - 65536) % 1024]

/-- The UTF-16 code units of a string, the form in which JavaScript indexes
and slices it. -/
def utf16 (s : String) : List Nat := s.data.flatMap charUnits

/-- The list `xs.slice(0,8).map(d => String(d).slice(0,width))` for an array,
the empty list for anything else; each string as its UTF-16 code units (a
slice may cut a surrogate pair in half). -/
def sanitizeStrings (env : Env) (width : Nat) (v : JVal) : List (List Nat) :=
  match v with
  | .arr xs => (xs.take 8).map (fun d => (utf16 (toStr env d)).take width)
  | _ => []

/-- The object `sanitizeAnalysisObject` returns. -/
structure Analysis where
  summary : Summary
  drivers : List (List Nat)
  recommendations : List (List Nat)
  generated_forecast : List HPoint

/-- The function `sanitizeAnalysisObject(obj)`. -/
def sanitizeAnalysisObject (env : Env) (obj : JVal) : Analysis :=
  if !truthy obj || !typeofObject obj then
    { summary := { avg := 0, min := 0, max := 0, peakHour := 0 }, drivers := [],
      recommendations := [], generated_forecast := buildSyntheticForecast env 48 }
  else
    let summary :=
      if truthy (memberOf obj "summary") && typeofObject (memberOf obj "summary")
      then memberOf obj "summary" else .obj []
    { summary := repairMax (repairMin (summaryFields env summary))
      drivers := sanitizeStrings env 80 (memberOf obj "drivers")
      recommendations := sanitizeStrings env 120 (memberOf obj "recommendations")
      generated_forecast :=
        sanitizeForecast env (jsOr (memberOf obj "generated_forecast") (memberOf obj "forecast")) }

/-! ## A concrete environment -/

/-- The twenty-four samples of the sine of `2π·h/24`, to six decimals. -/
def sinTable : List ℚ :=
  [0, 258819 / 1000000, 1 / 2, 707107 / 1000000, 866025 / 1000000, 965926 / 1000000, 1,
   965926 / 1000000, 866025 / 1000000, 707107 / 1000000, 1 / 2, 258819 / 1000000, 0,
   -258819 / 1000000, -1 / 2, -707107 / 1000000, -866025 / 1000000, -965926 / 1000000, -1,
   -965926 / 1000000, -866025 / 1000000, -707107 / 1000000, -1 / 2, -258819 / 1000000]

/-- The twelve samples of the cosine of `2π·m/12`, to six decimals. -/
def cosTable : List ℚ :=
  [1, 866025 / 1000000, 1 / 2, 0, -1 / 2, -866025 / 1000000, -1,
   -866025 / 1000000, -1 / 2, 0, 1 / 2, 866025 / 1000000]

/-- The number two decimal digits write. -/
def twoDigits (a b : Char) : Option Int :=
  if a.isDigit ∧ b.isDigit then some (((a.toNat - 48) * 10 + (b.toNat - 48) : Nat) : Int) else none

/-- The time value of a string of the exact form `YYYY-MM-DDTHH:mm:ssZ`, which
every `Date` parser reads the same way; `none` for any other string. -/
def isoParse (s : String) : Option Int :=
  match s.data with
  | [y1, y2, y3, y4, d1, m1, m2, d2, a1, a2, tee, h1, h2, c1, n1, n2, c2, s1, s2, z] =>
    if d1 = '-' ∧ d2 = '-' ∧ tee = 'T' ∧ c1 = ':' ∧ c2 = ':' ∧ z = 'Z' then do
      let yh ← twoDigits y1 y2
      let yl ← twoDigits y3 y4
      let mo ← twoDigits m1 m2
      let da ← twoDigits a1 a2
      let hh ← twoDigits h1 h2
      let mi ← twoDigits n1 n2
      let ss ← twoDigits s1 s2
      if 1 ≤ mo ∧ mo ≤ 12 ∧ 1 ≤ da ∧ da ≤ (civilFromDays (makeDay (yh * 100 + yl) mo 0)).day
          ∧ hh ≤ 23 ∧ mi ≤ 59 ∧ ss ≤ 59 then
        some (makeDay (yh * 100 + yl) (mo - 1) da * msPerDay + hh * msPerHour + mi * 60000 + ss * 1000)
      else none
    else none
  | _ => none

/-- The number a string of decimal digits (the empty string included, which
denotes 0) converts to; other strings, which the demonstrations do not
convert, read as `NaN`. -/
def digitsToNum (s : String) : JNum :=
  if s.data.all Char.isDigit then .fin (digitsVal s.data) else .nan

/-- The decimal digits of a natural number below `10^21`; not used on other
numbers. -/
def natToStr (q : ℚ) : String := Nat.repr q.num.toNat

/-- An environment for evaluating the definitions on concrete inputs: the clock
reads 2025-06-15T10:30:00.000Z. -/
def demoEnv : Env :=
  { now := 1749983400000
    sin24 := fun h => sinTable.getD h 0
    cos12 := fun m => cosTable.getD m 0
    dateParse := isoParse
    strToNum := digitsToNum
    numToStr := natToStr }

/-! ## The synthetic hourly values of the CSV endpoints (lines 263-277, 312-322) -/

/-- The number `perHour` that the hourly row `h` holds for the group of index
`i`, before `fmtFWh` writes it with three decimals. -/
def csvHourlyValue (env : Env) (startMs : Int) (h i : Nat) : ℚ :=
  let hourOfDay := getUTCHours (startMs + (h : Int) * 3600000)
  let diurnal := env.sin24 hourOfDay.toNat
  max 0 (2 + 1 * diurnal + (2 / 100) * i + ((h % 3 : Nat) : ℚ) * (5 / 100))

/-! ## Vocabulary of the statements -/

/-- The leap years of the Gregorian calendar. -/
def isLeapYear (y : Int) : Bool := y % 4 = 0 && (y % 100 != 0 || y % 400 = 0)

/-- The number of days of the month with number `m` (1..12) of the year `y`. -/
def daysInMonth (y m : Int) : Int :=
  if m = 2 then (if isLeapYear y then 29 else 28)
  else if m = 4 ∨ m = 6 ∨ m = 9 ∨ m = 11 then 30
  else 31

/-- The string `YYYY-MM-01T00:00:00Z` of day 1, 00:00 UTC, of the month with
index `m` (0..11) of the year `y`. -/
def firstOfMonthString (y m : Int) : String :=
  String.mk (isoYear y ++ '-' :: padDigits 2 (m + 1).toNat ++ "-01T00:00:00Z".data)

/-- The series a map holds for a group key, when the key is present. -/
def mapGet {α : Type} : List (String × α) → String → Option α
  | [], _ => none
  | (k, v) :: rest, key => if k = key then some v else mapGet rest key

mutual
/-- The test "the two values are the same value". -/
def jsonEq : JVal → JVal → Bool
  | .undefined, .undefined => true
  | .null, .null => true
  | .bool a, .bool b => decide (a = b)
  | .num a, .num b => decide (a = b)
  | .str a, .str b => decide (a = b)
  | .arr a, .arr b => jsonEqList a b
  | .obj a, .obj b => jsonEqObj a b
  | _, _ => false
/-- The test "the two lists hold the same values in the same order". -/
def jsonEqList : List JVal → List JVal → Bool
  | [], [] => true
  | x :: xs, y :: ys => jsonEq x y && jsonEqList xs ys
  | _, _ => false
/-- The test "the two property lists hold the same keys and values in the
same order". -/
def jsonEqObj : List (String × JVal) → List (String × JVal) → Bool
  | [], [] => true
  | (k, x) :: xs, (l, y) :: ys => decide (k = l) && jsonEq x y && jsonEqObj xs ys
  | _, _ => false
end

/-- The hourly generator in the words of the spec (section 4.2):
`max(0, 2.0 + 1.0·sin(2π·hourOfDay/24) + 0.02·groupIndex)`, the hour of day
being the UTC hour of `startTime + hourOffset hours`. -/
def specHourlyValue (env : Env) (startMs : Int) (h i : Nat) : ℚ :=
  max 0 (2 + 1 * env.sin24 (getUTCHours (startMs + (h : Int) * 3600000)).toNat + (2 / 100) * i)

/-- The monthly generator in the words of the spec (section 4.2):
`hoursInUtcMonth × max(0, 2.0 + 0.3·cos(2π·monthIndex/12) + 0.02·groupIndex)`
for the month with index `m` of the year `y`. -/
def specMonthlyValue (env : Env) (y m : Int) (i : Nat) : ℚ :=
  (24 * daysInMonth y (m + 1) : Int) * max 0 (2 + (3 / 10) * env.cos12 m.toNat + (2 / 100) * i)

/-- The test "the string has the exact form `YYYY-MM-DDTHH:00:00Z`". -/
def isHourStampForm (s : String) : Bool :=
  match s.data with
  | [y1, y2, y3, y4, d1, m1, m2, d2, a1, a2, tee, h1, h2, c1, n1, n2, c2, s1, s2, z] =>
    y1.isDigit && y2.isDigit && y3.isDigit && y4.isDigit && d1 = '-' && m1.isDigit && m2.isDigit
      && d2 = '-' && a1.isDigit && a2.isDigit && tee = 'T' && h1.isDigit && h2.isDigit
      && c1 = ':' && n1 = '0' && n2 = '0' && c2 = ':' && s1 = '0' && s2 = '0' && z = 'Z'
  | _ => false

/-- The names under which the hourly container is accepted (line 968). -/
def hourlyAliases : List String :=
  ["hourly_forecast_groups", "hourlyForecastGroups", "hourly_forecast", "hourlyGroups", "hourly",
    "forecast_hourly", "hourlyForecast"]

/-- The value `v` wrapped in `n` objects of a single member `x`. -/
def nestUnder : Nat → JVal → JVal
  | 0, v => v
  | n + 1, v => .obj [("x", nestUnder n v)]

/-- The property "the map has exactly the keys `keys` and every series in it
has exactly `n` points". -/
def GroupsComplete {α : Type} (n : Nat) (keys : List String) (m : List (String × List α)) : Prop :=
  (∀ k, k ∈ m.map Prod.fst ↔ k ∈ keys) ∧ (∀ k s, mapGet m k = some s → s.length = n)

/-- The hourly map of a run of the pipeline; `none` when the run threw or the
map is `null`. -/
def hourlyOf (r : Except JsError ResponsePayload) : Option (List (String × List HPoint)) :=
  match r with
  | .ok p => p.hourly_forecast_groups
  | .error _ => none

/-- The monthly map of a run of the pipeline; `none` when the run threw or the
map is `null`. -/
def monthlyOf (r : Except JsError ResponsePayload) : Option (List (String × List MPoint)) :=
  match r with
  | .ok p => p.monthly_forecast_groups
  | .error _ => none

/-- The test "the run threw a `TypeError`". -/
def threw {α : Type} (r : Except JsError α) : Bool :=
  match r with
  | .ok _ => false
  | .error _ => true

/-- The property "`points[i].timestamp = points[0].timestamp + i hours` for
every index `i`", the timestamps read as instants by `read`. -/
def HourlySpaced (read : String → Option Int) (pts : List HPoint) : Prop :=
  ∀ (i : Nat) (p0 p : HPoint), pts[0]? = some p0 → pts[i]? = some p →
    ∃ t0 t, read p0.time = some t0 ∧ read p.time = some t ∧ t = t0 + i * msPerHour

/-! ## Calendar lemmas -/

set_option maxHeartbeats 1000000 in
theorem yoe_recover (yoe doy : Int) (h0 : 0 ≤ yoe) (h1 : yoe ≤ 399) (h2 : 0 ≤ doy)
    (h3 : doy ≤ 364 ∨ (doy = 365 ∧ yoe % 4 = 3 ∧ (yoe % 100 ≠ 99 ∨ yoe = 399))) :
    ((yoe * 365 + yoe / 4 - yoe / 100 + doy) - (yoe * 365 + yoe / 4 - yoe / 100 + doy) / 1460
      + (yoe * 365 + yoe / 4 - yoe / 100 + doy) / 36524
      - (yoe * 365 + yoe / 4 - yoe / 100 + doy) / 146096) / 365 = yoe := by
  have he : yoe / 100 = 0 ∨ yoe / 100 = 1 ∨ yoe / 100 = 2 ∨ yoe / 100 = 3 := by omega
  generalize hdoe : yoe * 365 + yoe / 4 - yoe / 100 + doy = doe
  have hi : doe / 146096 = 0 ∨ (doe / 146096 = 1 ∧ yoe = 399 ∧ doy = 365) := by omega
  have hg : doe / 36524 = yoe / 100 ∨ doe / 36524 = yoe / 100 + 1 := by
    rcases he with he | he | he | he <;> omega
  rcases hi with hi | ⟨hi, hy, hd⟩
  · rcases he with he | he | he | he <;> rcases hg with hg | hg <;> omega
  · subst hy hd
    omega

theorem civil_of_parts (era yoe doy : Int) (h0 : 0 ≤ yoe) (h1 : yoe ≤ 399) (h2 : 0 ≤ doy)
    (h3 : doy ≤ 364 ∨ (doy = 365 ∧ yoe % 4 = 3 ∧ (yoe % 100 ≠ 99 ∨ yoe = 399))) :
    civilFromDays (era * 146097 + (yoe * 365 + yoe / 4 - yoe / 100 + doy) - 719468)
      = ⟨if (if (5 * doy + 2) / 153 < 10 then (5 * doy + 2) / 153 + 3 else (5 * doy + 2) / 153 - 9) ≤ 2
           then yoe + era * 400 + 1 else yoe + era * 400,
         if (5 * doy + 2) / 153 < 10 then (5 * doy + 2) / 153 + 3 else (5 * doy + 2) / 153 - 9,
         doy - (153 * ((5 * doy + 2) / 153) + 2) / 5 + 1⟩ := by
  have hy := yoe_recover yoe doy h0 h1 h2 h3
  generalize hdoe : yoe * 365 + yoe / 4 - yoe / 100 + doy = doe at hy
  have hdoe0 : 0 ≤ doe := by omega
  have hdoe1 : doe < 146097 := by omega
  have e1 : (era * 146097 + doe - 719468 + 719468) / 146097 = era := by omega
  have e2 : era * 146097 + doe - 719468 + 719468 - era * 146097 = doe := by omega
  have e3 : doe - (365 * yoe + yoe / 4 - yoe / 100) = doy := by omega
  simp only [civilFromDays, e1, e2, hy, e3]

theorem isLeapYear_iff (y : Int) :
    isLeapYear y = true ↔ (y % 4 = 0 ∧ (y % 100 ≠ 0 ∨ y % 400 = 0)) := by
  simp [isLeapYear]

theorem daysFromCivil_eq (y m d : Int) :
    daysFromCivil y m d =
      ((if m ≤ 2 then y - 1 else y) / 400) * 146097
        + (((if m ≤ 2 then y - 1 else y) - (if m ≤ 2 then y - 1 else y) / 400 * 400) * 365
        + ((if m ≤ 2 then y - 1 else y) - (if m ≤ 2 then y - 1 else y) / 400 * 400) / 4
        - ((if m ≤ 2 then y - 1 else y) - (if m ≤ 2 then y - 1 else y) / 400 * 400) / 100
        + ((153 * (if m > 2 then m - 3 else m + 9) + 2) / 5 + d - 1)) - 719468 := by
  simp only [daysFromCivil]

set_option maxHeartbeats 1000000 in
theorem civil_roundtrip (y m d : Int) (hm1 : 1 ≤ m) (hm2 : m ≤ 12) (hd1 : 1 ≤ d)
    (hd2 : d ≤ daysInMonth y m) : civilFromDays (daysFromCivil y m d) = ⟨y, m, d⟩ := by
  have hleap := isLeapYear_iff y
  have hd3 : d ≤ 28 ∨ (d = 29 ∧ (m ≠ 2 ∨ (y % 4 = 0 ∧ (y % 100 ≠ 0 ∨ y % 400 = 0))))
      ∨ (d = 30 ∧ m ≠ 2) ∨ (d = 31 ∧ m ≠ 2 ∧ m ≠ 4 ∧ m ≠ 6 ∧ m ≠ 9 ∧ m ≠ 11) := by
    unfold daysInMonth at hd2
    split_ifs at hd2 with h1 h2 h3
    · have := hleap.mp h2
      omega
    · omega
    · omega
    · omega
  clear hd2 hleap
  rw [daysFromCivil_eq, civil_of_parts]
  · interval_cases m <;> simp only [Civil.mk.injEq] <;> norm_num <;> omega
  · omega
  · omega
  · interval_cases m <;> norm_num <;> omega
  · interval_cases m <;> norm_num <;> omega

set_option maxHeartbeats 2000000 in
theorem doy_bounds (doe : Int) (h0 : 0 ≤ doe) (h1 : doe ≤ 146096) :
    0 ≤ (doe - doe / 1460 + doe / 36524 - doe / 146096) / 365 ∧
    (doe - doe / 1460 + doe / 36524 - doe / 146096) / 365 ≤ 399 ∧
    0 ≤ doe - (365 * ((doe - doe / 1460 + doe / 36524 - doe / 146096) / 365)
        + (doe - doe / 1460 + doe / 36524 - doe / 146096) / 365 / 4
        - (doe - doe / 1460 + doe / 36524 - doe / 146096) / 365 / 100) ∧
    doe - (365 * ((doe - doe / 1460 + doe / 36524 - doe / 146096) / 365)
        + (doe - doe / 1460 + doe / 36524 - doe / 146096) / 365 / 4
        - (doe - doe / 1460 + doe / 36524 - doe / 146096) / 365 / 100) ≤ 365 := by
  have hg : doe / 36524 = 0 ∨ doe / 36524 = 1 ∨ doe / 36524 = 2 ∨ doe / 36524 = 3
      ∨ doe / 36524 = 4 := by omega
  have hi : doe / 146096 = 0 ∨ doe = 146096 := by omega
  generalize hyoe : (doe - doe / 1460 + doe / 36524 - doe / 146096) / 365 = yoe
  rcases hi with hi | hi
  · have he : yoe / 100 = 0 ∨ yoe / 100 = 1 ∨ yoe / 100 = 2 ∨ yoe / 100 = 3 := by
      rcases hg with hg | hg | hg | hg | hg <;> omega
    rcases hg with hg | hg | hg | hg | hg <;> rcases he with he | he | he | he <;> omega
  · subst hi
    omega

theorem civil_range (z : Int) :
    1 ≤ (civilFromDays z).month ∧ (civilFromDays z).month ≤ 12 ∧
    1 ≤ (civilFromDays z).day ∧ (civilFromDays z).day ≤ 31 := by
  have hb := doy_bounds (z + 719468 - (z + 719468) / 146097 * 146097) (by omega) (by omega)
  simp only [civilFromDays]
  generalize z + 719468 - (z + 719468) / 146097 * 146097 = doe at hb ⊢
  generalize (doe - doe / 1460 + doe / 36524 - doe / 146096) / 365 = yoe at hb ⊢
  generalize doe - (365 * yoe + yoe / 4 - yoe / 100) = doy at hb ⊢
  obtain ⟨-, -, h3, h4⟩ := hb
  refine ⟨?_, ?_, ?_, ?_⟩ <;> (try split_ifs) <;> omega

set_option maxHeartbeats 2000000 in
theorem civil_year_ge (z : Int) (hz : 0 ≤ z) : 1970 ≤ (civilFromDays z).year := by
  have hb := doy_bounds (z + 719468 - (z + 719468) / 146097 * 146097) (by omega) (by omega)
  have hera : 4 ≤ (z + 719468) / 146097 := by omega
  simp only [civilFromDays]
  generalize hdoe : z + 719468 - (z + 719468) / 146097 * 146097 = doe at hb ⊢
  generalize hyoe : (doe - doe / 1460 + doe / 36524 - doe / 146096) / 365 = yoe at hb ⊢
  generalize hdoy : doe - (365 * yoe + yoe / 4 - yoe / 100) = doy at hb ⊢
  obtain ⟨h1, h2, h3, h4⟩ := hb
  by_cases he : 5 ≤ (z + 719468) / 146097
  · split_ifs <;> omega
  · have he4 : (z + 719468) / 146097 = 4 := by omega
    have hd : 135080 ≤ doe := by omega
    have hg : doe / 36524 = 3 ∨ doe / 36524 = 4 := by omega
    have hy : 369 ≤ yoe := by
      rcases hg with hg | hg <;> omega
    split_ifs <;> omega

theorem daysInMonth_pos (y m : Int) : 1 ≤ daysInMonth y m := by
  unfold daysInMonth; split_ifs <;> omega

set_option maxHeartbeats 1000000 in
theorem next_month_first (y m : Int) (hm0 : 0 ≤ m) (hm1 : m ≤ 11) :
    daysFromCivil (y + (m + 1) / 12) ((m + 1) % 12 + 1) 1 - 1
      = daysFromCivil y (m + 1) (daysInMonth y (m + 1)) := by
  have hleap := isLeapYear_iff y
  rw [daysFromCivil_eq, daysFromCivil_eq]
  unfold daysInMonth
  interval_cases m <;> norm_num
  case «1» =>
    by_cases hl : isLeapYear y = true
    · have := hleap.mp hl
      simp only [hl, if_true]
      omega
    · have : ¬ (y % 4 = 0 ∧ (y % 100 ≠ 0 ∨ y % 400 = 0)) := fun h => hl (hleap.mpr h)
      simp only [hl]
      norm_num
      omega
  all_goals omega

theorem mul_msPerDay_fields (d : Int) :
    d * msPerDay / msPerDay = d ∧ (d * msPerDay / msPerHour) % 24 = 0
      ∧ (d * msPerDay / 60000) % 60 = 0 ∧ (d * msPerDay / 1000) % 60 = 0
      ∧ d * msPerDay % 1000 = 0 := by
  unfold msPerDay msPerHour
  omega

theorem dateUTC_first (y m : Int) (hy : 100 ≤ y) :
    dateUTC y m 1 = daysFromCivil (y + m / 12) (m % 12 + 1) 1 * msPerDay := by
  have h : ¬ (0 ≤ y ∧ y ≤ 99) := by omega
  simp [dateUTC, makeDay, h]

theorem civil_dateUTC_first (y m : Int) (hy : 100 ≤ y) :
    civilFromDays (dateUTC y m 1 / msPerDay) = ⟨y + m / 12, m % 12 + 1, 1⟩ := by
  rw [dateUTC_first y m hy, (mul_msPerDay_fields _).1]
  exact civil_roundtrip _ _ _ (by omega) (by omega) (by omega) (daysInMonth_pos _ _)

theorem getUTCFullYear_dateUTC (y m : Int) (hy : 100 ≤ y) :
    getUTCFullYear (dateUTC y m 1) = y + m / 12 := by
  simp [getUTCFullYear, civil_dateUTC_first y m hy]

theorem getUTCMonth_dateUTC (y m : Int) (hy : 100 ≤ y) :
    getUTCMonth (dateUTC y m 1) = m % 12 := by
  simp [getUTCMonth, civil_dateUTC_first y m hy]

theorem hoursInMonthUtc_eq (y m : Int) (hy : 100 ≤ y) (hm0 : 0 ≤ m) (hm1 : m ≤ 11) :
    hoursInMonthUtc y m = 24 * daysInMonth y (m + 1) := by
  have h : ¬ (0 ≤ y ∧ y ≤ 99) := by omega
  have e : dateUTC y (m + 1) 0 = daysFromCivil y (m + 1) (daysInMonth y (m + 1)) * msPerDay := by
    simp only [dateUTC, makeDay, h, if_false]
    rw [← next_month_first y m hm0 hm1]
    ring
  unfold hoursInMonthUtc getUTCDate
  rw [e, (mul_msPerDay_fields _).1,
    civil_roundtrip _ _ _ (by omega) (by omega) (daysInMonth_pos _ _) (le_refl _)]
  ring

theorem replaceTimeTail_midnight (pre repl : List Char) :
    replaceTimeTail (pre ++ "T00:00:00.000Z".data) repl = pre ++ repl := by
  simp [replaceTimeTail]

theorem monthStamp_dateUTC (y m : Int) (hy : 100 ≤ y) :
    monthStamp (dateUTC y m 1) = firstOfMonthString (y + m / 12) (m % 12) := by
  have hf := mul_msPerDay_fields (daysFromCivil (y + m / 12) (m % 12 + 1) 1)
  have hc := civil_dateUTC_first y m hy
  unfold monthStamp firstOfMonthString toISOChars
  rw [hc]
  simp only []
  rw [dateUTC_first y m hy, hf.2.1, hf.2.2.1, hf.2.2.2.1, hf.2.2.2.2]
  have h1 : padDigits 2 (1 : Int).toNat = ['0', '1'] := by decide
  have h2 : padDigits 2 (0 : Int).toNat = ['0', '0'] := by decide
  have h3 : padDigits 3 (0 : Int).toNat = ['0', '0', '0'] := by decide
  rw [h1, h2, h3]
  have key : ∀ pre : List Char,
      pre ++ '-' :: ['0', '1'] ++ 'T' :: ['0', '0'] ++ ':' :: ['0', '0'] ++ ':' :: ['0', '0']
        ++ '.' :: ['0', '0', '0'] ++ ['Z'] = (pre ++ "-01".data) ++ "T00:00:00.000Z".data := by
    intro pre
    simp
  rw [key, replaceTimeTail_midnight]
  simp

/-! ## The group normalisers -/

theorem clampNumber_bounds (env : Env) (v : JVal) (lo hi : ℚ) (h : lo ≤ hi) :
    lo ≤ clampNumber env v lo hi ∧ clampNumber env v lo hi ≤ hi := by
  unfold clampNumber
  cases toNumber env v with
  | nan => exact ⟨le_refl _, h⟩
  | ninf => exact ⟨le_min h (le_refl _), min_le_left _ _⟩
  | fin n => exact ⟨le_min h (le_max_left _ _), min_le_left _ _⟩
  | pinf => exact ⟨h, le_refl _⟩

theorem mathRound_bounds (x : ℚ) (n : ℤ) (h0 : 0 ≤ x) (h1 : x ≤ n) :
    0 ≤ mathRound x ∧ mathRound x ≤ n := by
  unfold mathRound
  constructor
  · exact Int.floor_nonneg.mpr (by linarith)
  · have : ⌊x + 1 / 2⌋ < n + 1 := by
      rw [Int.floor_lt]
      push_cast
      linarith
    omega

theorem hourlyTaken_bounds (env : Env) (i : Nat) (item : JVal) :
    0 ≤ (hourlyTaken env i item).value ∧ (hourlyTaken env i item).value ≤ 50 :=
  clampNumber_bounds env _ 0 50 (by norm_num)

theorem hourlyPad_bounds (env : Env) (i : Nat) :
    0 ≤ (hourlyPad env i).value ∧ (hourlyPad env i).value ≤ 50 := by
  simp only [hourlyPad]
  have hc := clampNumber_bounds env
    (.num (.fin (2 + env.sin24 (getUTCHours (setUTCMinutesZero ((env.now : Int) + (i : Int) * 3600000))).toNat)))
    0 50 (by norm_num)
  generalize clampNumber env _ 0 50 = val at hc ⊢
  have hr := mathRound_bounds (val * 1000) 50000 (by linarith [hc.1]) (by push_cast; linarith [hc.2])
  constructor
  · apply div_nonneg _ (by norm_num)
    exact_mod_cast hr.1
  · rw [div_le_iff₀ (by norm_num)]
    have : (mathRound (val * 1000) : ℚ) ≤ 50000 := by exact_mod_cast hr.2
    linarith

theorem normalizeHourlyGroup_arr_length (env : Env) (xs : List JVal) :
    (normalizeHourlyGroup env (.arr xs)).length = 48 := by
  simp only [normalizeHourlyGroup, List.length_append, List.length_map, List.enum_length,
    List.length_take, List.length_range']
  omega

theorem normalizeHourlyGroup_mem (env : Env) (arr : JVal) (p : HPoint)
    (hp : p ∈ normalizeHourlyGroup env arr) :
    (∃ i item, p = hourlyTaken env i item) ∨ (∃ i, p = hourlyPad env i) := by
  cases arr with
  | arr xs =>
    simp only [normalizeHourlyGroup, List.mem_append, List.mem_map] at hp
    rcases hp with ⟨q, -, rfl⟩ | ⟨i, -, rfl⟩
    · exact Or.inl ⟨q.1, q.2, rfl⟩
    · exact Or.inr ⟨i, rfl⟩
  | _ => simp [normalizeHourlyGroup] at hp

theorem normalizeMonthlyGroup_length (env : Env) (arr : JVal) (start : Int) :
    (normalizeMonthlyGroup env arr start).length = 12 := by
  simp [normalizeMonthlyGroup]

theorem start_year_ge (start : Nat) : 100 ≤ getUTCFullYear (start : Int) := by
  have h := civil_year_ge ((start : Int) / msPerDay) (by unfold msPerDay; omega)
  unfold getUTCFullYear
  omega

theorem monthlyEntry_month (env : Env) (arr : JVal) (start : Nat) (i : Nat) :
    (monthlyEntry env arr start i).month
      = firstOfMonthString (getUTCFullYear start + (getUTCMonth start + i) / 12)
          ((getUTCMonth start + i) % 12) := by
  have h : (monthlyEntry env arr start i).month
      = monthStamp (dateUTC (getUTCFullYear start) (getUTCMonth start + i) 1) := rfl
  rw [h, monthStamp_dateUTC _ _ (start_year_ge start)]

theorem getUTCMonth_range (t : Int) : 0 ≤ getUTCMonth t ∧ getUTCMonth t ≤ 11 := by
  have := civil_range (t / msPerDay)
  unfold getUTCMonth
  omega

theorem hoursInMonthTs_target (start : Nat) (i : Nat) :
    hoursInMonthTs (dateUTC (getUTCFullYear start) (getUTCMonth start + i) 1)
      = 24 * daysInMonth (getUTCFullYear start + (getUTCMonth start + i) / 12)
          ((getUTCMonth start + i) % 12 + 1) := by
  have hy := start_year_ge start
  have hm := getUTCMonth_range (start : Int)
  unfold hoursInMonthTs
  rw [getUTCFullYear_dateUTC _ _ hy, getUTCMonth_dateUTC _ _ hy]
  exact hoursInMonthUtc_eq _ _ (by omega) (by omega) (by omega)

theorem monthlyEntry_value (env : Env) (arr : JVal) (start : Nat) (i : Nat) :
    0 ≤ (monthlyEntry env arr start i).value ∧
    (monthlyEntry env arr start i).value
      ≤ 24 * (24 * daysInMonth (getUTCFullYear start + (getUTCMonth start + i) / 12)
          ((getUTCMonth start + i) % 12 + 1)) := by
  obtain ⟨v, hv⟩ : ∃ v, (monthlyEntry env arr start i).value = clampNumber env v 0
      (24 * hoursInMonthTs (dateUTC (getUTCFullYear start) (getUTCMonth start + i) 1)) :=
    ⟨_, rfl⟩
  rw [hv, hoursInMonthTs_target]
  have hpos := daysInMonth_pos (getUTCFullYear start + (getUTCMonth start + i) / 12)
          ((getUTCMonth start + i) % 12 + 1)
  have hb := clampNumber_bounds env v 0
    (24 * ((24 * daysInMonth (getUTCFullYear start + (getUTCMonth start + i) / 12)
          ((getUTCMonth start + i) % 12 + 1) : Int) : ℚ))
    (by
      have : (0 : ℚ) ≤ ((24 * daysInMonth (getUTCFullYear start + (getUTCMonth start + i) / 12)
          ((getUTCMonth start + i) % 12 + 1) : Int) : ℚ) := by
        exact_mod_cast (by omega : (0 : Int) ≤ 24 * daysInMonth
          (getUTCFullYear start + (getUTCMonth start + i) / 12) ((getUTCMonth start + i) % 12 + 1))
      linarith)
  push_cast at hb ⊢
  exact hb

/-! ## Maps keyed by group -/

theorem objHas_iff_mem {α : Type} (m : List (String × α)) (k : String) :
    objHas m k = true ↔ k ∈ m.map Prod.fst := by
  induction m with
  | nil => simp [objHas]
  | cons p rest ih =>
    obtain ⟨k1, v1⟩ := p
    by_cases h : k1 = k
    · simp [objHas, h]
    · have h2 : ¬ k = k1 := fun e => h e.symm
      simp [objHas, h, h2, ih]

theorem mapGet_isSome_of_mem {α : Type} (m : List (String × α)) (k : String)
    (h : k ∈ m.map Prod.fst) : ∃ v, mapGet m k = some v := by
  induction m with
  | nil => simp at h
  | cons p rest ih =>
    obtain ⟨k1, v1⟩ := p
    by_cases e : k1 = k
    · exact ⟨v1, by simp [mapGet, e]⟩
    · have h2 : ¬ k = k1 := fun e2 => e e2.symm
      simp only [List.map_cons, List.mem_cons, h2, false_or] at h
      obtain ⟨v, hv⟩ := ih h
      exact ⟨v, by simp [mapGet, e, hv]⟩

theorem keys_objReplace {α : Type} (k : String) (v : α) (m : List (String × α)) :
    (objReplace k v m).map Prod.fst = m.map Prod.fst := by
  induction m with
  | nil => rfl
  | cons p rest ih =>
    obtain ⟨k1, v1⟩ := p
    by_cases h : k1 = k <;> simp [objReplace, h, ih]

theorem mem_keys_objInsert {α : Type} (k : String) (v : α) (m : List (String × α))
    (k2 : String) :
    k2 ∈ (objInsert k v m).map Prod.fst ↔ k2 = k ∨ k2 ∈ m.map Prod.fst := by
  induction m with
  | nil => simp [objInsert]
  | cons p rest ih =>
    obtain ⟨k1, v1⟩ := p
    simp only [objInsert]
    split
    · split
      · simp
      · simp only [List.map_cons, List.mem_cons, ih]
        tauto
    · simp
    · simp only [List.map_cons, List.mem_cons, ih]
      tauto

theorem mapGet_objReplace {α : Type} (k : String) (v : α) (m : List (String × α))
    (k2 : String) (hk : objHas m k = true) :
    mapGet (objReplace k v m) k2 = if k2 = k then some v else mapGet m k2 := by
  induction m with
  | nil => simp [objHas] at hk
  | cons p rest ih =>
    obtain ⟨k1, v1⟩ := p
    by_cases h : k1 = k
    · subst h
      by_cases h2 : k2 = k1
      · simp [objReplace, mapGet, h2]
      · have h3 : ¬ k1 = k2 := fun e => h2 e.symm
        simp [objReplace, mapGet, h2, h3]
    · have hk2 : objHas rest k = true := by simpa [objHas, h] using hk
      by_cases h2 : k2 = k
      · subst h2
        simp [objReplace, mapGet, h, ih hk2]
      · by_cases h3 : k1 = k2
        · simp [objReplace, mapGet, h, h2, h3]
        · simp [objReplace, mapGet, h, h2, h3, ih hk2]

theorem mapGet_objInsert {α : Type} (k : String) (v : α) (m : List (String × α))
    (k2 : String) (hk : objHas m k = false) :
    mapGet (objInsert k v m) k2 = if k2 = k then some v else mapGet m k2 := by
  induction m with
  | nil =>
    by_cases h : k = k2
    · simp [objInsert, mapGet, h]
    · have h2 : ¬ k2 = k := fun e => h e.symm
      simp [objInsert, mapGet, h, h2]
  | cons p rest ih =>
    obtain ⟨k1, v1⟩ := p
    have hne : ¬ k1 = k := by
      intro e
      simp [objHas, e] at hk
    have hk2 : objHas rest k = false := by simpa [objHas, hne] using hk
    have key : mapGet ((k, v) :: (k1, v1) :: rest) k2
        = if k2 = k then some v else mapGet ((k1, v1) :: rest) k2 := by
      by_cases h : k = k2
      · simp [mapGet, h]
      · have h2 : ¬ k2 = k := fun e => h e.symm
        simp [mapGet, h, h2]
    have key2 : mapGet ((k1, v1) :: objInsert k v rest) k2
        = if k2 = k then some v else mapGet ((k1, v1) :: rest) k2 := by
      by_cases h : k2 = k
      · subst h
        have h3 : ¬ k1 = k2 := hne
        simp [mapGet, h3, ih hk2]
      · by_cases h3 : k1 = k2
        · simp [mapGet, h, h3]
        · simp [mapGet, h, h3, ih hk2]
    simp only [objInsert]
    split
    · split
      · exact key
      · exact key2
    · exact key
    · exact key2

theorem mem_keys_objSet {α : Type} (m : List (String × α)) (k : String) (v : α) (k2 : String) :
    k2 ∈ (objSet m k v).map Prod.fst ↔ k2 = k ∨ k2 ∈ m.map Prod.fst := by
  unfold objSet
  by_cases h : objHas m k = true
  · have hm := (objHas_iff_mem m k).mp h
    simp only [h, if_true, keys_objReplace]
    constructor
    · exact Or.inr
    · rintro (rfl | h2)
      · exact hm
      · exact h2
  · simp only [h, Bool.false_eq_true, if_false]
    exact mem_keys_objInsert k v m k2

theorem mapGet_objSet {α : Type} (m : List (String × α)) (k : String) (v : α) (k2 : String) :
    mapGet (objSet m k v) k2 = if k2 = k then some v else mapGet m k2 := by
  unfold objSet
  by_cases h : objHas m k = true
  · simp only [h, if_true]
    exact mapGet_objReplace k v m k2 h
  · simp only [h, Bool.false_eq_true, if_false]
    exact mapGet_objInsert k v m k2 (by simpa using h)

theorem foldlM_groups {α : Type} (f : String → Except JsError α) (keys : List String) :
    ∀ (acc m : List (String × α)),
      keys.foldlM (fun m g => do
        let v ← f g
        pure (objSet m g v)) acc = .ok m →
      (∀ k, k ∈ m.map Prod.fst ↔ k ∈ acc.map Prod.fst ∨ k ∈ keys) ∧
      (∀ k v, mapGet m k = some v → mapGet acc k = some v ∨ ∃ g, g ∈ keys ∧ f g = .ok v) := by
  induction keys with
  | nil =>
    intro acc m h
    simp only [List.foldlM, pure, Except.pure, Except.ok.injEq] at h
    subst h
    simp
  | cons g rest ih =>
    intro acc m h
    simp only [List.foldlM, bind, Except.bind] at h
    cases hf : f g with
    | error e => simp [hf] at h
    | ok v0 =>
      simp only [hf, pure, Except.pure] at h
      obtain ⟨ih1, ih2⟩ := ih (objSet acc g v0) m h
      constructor
      · intro k
        rw [ih1 k, mem_keys_objSet]
        simp only [List.mem_cons]
        tauto
      · intro k v hv
        rcases ih2 k v hv with h1 | ⟨g2, hg2, hfg⟩
        · rw [mapGet_objSet] at h1
          by_cases e : k = g
          · simp only [e, if_true, Option.some.injEq] at h1
            subst h1
            exact Or.inr ⟨g, List.mem_cons_self _ _, hf⟩
          · simp only [e, if_false] at h1
            exact Or.inl h1
        · exact Or.inr ⟨g2, List.mem_cons_of_mem _ hg2, hfg⟩

theorem buildGroups_spec {α : Type} (f : String → Except JsError α) (keys : List String)
    (m : List (String × α)) (h : buildGroups keys f = .ok m) :
    (∀ k, k ∈ m.map Prod.fst ↔ k ∈ keys) ∧
    (∀ k v, mapGet m k = some v → ∃ g, g ∈ keys ∧ f g = .ok v) := by
  obtain ⟨h1, h2⟩ := foldlM_groups f keys [] m h
  constructor
  · intro k
    simpa using h1 k
  · intro k v hv
    rcases h2 k v hv with h3 | h3
    · simp [mapGet] at h3
    · exact h3

/-! ## Schema parsing -/

theorem except_map_ok {α β : Type} (x : Except JsError α) (f : α → β) (y : β)
    (h : x.map f = .ok y) : ∃ a, x = .ok a ∧ f a = y := by
  cases x with
  | error e => simp [Except.map] at h
  | ok a =>
    simp only [Except.map, Except.ok.injEq] at h
    exact ⟨a, rfl, h⟩

theorem jsMap_ok (arr : JVal) (f : Nat → JVal → Except JsError JVal) (r : JVal)
    (h : jsMap arr f = .ok r) : ∃ ys, r = .arr ys := by
  cases arr with
  | arr xs =>
    simp only [jsMap] at h
    obtain ⟨a, -, ha⟩ := except_map_ok _ _ _ h
    exact ⟨a, ha.symm⟩
  | _ => simp [jsMap] at h

theorem hourlyArr_ok (env : Env) (src : JVal) (g : String) (a : JVal)
    (h : hourlyArr env src g = .ok a) : ∃ ys, a = .arr ys := by
  unfold hourlyArr at h
  exact jsMap_ok _ _ _ h

theorem groups_of_build {α : Type} (n : Nat) (f : String → Except JsError (List α))
    (keys : List String) (m : List (String × List α))
    (hf : ∀ g s, f g = .ok s → s.length = n) (h : buildGroups keys f = .ok m) :
    GroupsComplete n keys m := by
  obtain ⟨h1, h2⟩ := buildGroups_spec f keys m h
  refine ⟨h1, ?_⟩
  intro k s hs
  obtain ⟨g, -, hg⟩ := h2 k s hs
  exact hf g s hg

theorem hourlyFromSource_spec (env : Env) (src : JVal) (keys : List String)
    (h : List (String × List HPoint))
    (hh : hourlyFromSource env src keys = .ok (some h)) : GroupsComplete 48 keys h := by
  unfold hourlyFromSource at hh
  split at hh
  · obtain ⟨m, hm, he⟩ := except_map_ok _ _ _ hh
    simp only [Option.some.injEq] at he
    subst he
    refine groups_of_build 48 _ keys m ?_ hm
    intro g s hs
    obtain ⟨a, ha, hs2⟩ := except_map_ok _ _ _ hs
    obtain ⟨ys, rfl⟩ := hourlyArr_ok env src g a ha
    rw [← hs2]
    exact normalizeHourlyGroup_arr_length env ys
  · simp at hh

theorem monthlyFromSource_spec (env : Env) (src : JVal) (keys : List String)
    (m : List (String × List MPoint))
    (hh : monthlyFromSource env src keys = .ok (some m)) : GroupsComplete 12 keys m := by
  unfold monthlyFromSource at hh
  split at hh
  · obtain ⟨m0, hm, he⟩ := except_map_ok _ _ _ hh
    simp only [Option.some.injEq] at he
    subst he
    refine groups_of_build 12 _ keys m0 ?_ hm
    intro g s hs
    obtain ⟨a, -, hs2⟩ := except_map_ok _ _ _ hs
    rw [← hs2]
    exact normalizeMonthlyGroup_length env a _
  · simp at hh

theorem hourlyFromGenerated_spec (env : Env) (parsed : JVal) (keys : List String)
    (h0 : Option (List (String × List HPoint))) (h : List (String × List HPoint))
    (hprev : ∀ x, h0 = some x → GroupsComplete 48 keys x)
    (hh : hourlyFromGenerated env parsed keys h0 = .ok (some h)) : GroupsComplete 48 keys h := by
  unfold hourlyFromGenerated at hh
  cases h0 with
  | some x =>
    simp only [Except.ok.injEq, Option.some.injEq] at hh
    subst hh
    exact hprev x rfl
  | none =>
    simp only at hh
    split at hh
    · rename_i hc
      obtain ⟨m, hm, he⟩ := except_map_ok _ _ _ hh
      simp only [Option.some.injEq] at he
      subst he
      refine groups_of_build 48 _ keys m ?_ hm
      intro g s hs
      simp only [Except.ok.injEq] at hs
      subst hs
      simp only [Bool.and_eq_true] at hc
      cases hg : memberOf parsed "generated" with
      | arr xs => exact normalizeHourlyGroup_arr_length env xs
      | _ => simp [hg, isArray] at hc
    · simp at hh

theorem monthlyFallback_spec (env : Env) (keys : List String)
    (h0 : Option (List (String × List HPoint))) (m0 : Option (List (String × List MPoint)))
    (m : List (String × List MPoint))
    (hprev : ∀ x, m0 = some x → GroupsComplete 12 keys x)
    (hh : monthlyFallback env keys h0 m0 = .ok (some m)) : GroupsComplete 12 keys m := by
  unfold monthlyFallback at hh
  split at hh
  · obtain ⟨m1, hm, he⟩ := except_map_ok _ _ _ hh
    simp only [Option.some.injEq] at he
    subst he
    refine groups_of_build 12 _ keys m1 ?_ hm
    intro g s hs
    simp only [Except.ok.injEq] at hs
    subst hs
    exact normalizeMonthlyGroup_length env _ _
  · simp only [Except.ok.injEq] at hh
    exact hprev m hh

theorem hourlySalvage_spec (env : Env) (parsed : JVal) (keys : List String)
    (h0 : Option (List (String × List HPoint))) (h : List (String × List HPoint))
    (hprev : ∀ x, h0 = some x → GroupsComplete 48 keys x)
    (hh : hourlySalvage env parsed keys h0 = .ok (some h)) : GroupsComplete 48 keys h := by
  unfold hourlySalvage at hh
  cases h0 with
  | some x =>
    simp only [Except.ok.injEq, Option.some.injEq] at hh
    subst hh
    exact hprev x rfl
  | none =>
    simp only [bind, Except.bind] at hh
    cases hf : findTimeSeries parsed with
    | error e => simp [hf] at hh
    | ok found =>
      cases found with
      | none => simp [hf, pure, Except.pure] at hh
      | some series =>
        simp only [hf] at hh
        obtain ⟨m, hm, he⟩ := except_map_ok _ _ _ hh
        simp only [Option.some.injEq] at he
        subst he
        refine groups_of_build 48 _ keys m ?_ hm
        intro g s hs
        obtain ⟨a, ha, hs2⟩ := except_map_ok _ _ _ hs
        obtain ⟨ys, rfl⟩ := jsMap_ok _ _ a ha
        rw [← hs2]
        exact normalizeHourlyGroup_arr_length env ys

theorem schemaParse_maps (env : Env) (parsed0 : JVal) (keys : List String) :
    (∀ h, hourlyOf (schemaParse env parsed0 keys) = some h → GroupsComplete 48 keys h) ∧
    (∀ m, monthlyOf (schemaParse env parsed0 keys) = some m → GroupsComplete 12 keys m) := by
  unfold schemaParse
  split
  · simp only [bind, Except.bind]
    cases e1 : hourlyFromSource env _ keys with
    | error e => simp [hourlyOf, monthlyOf]
    | ok h1 =>
      simp only []
      cases e2 : monthlyFromSource env _ keys with
      | error e => simp [hourlyOf, monthlyOf]
      | ok m1 =>
        simp only []
        cases e3 : hourlyFromGenerated env _ keys h1 with
        | error e => simp [hourlyOf, monthlyOf]
        | ok h2 =>
          simp only []
          cases e4 : monthlyFallback env keys h2 m1 with
          | error e => simp [hourlyOf, monthlyOf]
          | ok m2 =>
            simp only []
            cases e5 : hourlySalvage env _ keys h2 with
            | error e => simp [hourlyOf, monthlyOf]
            | ok h3 =>
              simp only [pure, Except.pure, hourlyOf, monthlyOf]
              have g1 : ∀ x, h1 = some x → GroupsComplete 48 keys x := by
                intro x hx; subst hx
                exact hourlyFromSource_spec env _ keys x e1
              have g2 : ∀ x, h2 = some x → GroupsComplete 48 keys x := by
                intro x hx; subst hx
                exact hourlyFromGenerated_spec env _ keys h1 x g1 e3
              have k1 : ∀ x, m1 = some x → GroupsComplete 12 keys x := by
                intro x hx; subst hx
                exact monthlyFromSource_spec env _ keys x e2
              constructor
              · intro h hh; subst hh
                exact hourlySalvage_spec env _ keys h2 h g2 e5
              · intro m hm; subst hm
                exact monthlyFallback_spec env keys h2 m1 m k1 e4
  · simp [hourlyOf, monthlyOf]

theorem complete_get {α : Type} (n : Nat) (keys : List String) (m : List (String × List α))
    (h : GroupsComplete n keys m) (g : String) (hg : g ∈ keys) :
    ∃ s, mapGet m g = some s ∧ s.length = n := by
  obtain ⟨s, hs⟩ := mapGet_isSome_of_mem m g ((h.1 g).mpr hg)
  exact ⟨s, hs, h.2 g s hs⟩

theorem hourly_taken_at (env : Env) (xs : List JVal) (i : Nat) (item : JVal)
    (hi : i < 48) (hx : xs[i]? = some item) :
    (normalizeHourlyGroup env (.arr xs))[i]? = some (hourlyTaken env i item) := by
  have hlen : i < xs.length := by
    rcases Nat.lt_or_ge i xs.length with h | h
    · exact h
    · rw [List.getElem?_eq_none h] at hx; simp at hx
  simp only [normalizeHourlyGroup]
  rw [List.getElem?_append_left (by
    simp only [List.length_map, List.enum_length, List.length_take]; omega)]
  rw [List.getElem?_map, List.getElem?_enum, List.getElem?_take_of_lt hi, hx]
  rfl

theorem hourly_pad_at (env : Env) (xs : List JVal) (i : Nat)
    (hi : i < 48) (hx : xs.length ≤ i) :
    (normalizeHourlyGroup env (.arr xs))[i]? = some (hourlyPad env i) := by
  simp only [normalizeHourlyGroup]
  have hA : ((xs.take 48).enum.map (fun p => hourlyTaken env p.1 p.2)).length = xs.length := by
    simp only [List.length_map, List.enum_length, List.length_take]; omega
  rw [List.getElem?_append_right (by omega), hA, List.getElem?_map, List.getElem?_range']
  · simp only [Option.map_some']
    congr 2
    omega
  · omega

theorem setUTCMinutesZero_add (t : Int) (i : Nat) :
    setUTCMinutesZero (t + (i : Int) * 3600000) = setUTCMinutesZero t + (i : Int) * msPerHour := by
  unfold setUTCMinutesZero msPerHour
  omega

theorem hourlyPad_time (env : Env) (i : Nat) :
    (hourlyPad env i).time = hourStamp (setUTCMinutesZero env.now + (i : Int) * msPerHour) := by
  have h : (hourlyPad env i).time
      = hourStamp (setUTCMinutesZero ((env.now : Int) + (i : Int) * 3600000)) := rfl
  rw [h, setUTCMinutesZero_add]

theorem hourlyTaken_time (env : Env) (i : Nat) (kvs : List (String × JVal)) (s : String)
    (hs : objGet kvs "time" = .str s) : (hourlyTaken env i (.obj kvs)).time = s := by
  simp only [hourlyTaken, truthy, memberOf, hs, if_true]

/-! ## Claims C1-C10 -/

/-- C1 (as stated, refuted): on the empty response text and on a text with no
JSON in it the pipeline completes, yet the hourly map and the monthly map are
both `null`. -/
theorem pipeline_maps_null_without_json :
    threw (hyperTrain demoEnv "" ["a"]) = false
      ∧ hourlyOf (hyperTrain demoEnv "" ["a"]) = none
      ∧ monthlyOf (hyperTrain demoEnv "" ["a"]) = none
      ∧ threw (hyperTrain demoEnv "Sorry, I cannot help." ["a"]) = false
      ∧ hourlyOf (hyperTrain demoEnv "Sorry, I cannot help." ["a"]) = none
      ∧ monthlyOf (hyperTrain demoEnv "Sorry, I cannot help." ["a"]) = none := by
  decide!

/-- C1 (amended): for every response text and every list of group keys, each
map the pipeline produces is complete: a hourly map gives every group key a
series of exactly 48 points and a monthly map gives every group key a series
of exactly 12 points. -/
theorem pipeline_maps_complete (env : Env) (text : String) (keys : List String) :
    (∀ h, hourlyOf (hyperTrain env text keys) = some h →
      ∀ g, g ∈ keys → ∃ s, mapGet h g = some s ∧ s.length = 48) ∧
    (∀ m, monthlyOf (hyperTrain env text keys) = some m →
      ∀ g, g ∈ keys → ∃ s, mapGet m g = some s ∧ s.length = 12) := by
  obtain ⟨h1, h2⟩ := schemaParse_maps env (extractParsed text) keys
  exact ⟨fun h hh g hg => complete_get 48 keys h (h1 h hh) g hg,
    fun m hm g hg => complete_get 12 keys m (h2 m hm) g hg⟩

/-- C1 (witness): a response naming only group `a` still gives group `b` a
series of 48 points. -/
theorem pipeline_maps_complete_witness :
    ∃ s, mapGet ((hourlyOf (hyperTrain demoEnv
        "\x7b\"hourly_forecast_groups\": \x7b\"a\": [], \"z\": []\x7d, \"monthly_forecast_groups\": \x7b\"a\": []\x7d\x7d"
        ["a", "b"])).getD []) "b" = some s ∧ s.length = 48 :=
  (pipeline_maps_complete demoEnv
    "\x7b\"hourly_forecast_groups\": \x7b\"a\": [], \"z\": []\x7d, \"monthly_forecast_groups\": \x7b\"a\": []\x7d\x7d"
    ["a", "b"]).1 _ (by decide!) "b" (by decide)

/-- C2 (code evaluated at the failing inputs): a `null` element in a group's
array, a group whose value is a string, a group whose value is a plain object,
and a salvaged array whose first element is `null` each make the schema
parsing throw a `TypeError`, which the handler turns into a 500 reply. -/
theorem schemaParse_throws_on_malformed_group :
    threw (hyperTrain demoEnv
        "\x7b\"hourly_forecast_groups\":\x7b\"a\":[null],\"b\":[]\x7d\x7d" ["a", "b"]) = true
      ∧ threw (schemaParse demoEnv
          (.obj [("hourly_forecast_groups", .obj [("a", .arr [.null])])]) ["a"]) = true
      ∧ threw (schemaParse demoEnv
          (.obj [("hourly_forecast_groups", .obj [("a", .str "abc")])]) ["a"]) = true
      ∧ threw (schemaParse demoEnv
          (.obj [("hourly_forecast_groups", .obj [("a", .obj [("x", .bool true)])])]) ["a"]) = true
      ∧ threw (schemaParse demoEnv (.obj [("rows", .arr [.null])]) ["a"]) = true := by
  decide!

/-- C3 (code evaluated at the failing input): for the group keys `a`, `b` and
the response of the claim, the series of group `b` starts with the point of
group `a` (value 3 at 2025-01-01T00:00:00Z), exactly as the series of `a`. -/
theorem partial_response_leaks_into_other_group :
    (hourlyOf (hyperTrain demoEnv
        "\x7b\"hourly_forecast_groups\": \x7b\"a\": [\x7b\"time\":\"2025-01-01T00:00:00Z\",\"value\":3\x7d]\x7d\x7d"
        ["a", "b"])).map (fun h => (mapGet h "b").map (fun s => s.head?))
      = some (some (some ⟨"2025-01-01T00:00:00Z", 3⟩))
    ∧ (hourlyOf (hyperTrain demoEnv
        "\x7b\"hourly_forecast_groups\": \x7b\"a\": [\x7b\"time\":\"2025-01-01T00:00:00Z\",\"value\":3\x7d]\x7d\x7d"
        ["a", "b"])).map (fun h => (mapGet h "a").map (fun s => s.head?))
      = some (some (some ⟨"2025-01-01T00:00:00Z", 3⟩)) := by
  decide!

/-- C4: whenever the schema parsing produces an hourly map (a monthly map), the
keys of the map are exactly the supplied group keys; so for the hourly map on
each of its three construction paths (alias container, legacy `generated`
array, salvage). -/
theorem group_maps_have_the_supplied_keys (env : Env) (parsed : JVal) (keys : List String) :
    (∀ h, hourlyOf (schemaParse env parsed keys) = some h →
      ∀ k, k ∈ h.map Prod.fst ↔ k ∈ keys) ∧
    (∀ m, monthlyOf (schemaParse env parsed keys) = some m →
      ∀ k, k ∈ m.map Prod.fst ↔ k ∈ keys) ∧
    (∀ src h, hourlyFromSource env src keys = .ok (some h) →
      ∀ k, k ∈ h.map Prod.fst ↔ k ∈ keys) ∧
    (∀ h, hourlyFromGenerated env parsed keys none = .ok (some h) →
      ∀ k, k ∈ h.map Prod.fst ↔ k ∈ keys) ∧
    (∀ h, hourlySalvage env parsed keys none = .ok (some h) →
      ∀ k, k ∈ h.map Prod.fst ↔ k ∈ keys) := by
  obtain ⟨h1, h2⟩ := schemaParse_maps env parsed keys
  refine ⟨fun h hh => (h1 h hh).1, fun m hm => (h2 m hm).1, ?_, ?_, ?_⟩
  · exact fun src h hh => (hourlyFromSource_spec env src keys h hh).1
  · exact fun h hh =>
      (hourlyFromGenerated_spec env parsed keys none h (fun x hx => by cases hx) hh).1
  · exact fun h hh =>
      (hourlySalvage_spec env parsed keys none h (fun x hx => by cases hx) hh).1

/-- C4 (witness): the response names the groups `a` and `z`, the caller asks
for `a` and `b`; the hourly map has no key `z`. -/
theorem group_maps_have_the_supplied_keys_witness :
    ("z" ∈ ((hourlyOf (schemaParse demoEnv
        (.obj [("hourly_forecast_groups", .obj [("a", .arr []), ("z", .arr [])])])
        ["a", "b"])).getD []).map Prod.fst ↔ "z" ∈ ["a", "b"]) :=
  (group_maps_have_the_supplied_keys demoEnv
    (.obj [("hourly_forecast_groups", .obj [("a", .arr []), ("z", .arr [])])])
    ["a", "b"]).1 _ (by decide!) "z"

/-- C5 (as stated, refuted): for the non-array inputs `null`, a string and a
plain object `normalizeHourlyGroup` returns the empty series, not 48 entries. -/
theorem normalizeHourlyGroup_non_array_is_empty :
    (normalizeHourlyGroup demoEnv .null).length ≠ 48
      ∧ (normalizeHourlyGroup demoEnv (.str "abc")).length ≠ 48
      ∧ (normalizeHourlyGroup demoEnv (.obj [("time", .str "x")])).length ≠ 48 := by
  decide

/-- C5 (amended): `normalizeHourlyGroup` returns exactly 48 entries for every
array (of any length, 0 and more than 48 included) and the empty series for
every value that is not an array. -/
theorem normalizeHourlyGroup_length (env : Env) (arr : JVal) :
    (normalizeHourlyGroup env arr).length = if isArray arr then 48 else 0 := by
  cases arr with
  | arr xs => simpa [isArray] using normalizeHourlyGroup_arr_length env xs
  | _ => simp [normalizeHourlyGroup, isArray]

/-- C6: for every input and every start month (given by a time value at or
after the epoch), `normalizeMonthlyGroup` returns exactly 12 entries, and the
timestamp of entry `i` is day 1, 00:00 UTC of the calendar month
`start month + i`, whatever month fields the input holds. -/
theorem normalizeMonthlyGroup_months (env : Env) (arr : JVal) (start : Nat) :
    (normalizeMonthlyGroup env arr start).length = 12 ∧
    (normalizeMonthlyGroup env arr start).map (fun p => p.month)
      = (List.range 12).map (fun (i : Nat) =>
          firstOfMonthString (getUTCFullYear start + (getUTCMonth start + (i : Int)) / 12)
            ((getUTCMonth start + (i : Int)) % 12)) := by
  refine ⟨normalizeMonthlyGroup_length env arr start, ?_⟩
  simp only [normalizeMonthlyGroup, List.map_map]
  apply List.map_congr_left
  intro i _
  exact monthlyEntry_month env arr start i

/-- C7 (as stated, refuted): for a raw array of 48 entries that all carry the
timestamp 2025-01-01T00:00:00Z the returned series keeps that timestamp at
every index, so its points are not one hour apart. -/
theorem hourly_series_keeps_supplied_timestamps :
    ¬ HourlySpaced isoParse (normalizeHourlyGroup demoEnv
      (.arr (List.replicate 48
        (.obj [("time", .str "2025-01-01T00:00:00Z"), ("value", .num (.fin 1))])))) := by
  intro h
  obtain ⟨t0, t, h0, h1, h2⟩ := h 1 ⟨"2025-01-01T00:00:00Z", 1⟩ ⟨"2025-01-01T00:00:00Z", 1⟩
    (by decide!) (by decide!)
  have e : isoParse "2025-01-01T00:00:00Z" = some 1735689600000 := by decide!
  simp only [e, Option.some.injEq] at h0 h1
  subst h0 h1
  simp [msPerHour] at h2

/-- C7 (amended): in the series returned for a raw array, a point taken from an
entry that carries a string `time` keeps that string unchanged, and every
padded point (index `i` at or beyond the length of the raw array) is stamped
with the instant "clock truncated to the hour, plus `i` hours", so that
consecutive padded points are exactly one hour apart. -/
theorem hourly_series_timestamps (env : Env) (xs : List JVal) (i : Nat) (hi : i < 48) :
    (∀ kvs s, xs[i]? = some (.obj kvs) → objGet kvs "time" = .str s →
      ((normalizeHourlyGroup env (.arr xs))[i]?).map (fun p => p.time) = some s) ∧
    (xs.length ≤ i →
      ((normalizeHourlyGroup env (.arr xs))[i]?).map (fun p => p.time)
        = some (hourStamp (setUTCMinutesZero env.now + (i : Int) * msPerHour))) := by
  constructor
  · intro kvs s hx hs
    rw [hourly_taken_at env xs i (.obj kvs) hi hx]
    simp only [Option.map_some', hourlyTaken_time env i kvs s hs]
  · intro hx
    rw [hourly_pad_at env xs i hi hx]
    simp only [Option.map_some', hourlyPad_time]

/-- C7 (witness): with one supplied point, index 0 keeps the supplied string
and index 5 is stamped five hours after the hour-truncated clock. -/
theorem hourly_series_timestamps_witness :
    ((normalizeHourlyGroup demoEnv
        (.arr [.obj [("time", .str "2030-05-05T07:00:00Z"), ("value", .num (.fin 2))]]))[5]?).map
          (fun p => p.time)
      = some (hourStamp (setUTCMinutesZero demoEnv.now + ((5 : Nat) : Int) * msPerHour)) :=
  (hourly_series_timestamps demoEnv
    [.obj [("time", .str "2030-05-05T07:00:00Z"), ("value", .num (.fin 2))]] 5 (by decide)).2
    (by decide)

/-- C8: every value of a series returned by `normalizeHourlyGroup` lies in
[0, 50]; a value that coerces to `NaN` and a negative value become 0. -/
theorem hourly_values_bounded (env : Env) (arr : JVal) :
    (∀ p, p ∈ normalizeHourlyGroup env arr → 0 ≤ p.value ∧ p.value ≤ 50) ∧
    (∀ v, toNumber env v = .nan → clampNumber env v 0 50 = 0) ∧
    (∀ v q, toNumber env v = .fin q → q < 0 → clampNumber env v 0 50 = 0) := by
  refine ⟨?_, ?_, ?_⟩
  · intro p hp
    rcases normalizeHourlyGroup_mem env arr p hp with ⟨i, item, rfl⟩ | ⟨i, rfl⟩
    · exact hourlyTaken_bounds env i item
    · exact hourlyPad_bounds env i
  · intro v hv
    simp [clampNumber, hv]
  · intro v q hv hq
    simp only [clampNumber, hv]
    rw [max_eq_left (le_of_lt hq)]
    norm_num

/-- C8 (witness): a supplied value 80 is returned as 50. -/
theorem hourly_values_bounded_witness :
    (0 : ℚ) ≤ (HPoint.mk "2025-01-01T00:00:00Z" 50).value
      ∧ (HPoint.mk "2025-01-01T00:00:00Z" 50).value ≤ 50 :=
  (hourly_values_bounded demoEnv
    (.arr [.obj [("time", .str "2025-01-01T00:00:00Z"), ("value", .num (.fin 80))]])).1
    ⟨"2025-01-01T00:00:00Z", 50⟩ (by decide!)

theorem hoursInMonthUtc_nonneg (y m : Int) : 0 ≤ hoursInMonthUtc y m := by
  have := (civil_range (dateUTC y (m + 1) 0 / msPerDay)).2.2.1
  unfold hoursInMonthUtc getUTCDate
  omega

theorem firstOfMonth_fields (start : Nat) :
    getUTCFullYear (firstOfMonthUtcFrom start) = getUTCFullYear start ∧
    getUTCMonth (firstOfMonthUtcFrom start) = getUTCMonth start := by
  have hy := start_year_ge start
  have hm := getUTCMonth_range (start : Int)
  unfold firstOfMonthUtcFrom
  rw [getUTCFullYear_dateUTC _ _ hy, getUTCMonth_dateUTC _ _ hy]
  constructor <;> omega

theorem csvMonthDate_fields (start : Nat) (m : Nat) :
    getUTCFullYear (csvMonthDate start m) = getUTCFullYear start + (getUTCMonth start + m) / 12 ∧
    getUTCMonth (csvMonthDate start m) = (getUTCMonth start + m) % 12 := by
  have hy := start_year_ge start
  obtain ⟨e1, e2⟩ := firstOfMonth_fields start
  unfold csvMonthDate
  rw [e1, e2, getUTCFullYear_dateUTC _ _ hy, getUTCMonth_dateUTC _ _ hy]
  exact ⟨rfl, rfl⟩

theorem csvMonthlyValue_bounds (env : Env) (start : Nat) (m i : Nat)
    (hcos : ∀ k, env.cos12 k ≤ 1) (hi : i < 160) :
    0 ≤ csvMonthlyValue env start m i ∧
    csvMonthlyValue env start m i
      ≤ 24 * (24 * daysInMonth (getUTCFullYear start + (getUTCMonth start + m) / 12)
          ((getUTCMonth start + m) % 12 + 1)) := by
  have hy := start_year_ge start
  have hm := getUTCMonth_range (start : Int)
  obtain ⟨e1, e2⟩ := csvMonthDate_fields start m
  have hH : hoursInMonthUtc (getUTCFullYear (csvMonthDate start m)) (getUTCMonth (csvMonthDate start m))
      = 24 * daysInMonth (getUTCFullYear start + (getUTCMonth start + m) / 12)
          ((getUTCMonth start + m) % 12 + 1) := by
    rw [e1, e2]
    exact hoursInMonthUtc_eq _ _ (by omega) (by omega) (by omega)
  have hpos := daysInMonth_pos (getUTCFullYear start + (getUTCMonth start + m) / 12)
          ((getUTCMonth start + m) % 12 + 1)
  have hv : csvMonthlyValue env start m i
      = max 0 (2 + (3 / 10) * env.cos12 (getUTCMonth (csvMonthDate start m)).toNat + (2 / 100) * i)
        * (hoursInMonthUtc (getUTCFullYear (csvMonthDate start m))
            (getUTCMonth (csvMonthDate start m)) : ℚ) := rfl
  rw [hv, hH]
  have hc := hcos (getUTCMonth (csvMonthDate start m)).toNat
  have hiq : (i : ℚ) ≤ 159 := by exact_mod_cast (by omega : i ≤ 159)
  have hD : (0 : ℚ) ≤ ((24 * daysInMonth (getUTCFullYear start + (getUTCMonth start + m) / 12)
          ((getUTCMonth start + m) % 12 + 1) : Int) : ℚ) := by
    exact_mod_cast (by omega : (0 : Int) ≤ 24 * daysInMonth
      (getUTCFullYear start + (getUTCMonth start + m) / 12) ((getUTCMonth start + m) % 12 + 1))
  have hp0 : (0 : ℚ) ≤ max 0 (2 + (3 / 10) * env.cos12 (getUTCMonth (csvMonthDate start m)).toNat
      + (2 / 100) * i) := le_max_left _ _
  have hp1 : max 0 (2 + (3 / 10) * env.cos12 (getUTCMonth (csvMonthDate start m)).toNat
      + (2 / 100) * (i : ℚ)) ≤ 24 := by
    apply max_le (by norm_num)
    linarith
  constructor
  · exact mul_nonneg hp0 hD
  · push_cast at hD ⊢
    exact mul_le_mul_of_nonneg_right hp1 hD

/-- C9 (as stated, refuted): for July 2025 (31 days, 24 x D = 744) a supplied
monthly value 1000 is returned unchanged by `normalizeMonthlyGroup`, and the
CSV fallback's value for June 2025 (30 days, 24 x D = 720) exceeds 720. -/
theorem monthly_value_exceeds_24_times_days :
    (normalizeMonthlyGroup demoEnv (.arr [.obj [("value", .num (.fin 1000))]])
        (startNext demoEnv)).head? = some ⟨"2025-07-01T00:00:00Z", 1000⟩
      ∧ ¬ ((1000 : ℚ) ≤ 24 * daysInMonth 2025 7)
      ∧ ¬ (csvMonthlyValue demoEnv demoEnv.now 0 0 ≤ 24 * daysInMonth 2025 6) := by
  decide!

theorem repair_ordered (s : Summary) :
    (repairMax (repairMin s)).min ≤ (repairMax (repairMin s)).avg ∧
    (repairMax (repairMin s)).avg ≤ (repairMax (repairMin s)).max := by
  unfold repairMax repairMin
  split_ifs with h1 h2 h3 <;> simp only at * <;> constructor <;> linarith

/-- C9 (amended): every monthly value lies in [0, 24 x H], where H = 24 x D is
the number of hours of that UTC month (D its number of days): the values
returned by `normalizeMonthlyGroup`, supplied or synthesized, for every input,
and the synthetic monthly values of the CSV fallback for a group index below
the cap of 160 groups (the cosine sample being at most 1); start times are
time values at or after the epoch. -/
theorem monthly_values_bounded (env : Env) (arr : JVal) (start : Nat) (i g : Nat) :
    (∀ p, (normalizeMonthlyGroup env arr start)[i]? = some p →
      0 ≤ p.value ∧ p.value ≤ 24 * (24 * daysInMonth
        (getUTCFullYear start + (getUTCMonth start + (i : Int)) / 12)
        ((getUTCMonth start + (i : Int)) % 12 + 1))) ∧
    ((∀ k, env.cos12 k ≤ 1) → g < 160 →
      0 ≤ csvMonthlyValue env start i g ∧
      csvMonthlyValue env start i g ≤ 24 * (24 * daysInMonth
        (getUTCFullYear start + (getUTCMonth start + (i : Int)) / 12)
        ((getUTCMonth start + (i : Int)) % 12 + 1))) := by
  constructor
  · intro p hp
    simp only [normalizeMonthlyGroup, List.getElem?_map] at hp
    rcases Nat.lt_or_ge i 12 with hi | hi
    · rw [List.getElem?_range hi] at hp
      simp only [Option.map_some', Option.some.injEq] at hp
      subst hp
      exact monthlyEntry_value env arr start i
    · rw [List.getElem?_eq_none (by simpa using hi)] at hp
      simp at hp
  · intro hcos hg
    exact csvMonthlyValue_bounds env start i g hcos hg

/-- C9 (witness): the supplied value 1000 for July 2025 is within 24 x 744. -/
theorem monthly_values_bounded_witness :
    (0 : ℚ) ≤ (MPoint.mk "2025-07-01T00:00:00Z" 1000).value ∧
    (MPoint.mk "2025-07-01T00:00:00Z" 1000).value ≤ 24 * (24 * daysInMonth
      (getUTCFullYear ((1751328000000 : Nat) : Int)
        + (getUTCMonth ((1751328000000 : Nat) : Int) + ((0 : Nat) : Int)) / 12)
      ((getUTCMonth ((1751328000000 : Nat) : Int) + ((0 : Nat) : Int)) % 12 + 1)) :=
  (monthly_values_bounded demoEnv (.arr [.obj [("value", .num (.fin 1000))]])
    1751328000000 0 0).1 ⟨"2025-07-01T00:00:00Z", 1000⟩ (by decide!)

/-- C10: for every input, the summary returned by `sanitizeAnalysisObject`
satisfies min <= avg <= max. -/
theorem sanitized_summary_ordered (env : Env) (obj : JVal) :
    (sanitizeAnalysisObject env obj).summary.min ≤ (sanitizeAnalysisObject env obj).summary.avg ∧
    (sanitizeAnalysisObject env obj).summary.avg ≤ (sanitizeAnalysisObject env obj).summary.max := by
  unfold sanitizeAnalysisObject
  split
  · exact ⟨le_refl _, le_refl _⟩
  · exact repair_ordered _

/-! ## Claims C11-C13: the analysis sanitiser -/

theorem sanitizeNumber_bounds (env : Env) (v : JVal) (fb lo hi : ℚ) (h : lo ≤ hi)
    (h1 : lo ≤ fb) (h2 : fb ≤ hi) :
    lo ≤ sanitizeNumber env v fb lo hi ∧ sanitizeNumber env v fb lo hi ≤ hi := by
  unfold sanitizeNumber
  cases toNumber env v with
  | nan => exact ⟨h1, h2⟩
  | ninf => exact ⟨le_min h (le_refl _), min_le_left _ _⟩
  | fin n => exact ⟨le_min h (le_max_left _ _), min_le_left _ _⟩
  | pinf => exact ⟨h, le_refl _⟩

theorem summaryFields_bounds (env : Env) (summary : JVal) :
    (0 ≤ (summaryFields env summary).avg ∧ (summaryFields env summary).avg ≤ 100000) ∧
    (0 ≤ (summaryFields env summary).min ∧ (summaryFields env summary).min ≤ 100000) ∧
    (0 ≤ (summaryFields env summary).max ∧ (summaryFields env summary).max ≤ 100000) ∧
    (0 ≤ (summaryFields env summary).peakHour ∧ (summaryFields env summary).peakHour ≤ 23) := by
  refine ⟨?_, ?_, ?_, ?_⟩
  · exact sanitizeNumber_bounds env _ 0 0 100000 (by norm_num) (le_refl _) (by norm_num)
  · exact sanitizeNumber_bounds env _ 0 0 100000 (by norm_num) (le_refl _) (by norm_num)
  · exact sanitizeNumber_bounds env _ 0 0 100000 (by norm_num) (le_refl _) (by norm_num)
  · have hb := sanitizeNumber_bounds env (memberOf summary "peakHour") 0 0 23 (by norm_num)
      (le_refl _) (by norm_num)
    exact mathRound_bounds _ 23 hb.1 (by exact_mod_cast hb.2)

theorem repair_fields (s : Summary) (B : ℚ)
    (ha : 0 ≤ s.avg ∧ s.avg ≤ B) (hmin : 0 ≤ s.min ∧ s.min ≤ B) (hmax : 0 ≤ s.max ∧ s.max ≤ B) :
    (0 ≤ (repairMax (repairMin s)).avg ∧ (repairMax (repairMin s)).avg ≤ B) ∧
    (0 ≤ (repairMax (repairMin s)).min ∧ (repairMax (repairMin s)).min ≤ B) ∧
    (0 ≤ (repairMax (repairMin s)).max ∧ (repairMax (repairMin s)).max ≤ B) ∧
    (repairMax (repairMin s)).peakHour = s.peakHour := by
  unfold repairMax repairMin
  split_ifs <;> simp only <;> refine ⟨ha, ?_, ?_, ?_⟩ <;> first | assumption | trivial

/-- C11: for every input, the `peakHour` returned by `sanitizeAnalysisObject`
is an integer in 0..23; an input that coerces to `NaN` gives 0, and a number
within [0, 23] gives its rounding, which is again within 0..23. -/
theorem peakHour_in_range (env : Env) (obj : JVal) :
    (0 ≤ (sanitizeAnalysisObject env obj).summary.peakHour
      ∧ (sanitizeAnalysisObject env obj).summary.peakHour ≤ 23) ∧
    (∀ summary, toNumber env (memberOf summary "peakHour") = .nan →
      (summaryFields env summary).peakHour = 0) ∧
    (∀ summary q, toNumber env (memberOf summary "peakHour") = .fin q → 0 ≤ q → q ≤ 23 →
      (summaryFields env summary).peakHour = mathRound q) := by
  refine ⟨?_, ?_, ?_⟩
  · unfold sanitizeAnalysisObject
    split
    · exact ⟨le_refl _, by norm_num⟩
    · have hb := summaryFields_bounds env
        (if truthy (memberOf obj "summary") && typeofObject (memberOf obj "summary")
          then memberOf obj "summary" else .obj [])
      have hr := repair_fields _ 100000 hb.1 hb.2.1 hb.2.2.1
      simp only
      rw [hr.2.2.2]
      exact hb.2.2.2
  · intro summary h
    simp [summaryFields, sanitizeNumber, h, mathRound]
    norm_num
  · intro summary q h h0 h1
    simp only [summaryFields, sanitizeNumber, h]
    rw [max_eq_right h0, min_eq_right h1]

/-- C12: for every input, each of `avg`, `min` and `max` returned by
`sanitizeAnalysisObject` lies in [0, 100000], and a field whose input coerces
to `NaN` is 0 before the ordering repair. -/
theorem summary_numbers_in_range (env : Env) (obj : JVal) :
    (0 ≤ (sanitizeAnalysisObject env obj).summary.avg
      ∧ (sanitizeAnalysisObject env obj).summary.avg ≤ 100000) ∧
    (0 ≤ (sanitizeAnalysisObject env obj).summary.min
      ∧ (sanitizeAnalysisObject env obj).summary.min ≤ 100000) ∧
    (0 ≤ (sanitizeAnalysisObject env obj).summary.max
      ∧ (sanitizeAnalysisObject env obj).summary.max ≤ 100000) ∧
    (∀ summary, toNumber env (memberOf summary "avg") = .nan →
      (summaryFields env summary).avg = 0) ∧
    (∀ summary, toNumber env (memberOf summary "min") = .nan →
      (summaryFields env summary).min = 0) ∧
    (∀ summary, toNumber env (memberOf summary "max") = .nan →
      (summaryFields env summary).max = 0) := by
  refine ⟨?_, ?_, ?_, ?_, ?_, ?_⟩
  · unfold sanitizeAnalysisObject
    split
    · exact ⟨le_refl _, by norm_num⟩
    · have hb := summaryFields_bounds env
        (if truthy (memberOf obj "summary") && typeofObject (memberOf obj "summary")
          then memberOf obj "summary" else .obj [])
      exact (repair_fields _ 100000 hb.1 hb.2.1 hb.2.2.1).1
  · unfold sanitizeAnalysisObject
    split
    · exact ⟨le_refl _, by norm_num⟩
    · have hb := summaryFields_bounds env
        (if truthy (memberOf obj "summary") && typeofObject (memberOf obj "summary")
          then memberOf obj "summary" else .obj [])
      exact (repair_fields _ 100000 hb.1 hb.2.1 hb.2.2.1).2.1
  · unfold sanitizeAnalysisObject
    split
    · exact ⟨le_refl _, by norm_num⟩
    · have hb := summaryFields_bounds env
        (if truthy (memberOf obj "summary") && typeofObject (memberOf obj "summary")
          then memberOf obj "summary" else .obj [])
      exact (repair_fields _ 100000 hb.1 hb.2.1 hb.2.2.1).2.2.1
  · intro summary h
    simp [summaryFields, sanitizeNumber, h]
  · intro summary h
    simp [summaryFields, sanitizeNumber, h]
  · intro summary h
    simp [summaryFields, sanitizeNumber, h]

theorem sanitizeStrings_spec (env : Env) (width : Nat) (v : JVal) :
    (sanitizeStrings env width v).length ≤ 8 ∧
    (∀ i d, (sanitizeStrings env width v)[i]? = some d →
      d.length ≤ width ∧ i < 8 ∧
      ∃ xs x, v = .arr xs ∧ xs[i]? = some x ∧ d <+: utf16 (toStr env x)) ∧
    (isArray v = false → sanitizeStrings env width v = []) := by
  cases v with
  | arr xs =>
    refine ⟨?_, ?_, ?_⟩
    · simp only [sanitizeStrings, List.length_map, List.length_take]
      omega
    · intro i d hd
      simp only [sanitizeStrings, List.getElem?_map] at hd
      rcases Nat.lt_or_ge i 8 with hi | hi
      · rw [List.getElem?_take_of_lt hi] at hd
        cases hx : xs[i]? with
        | none => simp [hx] at hd
        | some x =>
          simp only [hx, Option.map_some', Option.some.injEq] at hd
          subst hd
          refine ⟨?_, hi, xs, x, rfl, hx, List.take_prefix _ _⟩
          simp only [List.length_take]
          omega
      · rw [List.getElem?_eq_none (by simp only [List.length_take]; omega)] at hd
        simp at hd
    · intro h
      simp [isArray] at h
  | _ => simp [sanitizeStrings, isArray]

/-- C13: for every input object, `sanitizeAnalysisObject` returns lists of
drivers and recommendations of at most 8 strings each, every driver of at most
80 and every recommendation of at most 120 UTF-16 code units, the string at
index `i` being a prefix of the string form of the input element at index `i`
(one of the first 8); a field that is not an array yields the empty list. -/
theorem drivers_and_recommendations_sanitized (env : Env) (kvs : List (String × JVal)) :
    ((sanitizeAnalysisObject env (.obj kvs)).drivers.length ≤ 8 ∧
      (∀ i d, (sanitizeAnalysisObject env (.obj kvs)).drivers[i]? = some d →
        d.length ≤ 80 ∧ i < 8 ∧
        ∃ xs x, objGet kvs "drivers" = .arr xs ∧ xs[i]? = some x ∧ d <+: utf16 (toStr env x)) ∧
      (isArray (objGet kvs "drivers") = false →
        (sanitizeAnalysisObject env (.obj kvs)).drivers = [])) ∧
    ((sanitizeAnalysisObject env (.obj kvs)).recommendations.length ≤ 8 ∧
      (∀ i d, (sanitizeAnalysisObject env (.obj kvs)).recommendations[i]? = some d →
        d.length ≤ 120 ∧ i < 8 ∧
        ∃ xs x, objGet kvs "recommendations" = .arr xs ∧ xs[i]? = some x
          ∧ d <+: utf16 (toStr env x)) ∧
      (isArray (objGet kvs "recommendations") = false →
        (sanitizeAnalysisObject env (.obj kvs)).recommendations = [])) := by
  have e1 : (sanitizeAnalysisObject env (.obj kvs)).drivers
      = sanitizeStrings env 80 (objGet kvs "drivers") := rfl
  have e2 : (sanitizeAnalysisObject env (.obj kvs)).recommendations
      = sanitizeStrings env 120 (objGet kvs "recommendations") := rfl
  rw [e1, e2]
  exact ⟨sanitizeStrings_spec env 80 _, sanitizeStrings_spec env 120 _⟩

/-- C13 (witness): the driver `temperature` is kept whole. -/
theorem drivers_and_recommendations_sanitized_witness :
    (utf16 "temperature").length ≤ 80 ∧ 0 < 8 ∧
      ∃ xs x, objGet [("drivers", JVal.arr [JVal.str "temperature"])] "drivers" = .arr xs
        ∧ xs[0]? = some x ∧ utf16 "temperature" <+: utf16 (toStr demoEnv x) :=
  (drivers_and_recommendations_sanitized demoEnv
    [("drivers", .arr [.str "temperature"])]).1.2.1 0 (utf16 "temperature") (by decide!)

/-! ## Equality of JavaScript values -/

mutual
theorem jsonEq_sound : ∀ a b : JVal, jsonEq a b = true → a = b
  | .undefined, b, h => by cases b <;> simp_all [jsonEq]
  | .null, b, h => by cases b <;> simp_all [jsonEq]
  | .bool x, b, h => by cases b <;> simp_all [jsonEq]
  | .num x, b, h => by cases b <;> simp_all [jsonEq]
  | .str x, b, h => by cases b <;> simp_all [jsonEq]
  | .arr xs, b, h => by
    cases b with
    | arr ys =>
      simp only [jsonEq] at h
      rw [jsonEqList_sound xs ys h]
    | _ => simp [jsonEq] at h
  | .obj xs, b, h => by
    cases b with
    | obj ys =>
      simp only [jsonEq] at h
      rw [jsonEqObj_sound xs ys h]
    | _ => simp [jsonEq] at h
theorem jsonEqList_sound : ∀ a b : List JVal, jsonEqList a b = true → a = b
  | [], b, h => by cases b <;> simp_all [jsonEqList]
  | x :: xs, b, h => by
    cases b with
    | nil => simp [jsonEqList] at h
    | cons y ys =>
      simp only [jsonEqList, Bool.and_eq_true] at h
      rw [jsonEq_sound x y h.1, jsonEqList_sound xs ys h.2]
theorem jsonEqObj_sound : ∀ a b : List (String × JVal), jsonEqObj a b = true → a = b
  | [], b, h => by cases b <;> simp_all [jsonEqObj]
  | (k, x) :: xs, b, h => by
    cases b with
    | nil => simp [jsonEqObj] at h
    | cons p ys =>
      obtain ⟨l, y⟩ := p
      simp only [jsonEqObj, Bool.and_eq_true, decide_eq_true_eq] at h
      rw [h.1.1, jsonEq_sound x y h.1.2, jsonEqObj_sound xs ys h.2]
end

mutual
theorem jsonEq_refl : ∀ a : JVal, jsonEq a a = true
  | .undefined => by simp [jsonEq]
  | .null => by simp [jsonEq]
  | .bool x => by simp [jsonEq]
  | .num x => by simp [jsonEq]
  | .str x => by simp [jsonEq]
  | .arr xs => by simp only [jsonEq]; exact jsonEqList_refl xs
  | .obj xs => by simp only [jsonEq]; exact jsonEqObj_refl xs
theorem jsonEqList_refl : ∀ a : List JVal, jsonEqList a a = true
  | [] => by simp [jsonEqList]
  | x :: xs => by simp [jsonEqList, jsonEq_refl x, jsonEqList_refl xs]
theorem jsonEqObj_refl : ∀ a : List (String × JVal), jsonEqObj a a = true
  | [] => by simp [jsonEqObj]
  | (k, x) :: xs => by simp [jsonEqObj, jsonEq_refl x, jsonEqObj_refl xs]
end

theorem jsonEq_iff (a b : JVal) : jsonEq a b = true ↔ a = b :=
  ⟨jsonEq_sound a b, fun h => h ▸ jsonEq_refl a⟩

/-! ## Claims C16-C20 -/

/-- C16 (code evaluated at the failing input): in the response of C3 the text
from the first opening brace to the last closing brace parses as an object
with the member `hourly_forecast_groups`, yet the candidate handed to schema
parsing has no such member: the second pass replaced it by an object whose
`generated` member is the array found between the first `[` and the last `]`. -/
theorem second_pass_replaces_parsed_object :
    ((firstToLast '\x7b' '\x7d'
        "\x7b\"hourly_forecast_groups\": \x7b\"a\": [\x7b\"time\":\"2025-01-01T00:00:00Z\",\"value\":3\x7d]\x7d\x7d".data).bind
          jsonParse).map (fun v => truthy (memberOf v "hourly_forecast_groups")) = some true
      ∧ truthy (memberOf (extractParsed
          "\x7b\"hourly_forecast_groups\": \x7b\"a\": [\x7b\"time\":\"2025-01-01T00:00:00Z\",\"value\":3\x7d]\x7d\x7d")
          "hourly_forecast_groups") = false
      ∧ isArray (memberOf (extractParsed
          "\x7b\"hourly_forecast_groups\": \x7b\"a\": [\x7b\"time\":\"2025-01-01T00:00:00Z\",\"value\":3\x7d]\x7d\x7d")
          "generated") = true := by
  decide!

/-- C17 (as stated, refuted): for the candidate
`{data: {result: {hourly: {a: []}}, generated: 1}}` the candidate after
unwrapping is neither the original nor the value of one of its wrapper keys:
it is the object nested under `data` and then `result`, with an `analysis`
member added. -/
theorem unwrapping_descends_two_levels :
    jsonEq (unwrapKeys.foldl unwrapStep
        (.obj [("data", .obj [("result", .obj [("hourly", .obj [("a", .arr [])])]),
          ("generated", .num (.fin 1))])]))
        (.obj [("hourly", .obj [("a", .arr [])]), ("analysis", .undefined)]) = true
      ∧ unwrapKeys.foldl unwrapStep
          (.obj [("data", .obj [("result", .obj [("hourly", .obj [("a", .arr [])])]),
            ("generated", .num (.fin 1))])])
        ≠ .obj [("data", .obj [("result", .obj [("hourly", .obj [("a", .arr [])])]),
            ("generated", .num (.fin 1))])]
      ∧ unwrapKeys.all (fun k => !jsonEq (unwrapKeys.foldl unwrapStep
          (.obj [("data", .obj [("result", .obj [("hourly", .obj [("a", .arr [])])]),
            ("generated", .num (.fin 1))])]))
          (memberOf (.obj [("data", .obj [("result", .obj [("hourly", .obj [("a", .arr [])])]),
            ("generated", .num (.fin 1))])]) k)) = true := by
  refine ⟨by decide!, ?_, by decide!⟩
  intro h
  have h2 := (jsonEq_iff _ _).mpr h
  revert h2
  decide!

/-- C17 (amended): each round of the unwrapping loop descends at most one
level: the candidate after the round for the wrapper key `k` is either the
candidate before it, or a copy of the value of the candidate's own top-level
member `k` whose `analysis` member is set to `outer.analysis || inner.analysis`;
the candidate after unwrapping is the result of the four rounds `data`,
`result`, `output`, `response` run in this order. -/
theorem unwrapStep_one_level (parsed : JVal) (k : String) :
    unwrapStep parsed k = parsed ∨
    ∃ inner, memberOf parsed k = .obj inner ∧
      unwrapStep parsed k
        = .obj (objSet inner "analysis"
            (jsOr (memberOf parsed "analysis") (objGet inner "analysis"))) := by
  unfold unwrapStep
  split
  · split
    · rename_i inner hinner
      split
      · exact Or.inr ⟨inner, hinner, rfl⟩
      · exact Or.inl rfl
    · exact Or.inl rfl
  · exact Or.inl rfl

/-- C18 (as stated, refuted): an array of `{time, value}` objects nested eight
levels below the root is returned by `findTimeSeries`. -/
theorem findTimeSeries_finds_below_depth_six :
    findTimeSeries (nestUnder 8
        (.arr [.obj [("time", .str "2025-01-01T00:00:00Z"), ("value", .num (.fin 1))]]))
      = .ok (some [.obj [("time", .str "2025-01-01T00:00:00Z"), ("value", .num (.fin 1))]]) := by
  rfl

/-- C18 (amended): the salvage search has no depth bound: for every nesting
depth `n`, `findTimeSeries` returns an array whose first element is an object
with a `time` or `timestamp` member and a `value` or `val` member when the
array lies `n` levels below the root. -/
theorem findTimeSeries_any_depth (n : Nat) (kvs : List (String × JVal)) (rest : List JVal)
    (h : ((objHas kvs "time" || objHas kvs "timestamp")
      && (objHas kvs "value" || objHas kvs "val")) = true) :
    findTimeSeries (nestUnder n (.arr (.obj kvs :: rest))) = .ok (some (.obj kvs :: rest)) := by
  induction n with
  | zero =>
    simp only [nestUnder, findTimeSeries, typeofObject, hasProp, if_true]
    rw [if_pos h]
  | succ k ih =>
    simp only [nestUnder, findTimeSeries, findInObj, ih]

/-- C18 (witness): depth 8. -/
theorem findTimeSeries_any_depth_witness :
    findTimeSeries (nestUnder 8
        (.arr (.obj [("timestamp", .str "2025-01-01T00:00:00Z"), ("val", .num (.fin 1))] :: [])))
      = .ok (some (.obj [("timestamp", .str "2025-01-01T00:00:00Z"), ("val", .num (.fin 1))] :: [])) :=
  findTimeSeries_any_depth 8
    [("timestamp", .str "2025-01-01T00:00:00Z"), ("val", .num (.fin 1))] [] (by decide)

/-- C19 (code evaluated at the failing input): for the raw array
`[{"time":"2025-01-01T00:00:00Z"}]`, whose entry has no `value`, the point at
index 0 carries the value 0, whereas the synthetic value of a padded point at
index 0 is 2.5 (clock at 10:30 UTC). -/
theorem absent_value_becomes_zero :
    ((normalizeHourlyGroup demoEnv
        (.arr [.obj [("time", .str "2025-01-01T00:00:00Z")]]))[0]?).map (fun p => p.value)
      = some 0
      ∧ (hourlyPad demoEnv 0).value = 5 / 2 := by
  decide!

/-- C20 (as stated, refuted): at hour offset 1 the synthetic hourly value of
the CSV endpoints differs from `max(0, 2.0 + sin + 0.02*i)`. -/
theorem csv_hourly_value_has_extra_term :
    csvHourlyValue demoEnv demoEnv.now 1 0 ≠ specHourlyValue demoEnv demoEnv.now 1 0 := by
  decide!

theorem same_hour_same_residue (start : Int) (h k : Nat)
    (e : getUTCHours (start + (h : Int) * 3600000) = getUTCHours (start + (k : Int) * 3600000)) :
    h % 3 = k % 3 := by
  unfold getUTCHours msPerHour at e
  omega

/-- C20 (amended): for every start time, hour offset `h` and group index `i`
the synthetic hourly value of the CSV endpoints (before formatting) equals
`max(0, 2.0 + 1.0*sin(2*pi*hourOfDay/24) + 0.02*i + 0.05*(h mod 3))`, where
`hourOfDay` is the UTC hour of start + h hours; two offsets with the same
`hourOfDay` give the same value. -/
theorem csv_hourly_value_formula (env : Env) (start : Int) (h i : Nat) :
    csvHourlyValue env start h i
      = max 0 (2 + 1 * env.sin24 (getUTCHours (start + (h : Int) * 3600000)).toNat
          + (2 / 100) * i + ((h % 3 : Nat) : ℚ) * (5 / 100)) ∧
    (h % 3 = 0 → csvHourlyValue env start h i = specHourlyValue env start h i) ∧
    (∀ k : Nat, getUTCHours (start + (h : Int) * 3600000) = getUTCHours (start + (k : Int) * 3600000) →
      csvHourlyValue env start h i = csvHourlyValue env start k i) := by
  refine ⟨rfl, ?_, ?_⟩
  · intro h0
    simp [csvHourlyValue, specHourlyValue, h0]
  · intro k e
    have hr := same_hour_same_residue start h k e
    simp only [csvHourlyValue, e, hr]

/-- C20 (witness): offsets 0 and 24 share the hour of day and the value. -/
theorem csv_hourly_value_formula_witness :
    csvHourlyValue demoEnv demoEnv.now 0 2 = csvHourlyValue demoEnv demoEnv.now 24 2 :=
  (csv_hourly_value_formula demoEnv demoEnv.now 0 2).2.2 24 (by decide)

/-! ## Claim C15: the bare array -/

theorem foldlM_const {α : Type} (v : α) (keys : List String) :
    ∀ acc : List (String × α), ∃ m,
      keys.foldlM (fun m g => do
        let x ← (fun _ => (Except.ok v : Except JsError α)) g
        pure (objSet m g x)) acc = .ok m ∧
      ∀ g, mapGet m g = if g ∈ keys then some v else mapGet acc g := by
  induction keys with
  | nil =>
    intro acc
    exact ⟨acc, rfl, fun g => by simp⟩
  | cons k rest ih =>
    intro acc
    obtain ⟨m, hm, hg⟩ := ih (objSet acc k v)
    refine ⟨m, ?_, ?_⟩
    · simp only [List.foldlM, bind, Except.bind, pure, Except.pure]
      exact hm
    · intro g
      rw [hg g, mapGet_objSet]
      by_cases h1 : g ∈ rest
      · simp [h1]
      · by_cases h2 : g = k
        · simp [h2]
        · simp [h1, h2]

theorem buildGroups_const {α : Type} (v : α) (keys : List String) :
    ∃ m, buildGroups keys (fun _ => (Except.ok v : Except JsError α)) = .ok m ∧
      ∀ g, g ∈ keys → mapGet m g = some v := by
  obtain ⟨m, hm, hg⟩ := foldlM_const v keys []
  refine ⟨m, hm, ?_⟩
  intro g hgk
  rw [hg g, if_pos hgk]

theorem schemaParse_generated (env : Env) (keys : List String) (xs : List JVal) (a : JVal) :
    ∃ m, hourlyOf (schemaParse env (.obj [("generated", .arr xs), ("analysis", a)]) keys) = some m ∧
      ∀ g, g ∈ keys → mapGet m g = some (normalizeHourlyGroup env (.arr xs)) := by
  obtain ⟨m, hm, hg⟩ := buildGroups_const (normalizeHourlyGroup env (.arr xs)) keys
  obtain ⟨m2, hm2, -⟩ := buildGroups_const (normalizeMonthlyGroup env (.arr []) (startNext env)) keys
  refine ⟨m, ?_, hg⟩
  have e3 : hourlyFromGenerated env (.obj [("generated", .arr xs), ("analysis", a)]) keys none
      = .ok (some m) := by
    have : hourlyFromGenerated env (.obj [("generated", .arr xs), ("analysis", a)]) keys none
      = (buildGroups keys (fun _ => .ok (normalizeHourlyGroup env (.arr xs)))).map some := rfl
    rw [this, hm]; rfl
  have e4 : monthlyFallback env keys (some m) none = .ok (some m2) := by
    have : monthlyFallback env keys (some m) none
      = (buildGroups keys (fun _ =>
          .ok (normalizeMonthlyGroup env (.arr []) (startNext env)))).map some := rfl
    rw [this, hm2]; rfl
  have key : schemaParse env (.obj [("generated", .arr xs), ("analysis", a)]) keys
      = (do
          let h2 ← hourlyFromGenerated env (.obj [("generated", .arr xs), ("analysis", a)]) keys none
          let m2 ← monthlyFallback env keys h2 none
          let h3 ← hourlySalvage env (.obj [("generated", .arr xs), ("analysis", a)]) keys h2
          pure { hourly_forecast_groups := h3, monthly_forecast_groups := m2,
                 analysis := orChain [a] .null,
                 parsed_original := .obj [("generated", .arr xs), ("analysis", a)] }) := by
    rfl
  rw [key, e3]
  simp only [bind, Except.bind, e4, hourlySalvage, pure, Except.pure, hourlyOf]

/-- C15: when the extraction reads the response text as a bare array `xs`,
every group key of the supplied list receives the same hourly series, namely
`normalizeHourlyGroup` of that array: the array cut to 48 entries or padded to
48 entries. -/
theorem bare_array_shared_by_all_groups (env : Env) (text : String) (keys : List String)
    (xs : List JVal)
    (h : jsonEq (extractParsed text)
      (.obj [("generated", .arr xs), ("analysis", defaultAnalysis)]) = true) :
    ∃ m, hourlyOf (hyperTrain env text keys) = some m ∧
      (∀ g, g ∈ keys → mapGet m g = some (normalizeHourlyGroup env (.arr xs))) ∧
      (normalizeHourlyGroup env (.arr xs)).length = 48 ∧
      (∀ i item, i < 48 → xs[i]? = some item →
        (normalizeHourlyGroup env (.arr xs))[i]? = some (hourlyTaken env i item)) ∧
      (∀ i, i < 48 → xs.length ≤ i →
        (normalizeHourlyGroup env (.arr xs))[i]? = some (hourlyPad env i)) := by
  have hp := jsonEq_sound _ _ h
  obtain ⟨m, hm, hg⟩ := schemaParse_generated env keys xs defaultAnalysis
  refine ⟨m, ?_, hg, normalizeHourlyGroup_arr_length env xs, ?_, ?_⟩
  · unfold hyperTrain
    rw [hp]
    exact hm
  · exact fun i item hi hx => hourly_taken_at env xs i item hi hx
  · exact fun i hi hx => hourly_pad_at env xs i hi hx

/-- C15 (witness): the bare array of the spec, for the group keys `a`, `b`. -/
theorem bare_array_shared_by_all_groups_witness :
    ∃ m, hourlyOf (hyperTrain demoEnv
        "[\x7b\"time\":\"2025-01-01T00:00:00Z\",\"value\":1\x7d,\x7b\"time\":\"2025-01-01T01:00:00Z\",\"value\":2\x7d]"
        ["a", "b"]) = some m ∧
      (∀ g, g ∈ ["a", "b"] → mapGet m g = some (normalizeHourlyGroup demoEnv (.arr
        [.obj [("time", .str "2025-01-01T00:00:00Z"), ("value", .num (.fin 1))],
         .obj [("time", .str "2025-01-01T01:00:00Z"), ("value", .num (.fin 2))]]))) ∧
      (normalizeHourlyGroup demoEnv (.arr
        [.obj [("time", .str "2025-01-01T00:00:00Z"), ("value", .num (.fin 1))],
         .obj [("time", .str "2025-01-01T01:00:00Z"), ("value", .num (.fin 2))]])).length = 48 ∧
      (∀ i item, i < 48 →
        [JVal.obj [("time", .str "2025-01-01T00:00:00Z"), ("value", .num (.fin 1))],
         JVal.obj [("time", .str "2025-01-01T01:00:00Z"), ("value", .num (.fin 2))]][i]? = some item →
        (normalizeHourlyGroup demoEnv (.arr
          [.obj [("time", .str "2025-01-01T00:00:00Z"), ("value", .num (.fin 1))],
           .obj [("time", .str "2025-01-01T01:00:00Z"), ("value", .num (.fin 2))]]))[i]?
          = some (hourlyTaken demoEnv i item)) ∧
      (∀ i, i < 48 →
        [JVal.obj [("time", .str "2025-01-01T00:00:00Z"), ("value", .num (.fin 1))],
         JVal.obj [("time", .str "2025-01-01T01:00:00Z"), ("value", .num (.fin 2))]].length ≤ i →
        (normalizeHourlyGroup demoEnv (.arr
          [.obj [("time", .str "2025-01-01T00:00:00Z"), ("value", .num (.fin 1))],
           .obj [("time", .str "2025-01-01T01:00:00Z"), ("value", .num (.fin 2))]]))[i]?
          = some (hourlyPad demoEnv i)) :=
  bare_array_shared_by_all_groups demoEnv
    "[\x7b\"time\":\"2025-01-01T00:00:00Z\",\"value\":1\x7d,\x7b\"time\":\"2025-01-01T01:00:00Z\",\"value\":2\x7d]"
    ["a", "b"]
    [.obj [("time", .str "2025-01-01T00:00:00Z"), ("value", .num (.fin 1))],
     .obj [("time", .str "2025-01-01T01:00:00Z"), ("value", .num (.fin 2))]]
    (by decide!)

/-! ## Claim C14: the names of the hourly container -/

theorem hourlyFromGenerated_congr (env : Env) (p q : JVal) (keys : List String)
    (h : Option (List (String × List HPoint)))
    (e : memberOf p "generated" = memberOf q "generated") :
    hourlyFromGenerated env p keys h = hourlyFromGenerated env q keys h := by
  unfold hourlyFromGenerated
  rw [e]

theorem hourlySalvage_congr (env : Env) (p q : JVal) (keys : List String)
    (h : Option (List (String × List HPoint)))
    (e : findTimeSeries p = findTimeSeries q) :
    hourlySalvage env p keys h = hourlySalvage env q keys h := by
  unfold hourlySalvage
  rw [e]

theorem schemaParse_congr (env : Env) (p q : JVal) (keys : List String)
    (ht : truthy p = truthy q)
    (e1 : hourlyRawOf (unwrapKeys.foldl unwrapStep p) = hourlyRawOf (unwrapKeys.foldl unwrapStep q))
    (e2 : monthlyRawOf (unwrapKeys.foldl unwrapStep p)
      = monthlyRawOf (unwrapKeys.foldl unwrapStep q))
    (e3 : memberOf (unwrapKeys.foldl unwrapStep p) "generated"
      = memberOf (unwrapKeys.foldl unwrapStep q) "generated")
    (e4 : findTimeSeries (unwrapKeys.foldl unwrapStep p)
      = findTimeSeries (unwrapKeys.foldl unwrapStep q)) :
    hourlyOf (schemaParse env p keys) = hourlyOf (schemaParse env q keys) ∧
    monthlyOf (schemaParse env p keys) = monthlyOf (schemaParse env q keys) ∧
    threw (schemaParse env p keys) = threw (schemaParse env q keys) := by
  have eg := fun h => hourlyFromGenerated_congr env _ _ keys h e3
  have es := fun h => hourlySalvage_congr env _ _ keys h e4
  unfold schemaParse
  rw [ht]
  split
  · simp only [bind, Except.bind, e1, e2, eg, es]
    cases hourlyFromSource env _ keys with
    | error e => simp [hourlyOf, monthlyOf, threw]
    | ok h1 =>
      simp only []
      cases monthlyFromSource env _ keys with
      | error e => simp [hourlyOf, monthlyOf, threw]
      | ok m1 =>
        simp only []
        cases hourlyFromGenerated env _ keys h1 with
        | error e => simp [hourlyOf, monthlyOf, threw]
        | ok h2 =>
          simp only []
          cases monthlyFallback env keys h2 m1 with
          | error e => simp [hourlyOf, monthlyOf, threw]
          | ok m2 =>
            simp only []
            cases hourlySalvage env _ keys h2 with
            | error e => simp [hourlyOf, monthlyOf, threw]
            | ok h3 => simp [hourlyOf, monthlyOf, threw, pure, Except.pure]
  · simp [hourlyOf, monthlyOf, threw]

theorem objGet_append_ne (pre post : List (String × JVal)) (K k : String) (V : JVal)
    (h : K ≠ k) : objGet (pre ++ (K, V) :: post) k = objGet (pre ++ post) k := by
  induction pre with
  | nil => simp [objGet, h]
  | cons p rest ih =>
    obtain ⟨k1, v1⟩ := p
    simp only [List.cons_append, objGet, List.append_eq, ih]

theorem objGet_absent (l : List (String × JVal)) (k : String) (h : objHas l k = false) :
    objGet l k = .undefined := by
  induction l with
  | nil => rfl
  | cons p rest ih =>
    obtain ⟨k1, v1⟩ := p
    by_cases e : k1 = k
    · simp [objHas, e] at h
    · simp only [objHas, e, if_false] at h
      simp only [objGet, e, if_false, ih h]

theorem objHas_append {α : Type} (pre post : List (String × α)) (k : String) :
    objHas (pre ++ post) k = (objHas pre k || objHas post k) := by
  induction pre with
  | nil => simp [objHas]
  | cons p rest ih =>
    obtain ⟨k1, v1⟩ := p
    by_cases e : k1 = k <;> simp [objHas, e, ih]

theorem objGet_append_eq (pre post : List (String × JVal)) (K : String) (V : JVal)
    (h : objHas pre K = false) : objGet (pre ++ (K, V) :: post) K = V := by
  induction pre with
  | nil => simp [objGet]
  | cons p rest ih =>
    obtain ⟨k1, v1⟩ := p
    by_cases e : k1 = K
    · simp [objHas, e] at h
    · simp only [objHas, e, if_false] at h
      simp only [List.cons_append, objGet, List.append_eq, e, if_false, ih h]

theorem findInObj_values : ∀ kvs : List (String × JVal),
    findInObj kvs = findInList (kvs.map Prod.snd)
  | [] => by simp [findInObj, findInList]
  | (k, v) :: rest => by
    simp only [findInObj, List.map_cons, findInList, findInObj_values rest]

theorem unwrapStep_alias (pre post : List (String × JVal)) (V : JVal) (K1 K2 k : String)
    (h1 : K1 ≠ k) (h2 : K2 ≠ k) (a1 : K1 ≠ "analysis") (a2 : K2 ≠ "analysis") :
    (unwrapStep (.obj (pre ++ (K1, V) :: post)) k = .obj (pre ++ (K1, V) :: post) ∧
      unwrapStep (.obj (pre ++ (K2, V) :: post)) k = .obj (pre ++ (K2, V) :: post)) ∨
    unwrapStep (.obj (pre ++ (K1, V) :: post)) k = unwrapStep (.obj (pre ++ (K2, V) :: post)) k := by
  simp only [unwrapStep, truthy, typeofObject, Bool.and_self, if_true, memberOf,
    objGet_append_ne pre post K1 k V h1, objGet_append_ne pre post K2 k V h2,
    objGet_append_ne pre post K1 "analysis" V a1, objGet_append_ne pre post K2 "analysis" V a2]
  cases objGet (pre ++ post) k with
  | obj inner =>
    simp only []
    split
    · exact Or.inr rfl
    · exact Or.inl ⟨rfl, rfl⟩
  | _ => exact Or.inl ⟨rfl, rfl⟩

theorem unwrapFold_alias (pre post : List (String × JVal)) (V : JVal) (K1 K2 : String)
    (a1 : K1 ≠ "analysis") (a2 : K2 ≠ "analysis") :
    ∀ l : List String, (∀ k, k ∈ l → K1 ≠ k ∧ K2 ≠ k) →
      (l.foldl unwrapStep (.obj (pre ++ (K1, V) :: post)) = .obj (pre ++ (K1, V) :: post) ∧
        l.foldl unwrapStep (.obj (pre ++ (K2, V) :: post)) = .obj (pre ++ (K2, V) :: post)) ∨
      l.foldl unwrapStep (.obj (pre ++ (K1, V) :: post))
        = l.foldl unwrapStep (.obj (pre ++ (K2, V) :: post))
  | [], _ => Or.inl ⟨rfl, rfl⟩
  | k :: rest, h => by
    have hk := h k (List.mem_cons_self _ _)
    have hrest : ∀ x, x ∈ rest → K1 ≠ x ∧ K2 ≠ x := fun x hx => h x (List.mem_cons_of_mem _ hx)
    simp only [List.foldl_cons]
    rcases unwrapStep_alias pre post V K1 K2 k hk.1 hk.2 a1 a2 with ⟨e1, e2⟩ | e
    · rw [e1, e2]
      exact unwrapFold_alias pre post V K1 K2 a1 a2 rest hrest
    · rw [e]
      exact Or.inr rfl

theorem alias_not_other (K : String)
    (hK : K ∈ ["hourly_forecast_groups", "hourlyForecastGroups", "hourlyGroups"]) :
    K ≠ "analysis" ∧ K ≠ "generated" ∧ (∀ k, k ∈ unwrapKeys → K ≠ k) ∧
    K ≠ "monthly_forecast_groups" ∧ K ≠ "monthlyForecastGroups" ∧ K ≠ "monthly_forecast" ∧
    K ≠ "monthlyGroups" ∧ K ≠ "monthly" ∧ K ≠ "forecast_monthly" ∧ K ≠ "monthlyForecast" := by
  simp only [List.mem_cons, List.mem_singleton, List.not_mem_nil, or_false] at hK
  rcases hK with rfl | rfl | rfl <;> decide

theorem hourlyRawOf_alias (pre post : List (String × JVal)) (V : JVal) (K : String)
    (hK : K ∈ ["hourly_forecast_groups", "hourlyForecastGroups", "hourlyGroups"])
    (H : ∀ n, n ∈ hourlyAliases → objHas (pre ++ post) n = false) :
    hourlyRawOf (.obj (pre ++ (K, V) :: post)) = if truthy V then V else .undefined := by
  have hpre : ∀ n, n ∈ hourlyAliases → objHas pre n = false := by
    intro n hn
    have := H n hn
    rw [objHas_append] at this
    simp only [Bool.or_eq_false_iff] at this
    exact this.1
  have hu : ∀ n, n ∈ hourlyAliases → K ≠ n →
      objGet (pre ++ (K, V) :: post) n = .undefined := by
    intro n hn hne
    rw [objGet_append_ne pre post K n V hne]
    exact objGet_absent _ _ (H n hn)
  have hund : truthy JVal.undefined = false := rfl
  simp only [List.mem_cons, List.mem_singleton, List.not_mem_nil, or_false] at hK
  rcases hK with rfl | rfl | rfl
  · have hget := objGet_append_eq pre post "hourly_forecast_groups" V (hpre "hourly_forecast_groups" (by decide))
    have h0 := hu "hourlyForecastGroups" (by decide) (by decide)
    have h1 := hu "hourly_forecast" (by decide) (by decide)
    have h2 := hu "hourlyGroups" (by decide) (by decide)
    have h3 := hu "hourly" (by decide) (by decide)
    have h4 := hu "forecast_hourly" (by decide) (by decide)
    have h5 := hu "hourlyForecast" (by decide) (by decide)
    by_cases ht : truthy V = true
    · simp only [hourlyRawOf, memberOf, hget, h0, h1, h2, h3, h4, h5, orChain, ht, hund, if_true,
        Bool.false_eq_true, if_false]
    · simp only [hourlyRawOf, memberOf, hget, h0, h1, h2, h3, h4, h5, orChain, ht, hund, if_false,
        Bool.false_eq_true]
  · have hget := objGet_append_eq pre post "hourlyForecastGroups" V (hpre "hourlyForecastGroups" (by decide))
    have h0 := hu "hourly_forecast_groups" (by decide) (by decide)
    have h1 := hu "hourly_forecast" (by decide) (by decide)
    have h2 := hu "hourlyGroups" (by decide) (by decide)
    have h3 := hu "hourly" (by decide) (by decide)
    have h4 := hu "forecast_hourly" (by decide) (by decide)
    have h5 := hu "hourlyForecast" (by decide) (by decide)
    by_cases ht : truthy V = true
    · simp only [hourlyRawOf, memberOf, hget, h0, h1, h2, h3, h4, h5, orChain, ht, hund, if_true,
        Bool.false_eq_true, if_false]
    · simp only [hourlyRawOf, memberOf, hget, h0, h1, h2, h3, h4, h5, orChain, ht, hund, if_false,
        Bool.false_eq_true]
  · have hget := objGet_append_eq pre post "hourlyGroups" V (hpre "hourlyGroups" (by decide))
    have h0 := hu "hourly_forecast_groups" (by decide) (by decide)
    have h1 := hu "hourlyForecastGroups" (by decide) (by decide)
    have h2 := hu "hourly_forecast" (by decide) (by decide)
    have h3 := hu "hourly" (by decide) (by decide)
    have h4 := hu "forecast_hourly" (by decide) (by decide)
    have h5 := hu "hourlyForecast" (by decide) (by decide)
    by_cases ht : truthy V = true
    · simp only [hourlyRawOf, memberOf, hget, h0, h1, h2, h3, h4, h5, orChain, ht, hund, if_true,
        Bool.false_eq_true, if_false]
    · simp only [hourlyRawOf, memberOf, hget, h0, h1, h2, h3, h4, h5, orChain, ht, hund, if_false,
        Bool.false_eq_true]

theorem alias_reads_equal (pre post : List (String × JVal)) (V : JVal) (K1 K2 : String)
    (hK1 : K1 ∈ ["hourly_forecast_groups", "hourlyForecastGroups", "hourlyGroups"])
    (hK2 : K2 ∈ ["hourly_forecast_groups", "hourlyForecastGroups", "hourlyGroups"]) :
    monthlyRawOf (.obj (pre ++ (K1, V) :: post)) = monthlyRawOf (.obj (pre ++ (K2, V) :: post)) ∧
    memberOf (.obj (pre ++ (K1, V) :: post)) "generated"
      = memberOf (.obj (pre ++ (K2, V) :: post)) "generated" ∧
    findTimeSeries (.obj (pre ++ (K1, V) :: post))
      = findTimeSeries (.obj (pre ++ (K2, V) :: post)) := by
  obtain ⟨-, g1, -, m1⟩ := alias_not_other K1 hK1
  obtain ⟨-, g2, -, m2⟩ := alias_not_other K2 hK2
  refine ⟨?_, ?_, ?_⟩
  · simp only [monthlyRawOf, memberOf,
      objGet_append_ne pre post K1 _ V m1.1, objGet_append_ne pre post K1 _ V m1.2.1,
      objGet_append_ne pre post K1 _ V m1.2.2.1, objGet_append_ne pre post K1 _ V m1.2.2.2.1,
      objGet_append_ne pre post K1 _ V m1.2.2.2.2.1,
      objGet_append_ne pre post K1 _ V m1.2.2.2.2.2.1,
      objGet_append_ne pre post K1 _ V m1.2.2.2.2.2.2,
      objGet_append_ne pre post K2 _ V m2.1, objGet_append_ne pre post K2 _ V m2.2.1,
      objGet_append_ne pre post K2 _ V m2.2.2.1, objGet_append_ne pre post K2 _ V m2.2.2.2.1,
      objGet_append_ne pre post K2 _ V m2.2.2.2.2.1,
      objGet_append_ne pre post K2 _ V m2.2.2.2.2.2.1,
      objGet_append_ne pre post K2 _ V m2.2.2.2.2.2.2]
  · simp only [memberOf, objGet_append_ne pre post K1 _ V g1, objGet_append_ne pre post K2 _ V g2]
  · simp only [findTimeSeries, findInObj_values, List.map_append, List.map_cons]

/-- C14: for every content `V`, every list of group keys and every other
members `pre`, `post` of the response (none of them under a name of the hourly
container), the parsed responses that hold `V` under `hourly_forecast_groups`,
under `hourlyForecastGroups` or under `hourlyGroups` resolve to the same
hourly source and give the same hourly map, the same monthly map and the same
outcome (completion or exception). -/
theorem hourly_alias_names_equivalent (env : Env) (pre post : List (String × JVal)) (V : JVal)
    (keys : List String) (K1 K2 : String)
    (hK1 : K1 ∈ ["hourly_forecast_groups", "hourlyForecastGroups", "hourlyGroups"])
    (hK2 : K2 ∈ ["hourly_forecast_groups", "hourlyForecastGroups", "hourlyGroups"])
    (H : ∀ n, n ∈ hourlyAliases → objHas (pre ++ post) n = false) :
    arrayToMap env (hourlyRawOf (unwrapKeys.foldl unwrapStep (.obj (pre ++ (K1, V) :: post))))
      = arrayToMap env (hourlyRawOf (unwrapKeys.foldl unwrapStep (.obj (pre ++ (K2, V) :: post)))) ∧
    hourlyOf (schemaParse env (.obj (pre ++ (K1, V) :: post)) keys)
      = hourlyOf (schemaParse env (.obj (pre ++ (K2, V) :: post)) keys) ∧
    monthlyOf (schemaParse env (.obj (pre ++ (K1, V) :: post)) keys)
      = monthlyOf (schemaParse env (.obj (pre ++ (K2, V) :: post)) keys) ∧
    threw (schemaParse env (.obj (pre ++ (K1, V) :: post)) keys)
      = threw (schemaParse env (.obj (pre ++ (K2, V) :: post)) keys) := by
  obtain ⟨a1, -, u1, -⟩ := alias_not_other K1 hK1
  obtain ⟨a2, -, u2, -⟩ := alias_not_other K2 hK2
  have hraw : hourlyRawOf (unwrapKeys.foldl unwrapStep (.obj (pre ++ (K1, V) :: post)))
      = hourlyRawOf (unwrapKeys.foldl unwrapStep (.obj (pre ++ (K2, V) :: post))) := by
    rcases unwrapFold_alias pre post V K1 K2 a1 a2 unwrapKeys (fun k hk => ⟨u1 k hk, u2 k hk⟩)
      with ⟨e1, e2⟩ | e
    · rw [e1, e2, hourlyRawOf_alias pre post V K1 hK1 H, hourlyRawOf_alias pre post V K2 hK2 H]
    · rw [e]
  refine ⟨by rw [hraw], ?_⟩
  refine schemaParse_congr env (.obj (pre ++ (K1, V) :: post)) (.obj (pre ++ (K2, V) :: post))
    keys rfl hraw ?_ ?_ ?_
  · rcases unwrapFold_alias pre post V K1 K2 a1 a2 unwrapKeys (fun k hk => ⟨u1 k hk, u2 k hk⟩)
      with ⟨e1, e2⟩ | e
    · rw [e1, e2]; exact (alias_reads_equal pre post V K1 K2 hK1 hK2).1
    · rw [e]
  · rcases unwrapFold_alias pre post V K1 K2 a1 a2 unwrapKeys (fun k hk => ⟨u1 k hk, u2 k hk⟩)
      with ⟨e1, e2⟩ | e
    · rw [e1, e2]; exact (alias_reads_equal pre post V K1 K2 hK1 hK2).2.1
    · rw [e]
  · rcases unwrapFold_alias pre post V K1 K2 a1 a2 unwrapKeys (fun k hk => ⟨u1 k hk, u2 k hk⟩)
      with ⟨e1, e2⟩ | e
    · rw [e1, e2]; exact (alias_reads_equal pre post V K1 K2 hK1 hK2).2.2
    · rw [e]

/-- C14 (witness): the content `\x7ba: [\x7btime, value: 3\x7d]\x7d` next to a
monthly container, once under `hourly_forecast_groups` and once under
`hourlyGroups`, for the group keys `a`, `b`. -/
theorem hourly_alias_names_equivalent_witness :
    (∀ n, n ∈ hourlyAliases → objHas (([] : List (String × JVal)) ++
      [("monthly_forecast_groups", JVal.obj [("a", .arr [])])]) n = false) ∧
    hourlyOf (schemaParse demoEnv (.obj ([] ++ ("hourly_forecast_groups",
        JVal.obj [("a", .arr [.obj [("time", .str "2025-01-01T00:00:00Z"), ("value", .num (.fin 3))]])])
        :: [("monthly_forecast_groups", JVal.obj [("a", .arr [])])])) ["a", "b"])
      = hourlyOf (schemaParse demoEnv (.obj ([] ++ ("hourlyGroups",
        JVal.obj [("a", .arr [.obj [("time", .str "2025-01-01T00:00:00Z"), ("value", .num (.fin 3))]])])
        :: [("monthly_forecast_groups", JVal.obj [("a", .arr [])])])) ["a", "b"]) ∧
    monthlyOf (schemaParse demoEnv (.obj ([] ++ ("hourly_forecast_groups",
        JVal.obj [("a", .arr [.obj [("time", .str "2025-01-01T00:00:00Z"), ("value", .num (.fin 3))]])])
        :: [("monthly_forecast_groups", JVal.obj [("a", .arr [])])])) ["a", "b"])
      = monthlyOf (schemaParse demoEnv (.obj ([] ++ ("hourlyGroups",
        JVal.obj [("a", .arr [.obj [("time", .str "2025-01-01T00:00:00Z"), ("value", .num (.fin 3))]])])
        :: [("monthly_forecast_groups", JVal.obj [("a", .arr [])])])) ["a", "b"]) :=
  ⟨by decide,
   (hourly_alias_names_equivalent demoEnv [] [("monthly_forecast_groups", JVal.obj [("a", .arr [])])]
      (JVal.obj [("a", .arr [.obj [("time", .str "2025-01-01T00:00:00Z"), ("value", .num (.fin 3))]])])
      ["a", "b"] "hourly_forecast_groups" "hourlyGroups" (by decide) (by decide) (by decide)).2.1,
   (hourly_alias_names_equivalent demoEnv [] [("monthly_forecast_groups", JVal.obj [("a", .arr [])])]
      (JVal.obj [("a", .arr [.obj [("time", .str "2025-01-01T00:00:00Z"), ("value", .num (.fin 3))]])])
      ["a", "b"] "hourly_forecast_groups" "hourlyGroups" (by decide) (by decide) (by decide)).2.2.1⟩

theorem hoursInMonthUtc_general (y m : Int) (hm0 : 0 ≤ m) (hm1 : m ≤ 11) :
    hoursInMonthUtc y m
      = 24 * daysInMonth (if 0 ≤ y ∧ y ≤ 99 then 1900 + y else y) (m + 1) := by
  generalize hY : (if 0 ≤ y ∧ y ≤ 99 then 1900 + y else y) = Y
  have e : dateUTC y (m + 1) 0 = daysFromCivil Y (m + 1) (daysInMonth Y (m + 1)) * msPerDay := by
    simp only [dateUTC, makeDay, hY]
    rw [← next_month_first Y m hm0 hm1]
    ring
  unfold hoursInMonthUtc getUTCDate
  rw [e, (mul_msPerDay_fields _).1,
    civil_roundtrip _ _ _ (by omega) (by omega) (daysInMonth_pos _ _) (le_refl _)]
  ring

theorem daysInMonth_century (y m : Int) (h1 : 1 ≤ y) (h2 : y ≤ 99) :
    daysInMonth (1900 + y) m = daysInMonth y m := by
  have ha := isLeapYear_iff y
  have hb := isLeapYear_iff (1900 + y)
  have : isLeapYear (1900 + y) = isLeapYear y := by
    rw [Bool.eq_iff_iff, ha, hb]
    omega
  unfold daysInMonth
  rw [this]

/-- C21: February of the year 0, a leap year of the Gregorian calendar, has 29
days and 696 hours, and `hoursInMonthUtc(0, 1)` is 672: `Date.UTC` reads the
year 0 as 1900, which is not a leap year. The monthly rows of the CSV
endpoints reach it: for the start time -000001-06-15T00:00:00Z the row of
index 8 is dated 0000-02-01T00:00:00.000Z and is scaled by 672 hours. -/
theorem hoursInMonthUtc_year_zero_february :
    hoursInMonthUtc 0 1 = 672 ∧ isLeapYear 0 = true ∧ 24 * daysInMonth 0 (1 + 1) = 696 ∧
    toISOString (-62184499200000) = "-000001-06-15T00:00:00.000Z" ∧
    toISOString (csvMonthDate (-62184499200000) 8) = "0000-02-01T00:00:00.000Z" ∧
    hoursInMonthUtc (getUTCFullYear (csvMonthDate (-62184499200000) 8))
      (getUTCMonth (csvMonthDate (-62184499200000) 8)) = 672 := by
  decide

/-- Away from the year 0 the count is exact: for every other year that a
JavaScript date can hold and every month index 0..11, `hoursInMonthUtc`
returns 24 times the number of days of that UTC calendar month, one of 672,
696, 720, 744 (the years 1..99, read as 1901..1999, have the same month
lengths). -/
theorem hoursInMonthUtc_exact (y m : Int) (hy : y ≠ 0) (hlo : -271820 ≤ y) (hhi : y ≤ 275759)
    (hm0 : 0 ≤ m) (hm1 : m ≤ 11) :
    hoursInMonthUtc y m = 24 * daysInMonth y (m + 1) ∧
    (hoursInMonthUtc y m = 672 ∨ hoursInMonthUtc y m = 696 ∨ hoursInMonthUtc y m = 720
      ∨ hoursInMonthUtc y m = 744) := by
  have e : hoursInMonthUtc y m = 24 * daysInMonth y (m + 1) := by
    rw [hoursInMonthUtc_general y m hm0 hm1]
    split_ifs with h
    · rw [daysInMonth_century y (m + 1) (by omega) h.2]
    · rfl
  refine ⟨e, ?_⟩
  rw [e]
  unfold daysInMonth
  split_ifs <;> omega

/-- C22 (counterexample): for the start time 2025-06-15T10:30:00Z the first
monthly row of the CSV endpoints is dated 2025-06-01T00:00:00Z, day 1 of the
month that contains the start time. -/
theorem csv_first_month_contains_start :
    civilFromDays (1749983400000 / msPerDay) = ⟨2025, 6, 15⟩ ∧
    csvMonthDate 1749983400000 0 = 1748736000000 ∧
    civilFromDays (csvMonthDate 1749983400000 0 / msPerDay) = ⟨2025, 6, 1⟩ ∧
    toISOString (csvMonthDate 1749983400000 0) = "2025-06-01T00:00:00.000Z" := by
  decide

/-- C22 (amended): the first month of the 12-month series of `/api/hyper-train`
is day 1, 00:00 UTC, of the calendar month following the month that contains
the clock time; the first monthly row of the CSV endpoints is day 1, 00:00 UTC,
of the calendar month that contains the start time. -/
theorem first_month_of_monthly_series (env : Env) (start : Nat) :
    (civilFromDays (startNext env / msPerDay)
        = ⟨getUTCFullYear env.now + (getUTCMonth env.now + 1) / 12,
            (getUTCMonth env.now + 1) % 12 + 1, 1⟩ ∧
      startNext env % msPerDay = 0) ∧
    (civilFromDays (csvMonthDate start 0 / msPerDay)
        = ⟨getUTCFullYear start, getUTCMonth start + 1, 1⟩ ∧
      csvMonthDate start 0 % msPerDay = 0) := by
  have hn := start_year_ge env.now
  have hs := start_year_ge start
  have hm := getUTCMonth_range (start : Int)
  obtain ⟨e1, e2⟩ := firstOfMonth_fields start
  have hmod : ∀ d : Int, d * msPerDay % msPerDay = 0 := fun d => Int.mul_emod_left d msPerDay
  refine ⟨⟨?_, ?_⟩, ?_, ?_⟩
  · unfold startNext
    exact civil_dateUTC_first _ _ hn
  · unfold startNext
    rw [dateUTC_first _ _ hn]
    exact hmod _
  · unfold csvMonthDate
    rw [e1, e2, civil_dateUTC_first _ _ hs]
    have a : (getUTCMonth (start : Int) + ((0 : Nat) : Int)) / 12 = 0 := by omega
    have b : (getUTCMonth (start : Int) + ((0 : Nat) : Int)) % 12 = getUTCMonth (start : Int) := by
      omega
    rw [a, b]
    simp
  · unfold csvMonthDate
    rw [e1, e2, dateUTC_first _ _ hs]
    exact hmod _

theorem getUTCHours_setUTCMinutesZero (t : Int) :
    getUTCHours (setUTCMinutesZero t) = getUTCHours t := by
  unfold getUTCHours setUTCMinutesZero msPerHour
  omega

theorem hourlyPad_value (env : Env) (i : Nat)
    (hsin : ∀ k, -1 ≤ env.sin24 k ∧ env.sin24 k ≤ 1) :
    (hourlyPad env i).value
      = ((mathRound ((2 + env.sin24 (getUTCHours ((env.now : Int) + (i : Int) * 3600000)).toNat)
          * 1000) : ℤ) : ℚ) / 1000 := by
  have hv : (hourlyPad env i).value
      = ((mathRound (min 50 (max 0 (2 + env.sin24 (getUTCHours
          (setUTCMinutesZero ((env.now : Int) + (i : Int) * 3600000))).toNat)) * 1000) : ℤ) : ℚ)
          / 1000 := rfl
  rw [hv, getUTCHours_setUTCMinutesZero]
  have hs := hsin (getUTCHours ((env.now : Int) + (i : Int) * 3600000)).toNat
  rw [max_eq_right (by linarith [hs.1]), min_eq_right (by linarith [hs.2])]

theorem csvHourlyValue_value (env : Env) (start : Int) (h g : Nat)
    (hsin : ∀ k, -1 ≤ env.sin24 k ∧ env.sin24 k ≤ 1) :
    csvHourlyValue env start h g
      = 2 + env.sin24 (getUTCHours (start + (h : Int) * 3600000)).toNat
          + (2 / 100) * g + ((h % 3 : Nat) : ℚ) * (5 / 100) := by
  have hv : csvHourlyValue env start h g
      = max 0 (2 + 1 * env.sin24 (getUTCHours (start + (h : Int) * 3600000)).toNat
          + (2 / 100) * g + ((h % 3 : Nat) : ℚ) * (5 / 100)) := rfl
  have hs := hsin (getUTCHours (start + (h : Int) * 3600000)).toNat
  have hg : (0 : ℚ) ≤ g := Nat.cast_nonneg g
  have hh : (0 : ℚ) ≤ ((h % 3 : Nat) : ℚ) := Nat.cast_nonneg _
  rw [hv, one_mul, max_eq_right (by linarith [hs.1])]

theorem monthlyEntry_absent_value (env : Env) (start m : Nat)
    (hcos : ∀ k, -1 ≤ env.cos12 k ∧ env.cos12 k ≤ 1) :
    (monthlyEntry env (.arr []) start m).value
      = ((24 * daysInMonth (getUTCFullYear start + (getUTCMonth start + m) / 12)
            ((getUTCMonth start + m) % 12 + 1) : Int) : ℚ)
          * ((22 / 10) * (1 + (1 / 10) * env.cos12 ((getUTCMonth start + m) % 12).toNat)) := by
  have hy := start_year_ge start
  have hv : (monthlyEntry env (.arr []) start m).value
      = min (24 * ((hoursInMonthTs (dateUTC (getUTCFullYear start) (getUTCMonth start + m) 1)
            : Int) : ℚ))
          (max 0 (((hoursInMonthTs (dateUTC (getUTCFullYear start) (getUTCMonth start + m) 1)
            : Int) : ℚ) * ((22 / 10) * (1 + (1 / 10) * env.cos12
              (getUTCMonth (dateUTC (getUTCFullYear start) (getUTCMonth start + m) 1)).toNat)))) :=
    rfl
  rw [hv, hoursInMonthTs_target, getUTCMonth_dateUTC _ _ hy]
  have hpos := daysInMonth_pos (getUTCFullYear start + (getUTCMonth start + m) / 12)
          ((getUTCMonth start + m) % 12 + 1)
  have hD : (0 : ℚ) ≤ ((24 * daysInMonth (getUTCFullYear start + (getUTCMonth start + m) / 12)
          ((getUTCMonth start + m) % 12 + 1) : Int) : ℚ) := by
    exact_mod_cast (by omega : (0 : Int) ≤ 24 * daysInMonth
      (getUTCFullYear start + (getUTCMonth start + m) / 12) ((getUTCMonth start + m) % 12 + 1))
  have hc := hcos ((getUTCMonth start + m) % 12).toNat
  generalize ((24 * daysInMonth (getUTCFullYear start + (getUTCMonth start + m) / 12)
          ((getUTCMonth start + m) % 12 + 1) : Int) : ℚ) = H at hD ⊢
  generalize env.cos12 ((getUTCMonth start + m) % 12).toNat = c at hc ⊢
  have h1 : 0 ≤ H * ((22 / 10) * (1 + (1 / 10) * c)) :=
    mul_nonneg hD (by linarith [hc.1])
  have h2 : H * ((22 / 10) * (1 + (1 / 10) * c)) ≤ 24 * H := by
    nlinarith [hc.2, hc.1]
  rw [max_eq_right h1, min_eq_right h2]

theorem csvMonthlyValue_value (env : Env) (start m g : Nat)
    (hcos : ∀ k, -1 ≤ env.cos12 k ∧ env.cos12 k ≤ 1) :
    csvMonthlyValue env start m g
      = ((24 * daysInMonth (getUTCFullYear start + (getUTCMonth start + m) / 12)
            ((getUTCMonth start + m) % 12 + 1) : Int) : ℚ)
          * (2 + (3 / 10) * env.cos12 ((getUTCMonth start + m) % 12).toNat + (2 / 100) * g) := by
  have hy := start_year_ge start
  have hm := getUTCMonth_range (start : Int)
  obtain ⟨e1, e2⟩ := csvMonthDate_fields start m
  have hH : hoursInMonthUtc (getUTCFullYear (csvMonthDate start m)) (getUTCMonth (csvMonthDate start m))
      = 24 * daysInMonth (getUTCFullYear start + (getUTCMonth start + m) / 12)
          ((getUTCMonth start + m) % 12 + 1) := by
    rw [e1, e2]
    exact hoursInMonthUtc_eq _ _ (by omega) (by omega) (by omega)
  have hv : csvMonthlyValue env start m g
      = max 0 (2 + (3 / 10) * env.cos12 (getUTCMonth (csvMonthDate start m)).toNat + (2 / 100) * g)
        * (hoursInMonthUtc (getUTCFullYear (csvMonthDate start m))
            (getUTCMonth (csvMonthDate start m)) : ℚ) := rfl
  rw [hv, hH, e2]
  have hc := hcos ((getUTCMonth start + m) % 12).toNat
  have hg : (0 : ℚ) ≤ g := Nat.cast_nonneg g
  rw [max_eq_right (by linarith [hc.1]), mul_comm]

theorem demoEnv_sin24_bounds (k : Nat) : -1 ≤ demoEnv.sin24 k ∧ demoEnv.sin24 k ≤ 1 := by
  by_cases h : k < 24
  · interval_cases k <;> decide!
  · have e : demoEnv.sin24 k = 0 := List.getD_eq_default _ _ (by simp [sinTable]; omega)
    rw [e]
    norm_num

theorem demoEnv_cos12_bounds (k : Nat) : -1 ≤ demoEnv.cos12 k ∧ demoEnv.cos12 k ≤ 1 := by
  by_cases h : k < 12
  · interval_cases k <;> decide!
  · have e : demoEnv.cos12 k = 0 := List.getD_eq_default _ _ (by simp [cosTable]; omega)
    rw [e]
    norm_num

/-- C23: at the clock 2025-06-15T10:30:00Z the hour stamps the normalizer
writes itself carry one or two groups `:00` too many. For the response
`\x7b"hourly_forecast_groups": \x7b"a": [\x7b"time":"2025-01-01T05:30:00Z","value":1\x7d], "b": []\x7d\x7d`
and the group keys `a`, `b` the series of `a` starts with the canonicalized
time `2025-01-01T05:00:00:00:00Z` followed by the padded
`2025-06-15T11:00:00:00Z`, the series of `b` with the padded
`2025-06-15T10:00:00:00Z`. In general the padded entry at offset 0 is
stamped `2025-06-15T10:00:00:00Z`, the entry without a `time` member
`2025-06-15T10:30:00:00Z` (minutes kept), and `canonTime` returns
`2025-01-01T05:00:00:00:00Z` for `2025-01-01T05:30:00Z`; none has the form
`YYYY-MM-DDTHH:00:00Z`. The month branch of `canonTime` is well formed. -/
theorem hour_stamps_are_malformed :
    (hourlyOf (hyperTrain demoEnv
        "\x7b\"hourly_forecast_groups\": \x7b\"a\": [\x7b\"time\":\"2025-01-01T05:30:00Z\",\"value\":1\x7d], \"b\": []\x7d\x7d"
        ["a", "b"])).map (fun m => m.map (fun g => (g.1, (g.2.take 2).map (fun p => p.time))))
      = some [("a", ["2025-01-01T05:00:00:00:00Z", "2025-06-15T11:00:00:00Z"]),
              ("b", ["2025-06-15T10:00:00:00Z", "2025-06-15T11:00:00:00Z"])] ∧
    (normalizeHourlyGroup demoEnv (.arr [])).map (fun p => p.time)
      = (List.range 48).map
        (fun (i : Nat) => hourStamp (setUTCMinutesZero ((demoEnv.now : Int) + (i : Int) * 3600000))) ∧
    (hourlyPad demoEnv 0).time = "2025-06-15T10:00:00:00Z" ∧
    isHourStampForm (hourlyPad demoEnv 0).time = false ∧
    (hourlyTaken demoEnv 0 (.obj [("value", .num (.fin 1))])).time = "2025-06-15T10:30:00:00Z" ∧
    jsonEq (canonTime demoEnv (.str "2025-01-01T05:30:00Z") false)
      (.str "2025-01-01T05:00:00:00:00Z") = true ∧
    isHourStampForm "2025-01-01T05:00:00:00:00Z" = false ∧
    isHourStampForm "2025-06-15T10:00:00Z" = true ∧
    jsonEq (canonTime demoEnv (.str "2025-01-15T05:30:00Z") true)
      (.str "2025-01-01T00:00:00Z") = true := by
  decide!

/-- C24 (counterexample): at the clock 2025-06-15T10:30:00Z the padded hourly
value of the normalizer at offset 1 is 2.259 for every group, the fallback
value of the CSV endpoints for the same hour is 2.3088190451 for the group of
index 0 and 2.3288190451 for the group of index 1; for July 2025 the
normalizer synthesizes 744 × 2.2 × 0.9 = 1473.12 and the CSV fallback
744 × 1.7 = 1264.8. -/
theorem gap_filler_differs_from_fallback :
    (hourlyPad demoEnv 1).value = 2259 / 1000 ∧
    csvHourlyValue demoEnv demoEnv.now 1 0 = 2 + demoEnv.sin24 11 + 5 / 100 ∧
    csvHourlyValue demoEnv demoEnv.now 1 1 = 2 + demoEnv.sin24 11 + 2 / 100 + 5 / 100 ∧
    (hourlyPad demoEnv 1).value ≠ csvHourlyValue demoEnv demoEnv.now 1 0 ∧
    (monthlyEntry demoEnv (.arr []) demoEnv.now 1).value = 147312 / 100 ∧
    csvMonthlyValue demoEnv demoEnv.now 1 0 = 12648 / 10 := by
  decide!

/-- C24 (amended): the normalizer fills gaps with formulas of its own, which
are not those of the CSV fallback. With sine and cosine in [-1, 1]: the padded
hourly value at offset `i` is `round3(2 + sin(2π·hourOfDay/24))`, the same for
every group, where the CSV fallback gives
`2 + sin(2π·hourOfDay/24) + 0.02·g + 0.05·(i mod 3)` for the group of index
`g`; the monthly value synthesized for an absent entry is
`H × 2.2 × (1 + 0.1·cos(2π·monthIndex/12))`, where the CSV fallback gives
`H × (2.0 + 0.3·cos(2π·monthIndex/12) + 0.02·g)`, `H` being the number of
hours of the month. -/
theorem gap_filler_closed_forms (env : Env) (start i m g : Nat)
    (hsin : ∀ k, -1 ≤ env.sin24 k ∧ env.sin24 k ≤ 1)
    (hcos : ∀ k, -1 ≤ env.cos12 k ∧ env.cos12 k ≤ 1) :
    (hourlyPad env i).value
      = ((mathRound ((2 + env.sin24 (getUTCHours ((env.now : Int) + (i : Int) * 3600000)).toNat)
          * 1000) : ℤ) : ℚ) / 1000 ∧
    csvHourlyValue env env.now i g
      = 2 + env.sin24 (getUTCHours ((env.now : Int) + (i : Int) * 3600000)).toNat
          + (2 / 100) * g + ((i % 3 : Nat) : ℚ) * (5 / 100) ∧
    (monthlyEntry env (.arr []) start m).value
      = ((24 * daysInMonth (getUTCFullYear start + (getUTCMonth start + m) / 12)
            ((getUTCMonth start + m) % 12 + 1) : Int) : ℚ)
          * ((22 / 10) * (1 + (1 / 10) * env.cos12 ((getUTCMonth start + m) % 12).toNat)) ∧
    csvMonthlyValue env start m g
      = ((24 * daysInMonth (getUTCFullYear start + (getUTCMonth start + m) / 12)
            ((getUTCMonth start + m) % 12 + 1) : Int) : ℚ)
          * (2 + (3 / 10) * env.cos12 ((getUTCMonth start + m) % 12).toNat + (2 / 100) * g) :=
  ⟨hourlyPad_value env i hsin, csvHourlyValue_value env env.now i g hsin,
    monthlyEntry_absent_value env start m hcos, csvMonthlyValue_value env start m g hcos⟩

/-- C24 (witness): the closed forms at the clock 2025-06-15T10:30:00Z, hour
offset 1, month offset 1 (July 2025), group index 1. -/
theorem gap_filler_closed_forms_witness :
    (hourlyPad demoEnv 1).value
      = ((mathRound ((2 + demoEnv.sin24 (getUTCHours ((demoEnv.now : Int) + ((1 : Nat) : Int) * 3600000)).toNat)
          * 1000) : ℤ) : ℚ) / 1000 ∧
    csvHourlyValue demoEnv demoEnv.now 1 1
      = 2 + demoEnv.sin24 (getUTCHours ((demoEnv.now : Int) + ((1 : Nat) : Int) * 3600000)).toNat
          + (2 / 100) * ((1 : Nat) : ℚ) + ((1 % 3 : Nat) : ℚ) * (5 / 100) :=
  ⟨(gap_filler_closed_forms demoEnv demoEnv.now 1 1 1 demoEnv_sin24_bounds demoEnv_cos12_bounds).1,
   (gap_filler_closed_forms demoEnv demoEnv.now 1 1 1 demoEnv_sin24_bounds demoEnv_cos12_bounds).2.1⟩

/-! ## The forecast guard rail -/

theorem buildSyntheticForecast_head (env : Env) (k : Nat) :
    (buildSyntheticForecast env (k + 1)).take 1 = [syntheticEntry env 0] := by
  simp [buildSyntheticForecast, List.range_succ_eq_map]

theorem padForecast_eq (env : Env) :
    ∀ (n : Nat) (cleaned : List HPoint), cleaned.length + n ≤ 48 →
      padForecast env n cleaned = cleaned ++ List.replicate n (syntheticEntry env 0)
  | 0, cleaned, _ => by simp [padForecast]
  | n + 1, cleaned, h => by
    have e : 48 - cleaned.length = (47 - cleaned.length) + 1 := by omega
    rw [padForecast, e, buildSyntheticForecast_head,
      padForecast_eq env n (cleaned ++ [syntheticEntry env 0]) (by simp; omega)]
    simp [List.replicate_succ]

theorem sanitizeForecast_arr (env : Env) (xs : List JVal) :
    sanitizeForecast env (.arr xs)
      = (xs.take 48).enum.map (fun p => forecastTaken env p.1 p.2)
        ++ List.replicate (48 - (xs.take 48).length) (syntheticEntry env 0) := by
  have h := padForecast_eq env (48 - ((xs.take 48).enum.map (fun p => forecastTaken env p.1 p.2)).length)
    ((xs.take 48).enum.map (fun p => forecastTaken env p.1 p.2))
    (by simp)
  simp only [sanitizeForecast]
  rw [h]
  simp

theorem syntheticEntry_bounds (env : Env) (hsin : ∀ k, env.sin24 k ≤ 1) (i : Nat) :
    0 ≤ (syntheticEntry env i).value ∧ (syntheticEntry env i).value ≤ 50 := by
  have hv : (syntheticEntry env i).value
      = ((mathRound (max 0 (2 + env.sin24 (getUTCHours ((env.now : Int) + (i : Int) * 3600000)).toNat)
          * 1000) : ℤ) : ℚ) / 1000 := rfl
  have hs := hsin (getUTCHours ((env.now : Int) + (i : Int) * 3600000)).toNat
  have h0 : (0 : ℚ) ≤ max 0 (2 + env.sin24 (getUTCHours ((env.now : Int) + (i : Int) * 3600000)).toNat) :=
    le_max_left _ _
  have h1 : max 0 (2 + env.sin24 (getUTCHours ((env.now : Int) + (i : Int) * 3600000)).toNat) ≤ 50 :=
    max_le (by norm_num) (by linarith)
  rw [hv]
  generalize max 0 (2 + env.sin24 (getUTCHours ((env.now : Int) + (i : Int) * 3600000)).toNat) = val
    at h0 h1
  have hr := mathRound_bounds (val * 1000) 50000 (by linarith) (by push_cast; linarith)
  constructor
  · apply div_nonneg _ (by norm_num)
    exact_mod_cast hr.1
  · rw [div_le_iff₀ (by norm_num)]
    have : (mathRound (val * 1000) : ℚ) ≤ 50000 := by exact_mod_cast hr.2
    linarith

theorem forecastTaken_bounds (env : Env) (i : Nat) (item : JVal) :
    0 ≤ (forecastTaken env i item).value ∧ (forecastTaken env i item).value ≤ 50 :=
  sanitizeNumber_bounds env _ 0 0 50 (by norm_num) (le_refl _) (by norm_num)

theorem buildSyntheticForecast_spec (env : Env) (hsin : ∀ k, env.sin24 k ≤ 1) (n : Nat) :
    (buildSyntheticForecast env n).length = n ∧
    ∀ p, p ∈ buildSyntheticForecast env n → 0 ≤ p.value ∧ p.value ≤ 50 := by
  refine ⟨by simp [buildSyntheticForecast], ?_⟩
  intro p hp
  simp only [buildSyntheticForecast, List.mem_map] at hp
  obtain ⟨i, -, rfl⟩ := hp
  exact syntheticEntry_bounds env hsin i

theorem sanitizeForecast_spec (env : Env) (hsin : ∀ k, env.sin24 k ≤ 1) (f : JVal) :
    (sanitizeForecast env f).length = 48 ∧
    ∀ p, p ∈ sanitizeForecast env f → 0 ≤ p.value ∧ p.value ≤ 50 := by
  have hb := buildSyntheticForecast_spec env hsin 48
  cases f with
  | arr xs =>
    rw [sanitizeForecast_arr]
    refine ⟨by simp, ?_⟩
    intro p hp
    rw [List.mem_append] at hp
    rcases hp with hp | hp
    · simp only [List.mem_map] at hp
      obtain ⟨q, -, rfl⟩ := hp
      exact forecastTaken_bounds env q.1 q.2
    · rw [List.eq_of_mem_replicate hp]
      exact syntheticEntry_bounds env hsin 0
  | undefined => exact hb
  | null => exact hb
  | bool b => exact hb
  | num n => exact hb
  | str s => exact hb
  | obj kvs => exact hb

/-- C26: for every input value, with the sine at most 1, the forecast that
`sanitizeForecast` returns, and the `generated_forecast` of the object that
`sanitizeAnalysisObject` returns, has exactly 48 entries (each one an entry
with a time and a value), and every value lies in [0, 50]. -/
theorem sanitized_forecast_has_48_bounded_entries (env : Env) (hsin : ∀ k, env.sin24 k ≤ 1)
    (f obj : JVal) :
    ((sanitizeForecast env f).length = 48 ∧
      ∀ p, p ∈ sanitizeForecast env f → 0 ≤ p.value ∧ p.value ≤ 50) ∧
    ((sanitizeAnalysisObject env obj).generated_forecast.length = 48 ∧
      ∀ p, p ∈ (sanitizeAnalysisObject env obj).generated_forecast →
        0 ≤ p.value ∧ p.value ≤ 50) := by
  refine ⟨sanitizeForecast_spec env hsin f, ?_⟩
  unfold sanitizeAnalysisObject
  split
  · exact buildSyntheticForecast_spec env hsin 48
  · exact sanitizeForecast_spec env hsin _

/-- C26 (witness): a 50-entry array whose first entry has the value 70 and
whose second entry is `null`, and the non-object input `null`. -/
theorem sanitized_forecast_has_48_bounded_entries_witness :
    (sanitizeForecast demoEnv (.arr (.obj [("value", .num (.fin 70))] :: List.replicate 49 .null))).length
      = 48 ∧
    (sanitizeAnalysisObject demoEnv .null).generated_forecast.length = 48 :=
  ⟨(sanitized_forecast_has_48_bounded_entries demoEnv (fun k => (demoEnv_sin24_bounds k).2)
      (.arr (.obj [("value", .num (.fin 70))] :: List.replicate 49 .null)) .null).1.1,
   (sanitized_forecast_has_48_bounded_entries demoEnv (fun k => (demoEnv_sin24_bounds k).2)
      (.arr (.obj [("value", .num (.fin 70))] :: List.replicate 49 .null)) .null).2.1⟩

/-- C27: at the clock 2025-06-15T10:30:00Z every entry that `sanitizeForecast`
pads with is the entry of index 0 of a fresh synthetic forecast, stamped with
the clock time itself: for the empty array all 48 entries carry the time
`2025-06-15T10:30:00.000Z` and the value 2.5, and for a one-entry array the
entries 1..47 do, where the synthetic forecast has `2025-06-15T15:30:00.000Z`
at index 5. -/
theorem sanitizeForecast_padding_repeats_first_entry :
    sanitizeForecast demoEnv (.arr [])
      = List.replicate 48 ⟨"2025-06-15T10:30:00.000Z", 5 / 2⟩ ∧
    sanitizeForecast demoEnv (.arr [.obj [("time", .str "2025-06-15T10:00:00Z"), ("value", .num (.fin 1))]])
      = ⟨"2025-06-15T10:00:00Z", 1⟩ :: List.replicate 47 ⟨"2025-06-15T10:30:00.000Z", 5 / 2⟩ ∧
    (buildSyntheticForecast demoEnv 48)[5]?.map (fun p => p.time)
      = some "2025-06-15T15:30:00.000Z" ∧
    (buildSyntheticForecast demoEnv 48)[0]?.map (fun p => p.time)
      = some "2025-06-15T10:30:00.000Z" := by
  decide!

/-- C25: a record whose group identifier is the number 0 or the empty string
(and that has no `key` or `id`) gets no entry: `arrayToMap` returns the empty
map for `[\x7bgroup: 0, data: [1]\x7d]` and for `[\x7bgroup: "", data: [1]\x7d]`, and
for `[\x7bgroup: 0, key: "k", data: [1]\x7d]` it files the series under `k`;
the record `\x7bgroup: 7, data: [1]\x7d` is filed under `7`. -/
theorem arrayToMap_skips_falsy_identifier :
    jsonEq (arrayToMap demoEnv (.arr [.obj [("group", .num (.fin 0)), ("data", .arr [.num (.fin 1)])]]))
      (.obj []) = true ∧
    jsonEq (arrayToMap demoEnv (.arr [.obj [("group", .str ""), ("data", .arr [.num (.fin 1)])]]))
      (.obj []) = true ∧
    jsonEq (arrayToMap demoEnv (.arr [.obj [("group", .num (.fin 0)), ("key", .str "k"),
        ("data", .arr [.num (.fin 1)])]]))
      (.obj [("k", .arr [.num (.fin 1)])]) = true ∧
    jsonEq (arrayToMap demoEnv (.arr [.obj [("group", .num (.fin 7)), ("data", .arr [.num (.fin 1)])]]))
      (.obj [("7", .arr [.num (.fin 1)])]) = true := by
  decide!

/-- C28: for the response
`\x7b"rows": \x7b"x": [\x7b"time":"2025-01-01T00:00:00Z","value":1\x7d], "y": []\x7d\x7d`
and the group keys `a`, `b` the salvage path builds the hourly map (48 points
for each key) and the monthly map stays `null`; the same series under
`generated` gets both maps. -/
theorem salvage_leaves_monthly_null :
    (hourlyOf (hyperTrain demoEnv
        "\x7b\"rows\": \x7b\"x\": [\x7b\"time\":\"2025-01-01T00:00:00Z\",\"value\":1\x7d], \"y\": []\x7d\x7d"
        ["a", "b"])).map (fun m => m.map (fun g => (g.1, g.2.length)))
      = some [("a", 48), ("b", 48)] ∧
    monthlyOf (hyperTrain demoEnv
        "\x7b\"rows\": \x7b\"x\": [\x7b\"time\":\"2025-01-01T00:00:00Z\",\"value\":1\x7d], \"y\": []\x7d\x7d"
        ["a", "b"]) = none ∧
    threw (hyperTrain demoEnv
        "\x7b\"rows\": \x7b\"x\": [\x7b\"time\":\"2025-01-01T00:00:00Z\",\"value\":1\x7d], \"y\": []\x7d\x7d"
        ["a", "b"]) = false ∧
    (monthlyOf (hyperTrain demoEnv
        "\x7b\"generated\": [\x7b\"time\":\"2025-01-01T00:00:00Z\",\"value\":1\x7d]\x7d"
        ["a", "b"])).map (fun m => m.map (fun g => (g.1, g.2.length)))
      = some [("a", 12), ("b", 12)] := by
  decide!

end WattForge
